import Mathlib

/-!
# CLplusplus: reference-counted handles and command submission

A shallow embedding of `CLplusplus/program.cpp`, `CLplusplus/program.hpp` and
`CLplusplus/command_queue.cpp`.  OpenCL identifiers and host pointers are natural
numbers (`0` is `NULL` / `nullptr`), the OpenCL runtime is a mock executor that answers
every call from a response function and records the call in a log, and a C++ call
either returns, throws, or ends in `std::terminate`.
-/

namespace CLplusplus

/-! ## Identifiers, status codes, failures -/

/-- An opaque OpenCL identifier or host pointer; `0` is the null value. -/
abbrev Ident := Nat

/-- The null identifier (`NULL`, `nullptr`). -/
def NULL : Ident := 0

/-- Status code `CL_SUCCESS` of `CL/cl.h`. -/
def CL_SUCCESS : Int := 0

/-- Query name `CL_PROGRAM_REFERENCE_COUNT` of `CL/cl.h`. -/
def CL_PROGRAM_REFERENCE_COUNT : Nat := 0x1160

/-- Size in bytes of a `cl_uint`. -/
def sizeof_cl_uint : Nat := 4

/-- The exceptions thrown by the library, and `std::bad_function_call`, thrown when an
empty `std::function` is called. -/
inductive Failure where
  | InvalidArgument
  | ExecutorError (code : Int)
  | UnsupportedBuildStatus
  | bad_function_call
  deriving DecidableEq, Repr

/-- How a C++ call ends: it returns a value, throws, or the process ends in
`std::terminate`. -/
inductive Outcome (α : Type) where
  | returned (a : α)
  | raised (f : Failure)
  | terminated
  deriving DecidableEq, Repr

/-- True when the call threw. -/
def Outcome.isRaised {α : Type} : Outcome α → Bool
  | .raised _ => true
  | _ => false

/-- True when the process was ended. -/
def Outcome.isTerminated {α : Type} : Outcome α → Bool
  | .terminated => true
  | _ => false

/-- True when the call returned normally. -/
def Outcome.isReturned {α : Type} : Outcome α → Bool
  | .returned _ => true
  | _ => false

/-! ## The mock executor -/

/-- One call into the OpenCL runtime with the arguments the library passes.  A wait list
argument is `none` for a null array; `event` tells whether the output slot for the new
event is non-null.  For `clBuildProgram`, `pfn_notify` tells whether `raw_callback` is
registered, and `user_data` is the pointer it will be called with. -/
inductive Call where
  | clRetainProgram (program : Ident)
  | clReleaseProgram (program : Ident)
  | clGetProgramInfo (program : Ident) (param_name : Nat) (param_value_size : Nat)
      (param_value : Bool) (param_value_size_ret : Bool)
  | clRetainCommandQueue (command_queue : Ident)
  | clReleaseCommandQueue (command_queue : Ident)
  | clGetCommandQueueInfo (command_queue : Ident) (param_name : Nat) (param_value_size : Nat)
      (param_value : Ident) (param_value_size_ret : Bool)
  | clFlush (command_queue : Ident)
  | clFinish (command_queue : Ident)
  | clRetainEvent (event : Ident)
  | clEnqueueReadBuffer (command_queue buffer : Ident) (blocking_read : Bool)
      (offset size : Nat) (ptr : Ident) (num_events : Nat)
      (event_wait_list : Option (List Ident)) (event : Bool)
  | clEnqueueWriteBuffer (command_queue buffer : Ident) (blocking_write : Bool)
      (offset size : Nat) (ptr : Ident) (num_events : Nat)
      (event_wait_list : Option (List Ident)) (event : Bool)
  | clEnqueueCopyBuffer (command_queue src_buffer dst_buffer : Ident)
      (src_offset dst_offset size : Nat) (num_events : Nat)
      (event_wait_list : Option (List Ident)) (event : Bool)
  | clEnqueueFillBuffer (command_queue buffer : Ident) (pattern : Ident)
      (pattern_size offset size : Nat) (num_events : Nat)
      (event_wait_list : Option (List Ident)) (event : Bool)
  | clEnqueueMapBuffer (command_queue buffer : Ident) (blocking_map : Bool) (map_flags : Nat)
      (offset size : Nat) (num_events : Nat)
      (event_wait_list : Option (List Ident)) (event : Bool)
  | clEnqueueUnmapMemObject (command_queue memobj : Ident) (mapped_ptr : Ident)
      (num_events : Nat) (event_wait_list : Option (List Ident)) (event : Bool)
  | clEnqueueMigrateMemObjects (command_queue : Ident) (num_mem_objects : Nat)
      (mem_objects : List Ident) (flags : Nat) (num_events : Nat)
      (event_wait_list : Option (List Ident)) (event : Bool)
  | clGetProgramBuildInfo (program device : Ident) (param_name : Nat)
      (param_value_size : Nat) (param_value : Bool) (param_value_size_ret : Bool)
  | clBuildProgram (program : Ident) (num_devices : Nat) (device_list : Option (List Ident))
      (options : String) (pfn_notify : Bool) (user_data : Ident)
  | clReleaseEvent (event : Ident)
  | clCreateUserEvent (context : Ident)
  | clSetUserEventStatus (event : Ident) (execution_status : Int)
  | clRetainContext (context : Ident)
  | clReleaseContext (context : Ident)
  | clRetainDevice (device : Ident)
  | clReleaseDevice (device : Ident)
  deriving DecidableEq, Repr

/-- What the runtime hands back for one call: the status code (for `clEnqueueMapBuffer`
the code written to `errcode_ret`), the event written to the output slot, the pointer
returned by a map, and the value and the size written by a query.  A query that fills an
array of identifiers writes `ids`; a query for a `cl_int` writes `int_value`. -/
structure Reply where
  status : Int
  event : Ident
  result : Ident
  value : Nat
  size_ret : Nat
  ids : List Ident := []
  int_value : Int := 0
  deriving DecidableEq, Repr

/-- The data members of `Program`. -/
structure Program where
  internal_id : Ident
  internal_callback_ptr : Ident
  deriving DecidableEq, Repr

/-- Modelled from the spec: `Event` of `event.hpp`, which is not among the sources; a
resource handle around an event identifier. -/
structure Event where
  internal_id : Ident
  deriving DecidableEq, Repr

/-- A build callback (`Program::BuildCallback`, a `std::function`): empty, a callable
supplied by the user (told apart by a tag), or the closure made by
`make_build_event_callback` with the copies it captured. -/
inductive BuildCallback where
  | empty
  | user (tag : Nat)
  | build_event (user_event : Event) (active_program_reference : Program)
  deriving DecidableEq, Repr

/-- The world outside the library: the executor's behaviour (its reply to a call given
the calls made so far), the log of calls made so far (oldest first), and the build
callback closures deleted so far.  The closures created with `new` are kept in `heap`,
the closure at pointer `k` in place `k - 1`; `stale_uses` lists the pointers that were
read after their closure had been deleted, and `invoked` the user callables that were
called, each with the program it was called on. -/
structure World where
  respond : List Call → Call → Reply
  log : List Call
  freed : List Ident
  heap : List BuildCallback := []
  stale_uses : List Ident := []
  invoked : List (Nat × Ident) := []

/-- A computation of the library: it runs in a world and ends with an outcome. -/
def M (α : Type) : Type := World → Outcome α × World

/-- Return normally. -/
def M.pure {α : Type} (a : α) : M α := fun w => (.returned a, w)

/-- Sequencing: an exception or a termination skips the rest. -/
def M.bind {α β : Type} (m : M α) (f : α → M β) : M β := fun w =>
  match m w with
  | (.returned a, w1) => f a w1
  | (.raised e, w1) => (.raised e, w1)
  | (.terminated, w1) => (.terminated, w1)

instance : Monad M where
  pure := M.pure
  bind := M.bind

/-- The C++ `throw`. -/
def raise {α : Type} (f : Failure) : M α := fun w => (.raised f, w)

/-- Issue one call to the executor: it is appended to the log and answered. -/
def exec (c : Call) : M Reply := fun w =>
  (.returned (w.respond w.log c), { w with log := w.log ++ [c] })

/-- The deallocation that ends a C++ `delete` expression: the storage behind the pointer
is given back, which is recorded.  The destructor that a `delete` expression runs first
is in `delete_closure`. -/
def delete (ptr : Ident) : M Unit := fun w =>
  (.returned (), { w with freed := w.freed ++ [ptr] })

/-- A function that is `noexcept`: an exception that would leave it ends the process in
`std::terminate`.  Destructors are implicitly `noexcept` since C++11. -/
def noexcept {α : Type} (m : M α) : M α := fun w =>
  match m w with
  | (.raised _, w1) => (.terminated, w1)
  | r => r

/-- Modelled from the spec: `throw_if_failed` of `common.hpp`, which is not among the
sources.  Every status code other than success is translated into a typed failure that
carries the raw code. -/
def throw_if_failed (error_code : Int) : M Unit :=
  if error_code = CL_SUCCESS then pure () else raise (.ExecutorError error_code)

/-! ## Event: life cycle -/

/-- Modelled from the spec: `Event::retain`, the increment of the external count. -/
def Event.retain (self : Event) : M Unit := do
  let r ← exec (.clRetainEvent self.internal_id)
  throw_if_failed r.status

/-- Modelled from the spec: `Event::release`, the decrement of the external count. -/
def Event.release (self : Event) : M Unit := do
  let r ← exec (.clReleaseEvent self.internal_id)
  throw_if_failed r.status

/-- Modelled from the spec: the copy constructor of `Event`; copying a resource handle
increments the external count. -/
def Event.copy_construct (source : Event) : M Event := do
  let self : Event := { internal_id := source.internal_id }
  self.retain
  pure self

/-- Modelled from the spec: the destructor of `Event`; a handle is destroyed via an
unconditional decrement. -/
def Event.destructor (self : Event) : M Unit := noexcept self.release

/-! ## Program -/

/-- `Program::raw_identifier`. -/
def Program.raw_identifier (self : Program) : Ident := self.internal_id

/-- `Program::retain`. -/
def Program.retain (self : Program) : M Unit := do
  let r ← exec (.clRetainProgram self.internal_id)
  throw_if_failed r.status

/-- `Program::raw_query` for a query whose storage is non-null; the value written to the
storage is returned. -/
def Program.raw_query (self : Program) (parameter_name : Nat) (output_storage_size : Nat)
    (actual_output_size : Bool) : M Nat := do
  let r ← exec (.clGetProgramInfo self.internal_id parameter_name output_storage_size true
    actual_output_size)
  throw_if_failed r.status
  pure r.value

/-- `Program::raw_uint_query`, that is `raw_value_query<cl_uint>`. -/
def Program.raw_uint_query (self : Program) (parameter_name : Nat) : M Nat := do
  let result ← self.raw_query parameter_name sizeof_cl_uint false
  pure (result % 2 ^ 32)

/-- `Program::reference_count`. -/
def Program.reference_count (self : Program) : M Nat :=
  self.raw_uint_query CL_PROGRAM_REFERENCE_COUNT

/-- The body of `Program::release`, its statement `delete internal_callback_ptr` being
run by `delete_callback`. -/
def Program.release_with (delete_callback : Ident → M Unit) (self : Program) : M Unit := do
  let last_reference := (← self.reference_count) == 1
  let r ← exec (.clReleaseProgram self.internal_id)
  throw_if_failed r.status
  if last_reference && self.internal_callback_ptr != NULL then
    delete_callback self.internal_callback_ptr
  else
    pure ()

/-- The destructor of a build callback, the destructor of `Program` being given: what a
closure captured is destroyed, in the reverse order of the captures, so the program copy
first and the event after it. -/
def BuildCallback.destructor_with (program_destructor : Program → M Unit) :
    BuildCallback → M Unit
  | .build_event e p => do
    program_destructor p
    e.destructor
  | _ => pure ()

/-- The C++ `delete` of the closure behind a pointer: the closure, when it is alive, is
destroyed, then its storage is given back.  Deleting a closure again, or through a
pointer that `new` never returned, only records the deallocation.  Destroying a closure
of the build bridge destroys the program copy it holds, whose `release` may in turn
delete the closure that copy points to; `depth` is how many closures may be destroyed
inside one another.  The copy was made before the closure was allocated, so its pointer
is to an older closure, and a pointer that is not older only has its deallocation
recorded. -/
def delete_closure_within : Nat → Ident → M Unit
  | 0, ptr => fun w => if ptr = NULL then (.returned (), w) else delete ptr w
  | depth + 1, ptr => fun w =>
    if ptr = NULL then (.returned (), w)
    else if ptr ∈ w.freed then delete ptr w
    else
      match w.heap[ptr - 1]? with
      | none => delete ptr w
      | some c => (do
          c.destructor_with (fun p => noexcept (p.release_with (fun older =>
            if older < ptr then delete_closure_within depth older else delete older)))
          delete ptr) w

/-- The statements `delete callback_ptr` of `raw_callback` and
`delete internal_callback_ptr` of `Program::release`.  No more closures can be destroyed
inside one another than the heap holds. -/
def delete_closure (ptr : Ident) : M Unit := fun w =>
  delete_closure_within w.heap.length ptr w

/-- `Program::release`. -/
def Program.release (self : Program) : M Unit := self.release_with delete_closure

/-- `Program::Program(const cl_program, const bool)`. -/
def Program.construct (identifier : Ident) (increment_reference_count : Bool) : M Program := do
  let self : Program := { internal_id := identifier, internal_callback_ptr := NULL }
  if self.internal_id = NULL then
    raise .InvalidArgument
  else
    if increment_reference_count then
      self.retain
    else
      pure ()
    pure self

/-- `Program::copy_internal_data`: the new members of the object it is called on. -/
def Program.copy_internal_data (source : Program) : Program :=
  { internal_id := source.internal_id, internal_callback_ptr := source.internal_callback_ptr }

/-- `Program::Program(const Program &)`. -/
def Program.copy_construct (source : Program) : M Program := do
  let self := Program.copy_internal_data source
  self.retain
  pure self

/-- `Program::operator=`.  The object assigned to is changed in place, so its members
after the call are given next to the outcome, also when the call throws. -/
def Program.operator_assign (_self source : Program) : World → (Outcome Unit × Program) × World :=
  fun w =>
    let self1 := Program.copy_internal_data source
    let r := self1.retain w
    ((r.1, self1), r.2)

/-- `Program::~Program`. -/
def Program.destructor (self : Program) : M Unit := noexcept self.release

/-! ## CommandQueue: life cycle -/

/-- The data member of `CommandQueue`. -/
structure CommandQueue where
  internal_id : Ident
  deriving DecidableEq, Repr

/-- Modelled from the spec: `CommandQueue::raw_identifier` of `command_queue.hpp`, which
is not among the sources; it exposes the identifier the handle holds. -/
def CommandQueue.raw_identifier (self : CommandQueue) : Ident := self.internal_id

/-- `CommandQueue::retain`. -/
def CommandQueue.retain (self : CommandQueue) : M Unit := do
  let r ← exec (.clRetainCommandQueue self.internal_id)
  throw_if_failed r.status

/-- `CommandQueue::release`. -/
def CommandQueue.release (self : CommandQueue) : M Unit := do
  let r ← exec (.clReleaseCommandQueue self.internal_id)
  throw_if_failed r.status

/-- `CommandQueue::CommandQueue(const cl_command_queue, const bool)`. -/
def CommandQueue.construct (identifier : Ident) (increment_reference_count : Bool) :
    M CommandQueue := do
  let self : CommandQueue := { internal_id := identifier }
  if self.internal_id = NULL then
    raise .InvalidArgument
  else
    if increment_reference_count then
      self.retain
    else
      pure ()
    pure self

/-- `CommandQueue::CommandQueue(const CommandQueue &)`. -/
def CommandQueue.copy_construct (source : CommandQueue) : M CommandQueue := do
  let self : CommandQueue := { internal_id := source.internal_id }
  self.retain
  pure self

/-- `CommandQueue::operator=`.  The object assigned to is changed in place, so its member
after the call is given next to the outcome, also when the call throws. -/
def CommandQueue.operator_assign (_self source : CommandQueue) :
    World → (Outcome Unit × CommandQueue) × World :=
  fun w =>
    let self1 : CommandQueue := { internal_id := source.internal_id }
    let r := self1.retain w
    ((r.1, self1), r.2)

/-- Modelled from the spec: `CommandQueue::~CommandQueue` of `command_queue.hpp`, which is
not among the sources; a handle is destroyed via an unconditional decrement at end of
scope, as `Program::~Program` does. -/
def CommandQueue.destructor (self : CommandQueue) : M Unit := noexcept self.release

/-! ## The handles a submission takes -/

/-- Modelled from the spec: `Event::raw_identifier`. -/
def Event.raw_identifier (self : Event) : Ident := self.internal_id

/-- Modelled from the spec: the constructor of `Event` from an identifier.  Constructing
a resource handle from the null identifier fails with `InvalidArgument`, for every
resource kind; the initial increment is skipped when asked. -/
def Event.construct (identifier : Ident) (increment_reference_count : Bool) : M Event := do
  let self : Event := { internal_id := identifier }
  if self.internal_id = NULL then
    raise .InvalidArgument
  else
    if increment_reference_count then
      let r ← exec (.clRetainEvent self.internal_id)
      throw_if_failed r.status
    else
      pure ()
    pure self

/-- Modelled from the spec: `EventWaitList` of `event.hpp`, an ordered sequence of
completion tokens. -/
abbrev EventWaitList := List Event

/-- Modelled from the spec: `Buffer` of `buffer.hpp`, a resource handle around a memory
object identifier. -/
structure Buffer where
  internal_id : Ident
  deriving DecidableEq, Repr

/-- Modelled from the spec: `Buffer::raw_identifier`. -/
def Buffer.raw_identifier (self : Buffer) : Ident := self.internal_id

/-- Modelled from the spec: `MemoryObject` of `memory_object.hpp`, a resource handle
around a memory object identifier. -/
structure MemoryObject where
  internal_id : Ident
  deriving DecidableEq, Repr

/-- Modelled from the spec: `MemoryObject::raw_identifier`. -/
def MemoryObject.raw_identifier (self : MemoryObject) : Ident := self.internal_id

/-- A variable-length array right after its declaration; the content it starts with is
never read. -/
def uninitialised (n : Nat) : List Ident := List.replicate n NULL

/-- The loop
`for(size_t i = 0; i < num_events; ++i) raw_event_ids[i] = event_wait_list[i].raw_identifier();`
run on the array `raw_event_ids`. -/
def fill_raw_event_ids (event_wait_list : EventWaitList) (num_events : Nat)
    (raw_event_ids : List Ident) : List Ident :=
  (List.range num_events).foldl
    (fun arr i => arr.set i (event_wait_list.getD i { internal_id := NULL }).raw_identifier)
    raw_event_ids

/-- The loop
`for(size_t i = 0; i < num_objects; ++i) raw_object_ids[i] = mem_objects[i].get().raw_identifier();`
run on the array `raw_object_ids`. -/
def fill_raw_object_ids (mem_objects : List MemoryObject) (num_objects : Nat)
    (raw_object_ids : List Ident) : List Ident :=
  (List.range num_objects).foldl
    (fun arr i => arr.set i (mem_objects.getD i { internal_id := NULL }).raw_identifier)
    raw_object_ids

/-- The content of the event output slot after an executor call: the event the executor
wrote when the slot is non-null. -/
def written (event : Bool) (r : Reply) : Ident := if event then r.event else NULL

/-! ## CommandQueue: queries, flush, finish -/

/-- `CommandQueue::raw_query`; what the executor wrote is returned. -/
def CommandQueue.raw_query (self : CommandQueue) (parameter_name : Nat)
    (output_storage_size : Nat) (output_storage : Ident) (actual_output_size : Bool) :
    M Reply := do
  let r ← exec (.clGetCommandQueueInfo self.internal_id parameter_name output_storage_size
    output_storage actual_output_size)
  throw_if_failed r.status
  pure r

/-- `CommandQueue::raw_query_output_size`. -/
def CommandQueue.raw_query_output_size (self : CommandQueue) (parameter_name : Nat) :
    M Nat := do
  let r ← self.raw_query parameter_name 0 NULL true
  pure r.size_ret

/-- `CommandQueue::flush`. -/
def CommandQueue.flush (self : CommandQueue) : M Unit := do
  let r ← exec (.clFlush self.internal_id)
  throw_if_failed r.status

/-- `CommandQueue::finish`. -/
def CommandQueue.finish (self : CommandQueue) : M Unit := do
  let r ← exec (.clFinish self.internal_id)
  throw_if_failed r.status

/-! ## CommandQueue: the raw submissions

Each returns the content of the event output slot after the call. -/

/-- `CommandQueue::raw_read_buffer`. -/
def CommandQueue.raw_read_buffer (self : CommandQueue) (source_buffer : Buffer)
    (offset : Nat) (destination : Ident) (size : Nat) (synchronous_read : Bool)
    (event_wait_list : EventWaitList) (event : Bool) : M Ident := do
  let num_events := event_wait_list.length
  if num_events = 0 then
    let r ← exec (.clEnqueueReadBuffer self.internal_id source_buffer.raw_identifier
      synchronous_read offset size destination 0 none event)
    throw_if_failed r.status
    pure (written event r)
  else
    let raw_event_ids := fill_raw_event_ids event_wait_list num_events (uninitialised num_events)
    let r ← exec (.clEnqueueReadBuffer self.internal_id source_buffer.raw_identifier
      synchronous_read offset size destination num_events (some raw_event_ids) event)
    throw_if_failed r.status
    pure (written event r)

/-- `CommandQueue::raw_write_buffer`. -/
def CommandQueue.raw_write_buffer (self : CommandQueue) (source : Ident)
    (wait_for_availability : Bool) (dest_buffer : Buffer) (offset size : Nat)
    (event_wait_list : EventWaitList) (event : Bool) : M Ident := do
  let num_events := event_wait_list.length
  if num_events = 0 then
    let r ← exec (.clEnqueueWriteBuffer self.internal_id dest_buffer.raw_identifier
      wait_for_availability offset size source 0 none event)
    throw_if_failed r.status
    pure (written event r)
  else
    let raw_event_ids := fill_raw_event_ids event_wait_list num_events (uninitialised num_events)
    let r ← exec (.clEnqueueWriteBuffer self.internal_id dest_buffer.raw_identifier
      wait_for_availability offset size source num_events (some raw_event_ids) event)
    throw_if_failed r.status
    pure (written event r)

/-- `CommandQueue::raw_copy_buffer`. -/
def CommandQueue.raw_copy_buffer (self : CommandQueue) (source_buffer : Buffer)
    (source_offset : Nat) (dest_buffer : Buffer) (dest_offset size : Nat)
    (event_wait_list : EventWaitList) (event : Bool) : M Ident := do
  let num_events := event_wait_list.length
  if num_events = 0 then
    let r ← exec (.clEnqueueCopyBuffer self.internal_id source_buffer.raw_identifier
      dest_buffer.raw_identifier source_offset dest_offset size 0 none event)
    throw_if_failed r.status
    pure (written event r)
  else
    let raw_event_ids := fill_raw_event_ids event_wait_list num_events (uninitialised num_events)
    let r ← exec (.clEnqueueCopyBuffer self.internal_id source_buffer.raw_identifier
      dest_buffer.raw_identifier source_offset dest_offset size num_events (some raw_event_ids)
      event)
    throw_if_failed r.status
    pure (written event r)

/-- `CommandQueue::raw_fill_buffer`. -/
def CommandQueue.raw_fill_buffer (self : CommandQueue) (pattern : Ident) (pattern_size : Nat)
    (dest_buffer : Buffer) (offset size : Nat) (event_wait_list : EventWaitList)
    (event : Bool) : M Ident := do
  let num_events := event_wait_list.length
  if num_events = 0 then
    let r ← exec (.clEnqueueFillBuffer self.internal_id dest_buffer.raw_identifier pattern
      pattern_size offset size 0 none event)
    throw_if_failed r.status
    pure (written event r)
  else
    let raw_event_ids := fill_raw_event_ids event_wait_list num_events (uninitialised num_events)
    let r ← exec (.clEnqueueFillBuffer self.internal_id dest_buffer.raw_identifier pattern
      pattern_size offset size num_events (some raw_event_ids) event)
    throw_if_failed r.status
    pure (written event r)

/-- `CommandQueue::raw_map_buffer`; the pointer obtained comes with the content of the
event output slot. -/
def CommandQueue.raw_map_buffer (self : CommandQueue) (buffer : Buffer) (offset size : Nat)
    (synchronous_map : Bool) (map_flags : Nat) (event_wait_list : EventWaitList)
    (event : Bool) : M (Ident × Ident) := do
  let num_events := event_wait_list.length
  let r ← (if num_events = 0 then
      exec (.clEnqueueMapBuffer self.internal_id buffer.raw_identifier synchronous_map
        map_flags offset size 0 none event)
    else
      let raw_event_ids :=
        fill_raw_event_ids event_wait_list num_events (uninitialised num_events)
      exec (.clEnqueueMapBuffer self.internal_id buffer.raw_identifier synchronous_map
        map_flags offset size num_events (some raw_event_ids) event))
  let error_code := r.status
  let result := r.result
  throw_if_failed error_code
  pure (result, written event r)

/-- `CommandQueue::raw_unmap_mem_object`. -/
def CommandQueue.raw_unmap_mem_object (self : CommandQueue) (memobj : MemoryObject)
    (mapped_ptr : Ident) (event_wait_list : EventWaitList) (event : Bool) : M Ident := do
  let num_events := event_wait_list.length
  if num_events = 0 then
    let r ← exec (.clEnqueueUnmapMemObject self.internal_id memobj.raw_identifier mapped_ptr
      0 none event)
    throw_if_failed r.status
    pure (written event r)
  else
    let raw_event_ids := fill_raw_event_ids event_wait_list num_events (uninitialised num_events)
    let r ← exec (.clEnqueueUnmapMemObject self.internal_id memobj.raw_identifier mapped_ptr
      num_events (some raw_event_ids) event)
    throw_if_failed r.status
    pure (written event r)

/-- `CommandQueue::raw_migrate_mem_objects`. -/
def CommandQueue.raw_migrate_mem_objects (self : CommandQueue)
    (mem_objects : List MemoryObject) (flags : Nat) (event_wait_list : EventWaitList)
    (event : Bool) : M Ident := do
  let num_objects := mem_objects.length
  let raw_object_ids := fill_raw_object_ids mem_objects num_objects (uninitialised num_objects)
  let num_events := event_wait_list.length
  if num_events = 0 then
    let r ← exec (.clEnqueueMigrateMemObjects self.internal_id num_objects raw_object_ids
      flags 0 none event)
    throw_if_failed r.status
    pure (written event r)
  else
    let raw_event_ids := fill_raw_event_ids event_wait_list num_events (uninitialised num_events)
    let r ← exec (.clEnqueueMigrateMemObjects self.internal_id num_objects raw_object_ids
      flags num_events (some raw_event_ids) event)
    throw_if_failed r.status
    pure (written event r)

/-! ## CommandQueue: the public call shapes -/

/-- `CommandQueue::enqueued_read_buffer`. -/
def CommandQueue.enqueued_read_buffer (self : CommandQueue) (source_buffer : Buffer)
    (offset : Nat) (destination : Ident) (size : Nat) (event_wait_list : EventWaitList) :
    M Event := do
  let event_id ← self.raw_read_buffer source_buffer offset destination size false
    event_wait_list true
  Event.construct event_id false

/-- `CommandQueue::enqueue_read_buffer`. -/
def CommandQueue.enqueue_read_buffer (self : CommandQueue) (source_buffer : Buffer)
    (offset : Nat) (destination : Ident) (size : Nat) (event_wait_list : EventWaitList) :
    M Unit := do
  let _ ← self.raw_read_buffer source_buffer offset destination size false event_wait_list
    false
  pure ()

/-- `CommandQueue::read_buffer`. -/
def CommandQueue.read_buffer (self : CommandQueue) (source_buffer : Buffer)
    (offset : Nat) (destination : Ident) (size : Nat) (event_wait_list : EventWaitList) :
    M Unit := do
  let _ ← self.raw_read_buffer source_buffer offset destination size true event_wait_list
    false
  pure ()

/-- `CommandQueue::enqueued_write_buffer`. -/
def CommandQueue.enqueued_write_buffer (self : CommandQueue) (source : Ident)
    (wait_for_availability : Bool) (dest_buffer : Buffer) (offset size : Nat)
    (event_wait_list : EventWaitList) : M Event := do
  let event_id ← self.raw_write_buffer source wait_for_availability dest_buffer offset size
    event_wait_list true
  Event.construct event_id false

/-- `CommandQueue::enqueue_write_buffer`. -/
def CommandQueue.enqueue_write_buffer (self : CommandQueue) (source : Ident)
    (wait_for_availability : Bool) (dest_buffer : Buffer) (offset size : Nat)
    (event_wait_list : EventWaitList) : M Unit := do
  let _ ← self.raw_write_buffer source wait_for_availability dest_buffer offset size
    event_wait_list false
  pure ()

/-- `CommandQueue::enqueued_copy_buffer`. -/
def CommandQueue.enqueued_copy_buffer (self : CommandQueue) (source_buffer : Buffer)
    (source_offset : Nat) (dest_buffer : Buffer) (dest_offset size : Nat)
    (event_wait_list : EventWaitList) : M Event := do
  let event_id ← self.raw_copy_buffer source_buffer source_offset dest_buffer dest_offset size
    event_wait_list true
  Event.construct event_id false

/-- `CommandQueue::enqueue_copy_buffer`. -/
def CommandQueue.enqueue_copy_buffer (self : CommandQueue) (source_buffer : Buffer)
    (source_offset : Nat) (dest_buffer : Buffer) (dest_offset size : Nat)
    (event_wait_list : EventWaitList) : M Unit := do
  let _ ← self.raw_copy_buffer source_buffer source_offset dest_buffer dest_offset size
    event_wait_list false
  pure ()

/-- `CommandQueue::raw_enqueued_fill_buffer`. -/
def CommandQueue.raw_enqueued_fill_buffer (self : CommandQueue) (pattern : Ident)
    (pattern_size : Nat) (dest_buffer : Buffer) (offset size : Nat)
    (event_wait_list : EventWaitList) : M Event := do
  let event_id ← self.raw_fill_buffer pattern pattern_size dest_buffer offset size
    event_wait_list true
  Event.construct event_id false

/-- `CommandQueue::raw_enqueue_fill_buffer`. -/
def CommandQueue.raw_enqueue_fill_buffer (self : CommandQueue) (pattern : Ident)
    (pattern_size : Nat) (dest_buffer : Buffer) (offset size : Nat)
    (event_wait_list : EventWaitList) : M Unit := do
  let _ ← self.raw_fill_buffer pattern pattern_size dest_buffer offset size event_wait_list
    false
  pure ()

/-- `CommandQueue::enqueued_map_buffer`.  `future_result` is a reference argument: its
value after the call is given next to the outcome, also when the call throws. -/
def CommandQueue.enqueued_map_buffer (self : CommandQueue) (buffer : Buffer)
    (offset size : Nat) (map_flags : Nat) (event_wait_list : EventWaitList)
    (future_result : Ident) : World → (Outcome Event × Ident) × World :=
  fun w =>
    match self.raw_map_buffer buffer offset size false map_flags event_wait_list true w with
    | (.returned (result, event_id), w1) =>
      let r := Event.construct event_id false w1
      ((r.1, result), r.2)
    | (.raised f, w1) => ((.raised f, future_result), w1)
    | (.terminated, w1) => ((.terminated, future_result), w1)

/-- `CommandQueue::enqueue_map_buffer`.  `future_result` is a reference argument: its
value after the call is given next to the outcome, also when the call throws. -/
def CommandQueue.enqueue_map_buffer (self : CommandQueue) (buffer : Buffer)
    (offset size : Nat) (map_flags : Nat) (event_wait_list : EventWaitList)
    (future_result : Ident) : World → (Outcome Unit × Ident) × World :=
  fun w =>
    match self.raw_map_buffer buffer offset size false map_flags event_wait_list false w with
    | (.returned (result, _), w1) => ((.returned (), result), w1)
    | (.raised f, w1) => ((.raised f, future_result), w1)
    | (.terminated, w1) => ((.terminated, future_result), w1)

/-- `CommandQueue::map_buffer`. -/
def CommandQueue.map_buffer (self : CommandQueue) (buffer : Buffer) (offset size : Nat)
    (map_flags : Nat) (event_wait_list : EventWaitList) : M Ident := do
  let r ← self.raw_map_buffer buffer offset size true map_flags event_wait_list false
  pure r.1

/-- `CommandQueue::enqueued_unmap_mem_object`. -/
def CommandQueue.enqueued_unmap_mem_object (self : CommandQueue) (memobj : MemoryObject)
    (mapped_ptr : Ident) (event_wait_list : EventWaitList) : M Event := do
  let event_id ← self.raw_unmap_mem_object memobj mapped_ptr event_wait_list true
  Event.construct event_id false

/-- `CommandQueue::enqueue_unmap_mem_object`. -/
def CommandQueue.enqueue_unmap_mem_object (self : CommandQueue) (memobj : MemoryObject)
    (mapped_ptr : Ident) (event_wait_list : EventWaitList) : M Unit := do
  let _ ← self.raw_unmap_mem_object memobj mapped_ptr event_wait_list false
  pure ()

/-- `CommandQueue::enqueued_migrate_mem_objects`. -/
def CommandQueue.enqueued_migrate_mem_objects (self : CommandQueue)
    (mem_objects : List MemoryObject) (flags : Nat) (event_wait_list : EventWaitList) :
    M Event := do
  let event_id ← self.raw_migrate_mem_objects mem_objects flags event_wait_list true
  Event.construct event_id false

/-- `CommandQueue::enqueue_migrate_mem_objects`. -/
def CommandQueue.enqueue_migrate_mem_objects (self : CommandQueue)
    (mem_objects : List MemoryObject) (flags : Nat) (event_wait_list : EventWaitList) :
    M Unit := do
  let _ ← self.raw_migrate_mem_objects mem_objects flags event_wait_list false
  pure ()

/-! ## Running the entry points uniformly -/

/-- Run a computation for its effects only. -/
def discard {α : Type} (m : M α) : M Unit := do
  let _ ← m
  pure ()

/-- The seven raw submissions of `CommandQueue` with their arguments, wait list and event
slot apart. -/
inductive RawSubmission where
  | read_buffer (source_buffer : Buffer) (offset : Nat) (destination : Ident) (size : Nat)
      (synchronous_read : Bool)
  | write_buffer (source : Ident) (wait_for_availability : Bool) (dest_buffer : Buffer)
      (offset size : Nat)
  | copy_buffer (source_buffer : Buffer) (source_offset : Nat) (dest_buffer : Buffer)
      (dest_offset size : Nat)
  | fill_buffer (pattern : Ident) (pattern_size : Nat) (dest_buffer : Buffer)
      (offset size : Nat)
  | map_buffer (buffer : Buffer) (offset size : Nat) (synchronous_map : Bool)
      (map_flags : Nat)
  | unmap_mem_object (memobj : MemoryObject) (mapped_ptr : Ident)
  | migrate_mem_objects (mem_objects : List MemoryObject) (flags : Nat)
  deriving DecidableEq, Repr

/-- Run one raw submission of `CommandQueue` with a wait list and an event slot. -/
def CommandQueue.raw_submit (self : CommandQueue) (s : RawSubmission)
    (event_wait_list : EventWaitList) (event : Bool) : M Unit :=
  match s with
  | .read_buffer b o d sz sync =>
    discard (self.raw_read_buffer b o d sz sync event_wait_list event)
  | .write_buffer src wfa b o sz =>
    discard (self.raw_write_buffer src wfa b o sz event_wait_list event)
  | .copy_buffer sb so db d sz =>
    discard (self.raw_copy_buffer sb so db d sz event_wait_list event)
  | .fill_buffer p ps b o sz =>
    discard (self.raw_fill_buffer p ps b o sz event_wait_list event)
  | .map_buffer b o sz sync fl =>
    discard (self.raw_map_buffer b o sz sync fl event_wait_list event)
  | .unmap_mem_object mo p =>
    discard (self.raw_unmap_mem_object mo p event_wait_list event)
  | .migrate_mem_objects mos fl =>
    discard (self.raw_migrate_mem_objects mos fl event_wait_list event)

/-- Every operation of `CommandQueue` that calls the executor, with its arguments. -/
inductive Operation where
  | raw (s : RawSubmission) (event_wait_list : EventWaitList) (event : Bool)
  | raw_query (parameter_name : Nat) (output_storage_size : Nat) (output_storage : Ident)
      (actual_output_size : Bool)
  | raw_query_output_size (parameter_name : Nat)
  | flush
  | finish
  | enqueued_read_buffer (source_buffer : Buffer) (offset : Nat) (destination : Ident)
      (size : Nat) (event_wait_list : EventWaitList)
  | enqueue_read_buffer (source_buffer : Buffer) (offset : Nat) (destination : Ident)
      (size : Nat) (event_wait_list : EventWaitList)
  | read_buffer (source_buffer : Buffer) (offset : Nat) (destination : Ident)
      (size : Nat) (event_wait_list : EventWaitList)
  | enqueued_write_buffer (source : Ident) (wait_for_availability : Bool)
      (dest_buffer : Buffer) (offset size : Nat) (event_wait_list : EventWaitList)
  | enqueue_write_buffer (source : Ident) (wait_for_availability : Bool)
      (dest_buffer : Buffer) (offset size : Nat) (event_wait_list : EventWaitList)
  | enqueued_copy_buffer (source_buffer : Buffer) (source_offset : Nat) (dest_buffer : Buffer)
      (dest_offset size : Nat) (event_wait_list : EventWaitList)
  | enqueue_copy_buffer (source_buffer : Buffer) (source_offset : Nat) (dest_buffer : Buffer)
      (dest_offset size : Nat) (event_wait_list : EventWaitList)
  | raw_enqueued_fill_buffer (pattern : Ident) (pattern_size : Nat) (dest_buffer : Buffer)
      (offset size : Nat) (event_wait_list : EventWaitList)
  | raw_enqueue_fill_buffer (pattern : Ident) (pattern_size : Nat) (dest_buffer : Buffer)
      (offset size : Nat) (event_wait_list : EventWaitList)
  | enqueued_map_buffer (buffer : Buffer) (offset size : Nat) (map_flags : Nat)
      (event_wait_list : EventWaitList) (future_result : Ident)
  | enqueue_map_buffer (buffer : Buffer) (offset size : Nat) (map_flags : Nat)
      (event_wait_list : EventWaitList) (future_result : Ident)
  | map_buffer (buffer : Buffer) (offset size : Nat) (map_flags : Nat)
      (event_wait_list : EventWaitList)
  | enqueued_unmap_mem_object (memobj : MemoryObject) (mapped_ptr : Ident)
      (event_wait_list : EventWaitList)
  | enqueue_unmap_mem_object (memobj : MemoryObject) (mapped_ptr : Ident)
      (event_wait_list : EventWaitList)
  | enqueued_migrate_mem_objects (mem_objects : List MemoryObject) (flags : Nat)
      (event_wait_list : EventWaitList)
  | enqueue_migrate_mem_objects (mem_objects : List MemoryObject) (flags : Nat)
      (event_wait_list : EventWaitList)
  deriving DecidableEq, Repr

/-- The operations that wrap the event written by the executor into an `Event`. -/
def Operation.observable : Operation → Bool
  | .enqueued_read_buffer .. => true
  | .enqueued_write_buffer .. => true
  | .enqueued_copy_buffer .. => true
  | .raw_enqueued_fill_buffer .. => true
  | .enqueued_map_buffer .. => true
  | .enqueued_unmap_mem_object .. => true
  | .enqueued_migrate_mem_objects .. => true
  | _ => false

/-- The wait list an operation was given; queries, `flush` and `finish` take none. -/
def Operation.event_wait_list : Operation → Option EventWaitList
  | .raw _ wl _ => some wl
  | .raw_query .. => none
  | .raw_query_output_size _ => none
  | .flush => none
  | .finish => none
  | .enqueued_read_buffer _ _ _ _ wl => some wl
  | .enqueue_read_buffer _ _ _ _ wl => some wl
  | .read_buffer _ _ _ _ wl => some wl
  | .enqueued_write_buffer _ _ _ _ _ wl => some wl
  | .enqueue_write_buffer _ _ _ _ _ wl => some wl
  | .enqueued_copy_buffer _ _ _ _ _ wl => some wl
  | .enqueue_copy_buffer _ _ _ _ _ wl => some wl
  | .raw_enqueued_fill_buffer _ _ _ _ _ wl => some wl
  | .raw_enqueue_fill_buffer _ _ _ _ _ wl => some wl
  | .enqueued_map_buffer _ _ _ _ wl _ => some wl
  | .enqueue_map_buffer _ _ _ _ wl _ => some wl
  | .map_buffer _ _ _ _ wl => some wl
  | .enqueued_unmap_mem_object _ _ wl => some wl
  | .enqueue_unmap_mem_object _ _ wl => some wl
  | .enqueued_migrate_mem_objects _ _ wl => some wl
  | .enqueue_migrate_mem_objects _ _ wl => some wl

/-- Run one operation of `CommandQueue`, keeping only how it ends. -/
def CommandQueue.perform (self : CommandQueue) (op : Operation) : M Unit :=
  match op with
  | .raw s wl ev => self.raw_submit s wl ev
  | .raw_query p sz st a => discard (self.raw_query p sz st a)
  | .raw_query_output_size p => discard (self.raw_query_output_size p)
  | .flush => self.flush
  | .finish => self.finish
  | .enqueued_read_buffer b o d sz wl => discard (self.enqueued_read_buffer b o d sz wl)
  | .enqueue_read_buffer b o d sz wl => self.enqueue_read_buffer b o d sz wl
  | .read_buffer b o d sz wl => self.read_buffer b o d sz wl
  | .enqueued_write_buffer src wfa b o sz wl =>
    discard (self.enqueued_write_buffer src wfa b o sz wl)
  | .enqueue_write_buffer src wfa b o sz wl => self.enqueue_write_buffer src wfa b o sz wl
  | .enqueued_copy_buffer sb so db d sz wl =>
    discard (self.enqueued_copy_buffer sb so db d sz wl)
  | .enqueue_copy_buffer sb so db d sz wl => self.enqueue_copy_buffer sb so db d sz wl
  | .raw_enqueued_fill_buffer p ps b o sz wl =>
    discard (self.raw_enqueued_fill_buffer p ps b o sz wl)
  | .raw_enqueue_fill_buffer p ps b o sz wl => self.raw_enqueue_fill_buffer p ps b o sz wl
  | .enqueued_map_buffer b o sz fl wl fr => fun w =>
    let r := self.enqueued_map_buffer b o sz fl wl fr w
    discard (fun _ => (r.1.1, r.2)) w
  | .enqueue_map_buffer b o sz fl wl fr => fun w =>
    let r := self.enqueue_map_buffer b o sz fl wl fr w
    (r.1.1, r.2)
  | .map_buffer b o sz fl wl => discard (self.map_buffer b o sz fl wl)
  | .enqueued_unmap_mem_object mo p wl => discard (self.enqueued_unmap_mem_object mo p wl)
  | .enqueue_unmap_mem_object mo p wl => self.enqueue_unmap_mem_object mo p wl
  | .enqueued_migrate_mem_objects mos fl wl =>
    discard (self.enqueued_migrate_mem_objects mos fl wl)
  | .enqueue_migrate_mem_objects mos fl wl => self.enqueue_migrate_mem_objects mos fl wl

/-- The dependency arguments of an enqueue call: the count and the array (`none` for a
null array).  Calls that take no dependency list have none. -/
def Call.wait_list_args : Call → Option (Nat × Option (List Ident))
  | .clEnqueueReadBuffer _ _ _ _ _ _ n l _ => some (n, l)
  | .clEnqueueWriteBuffer _ _ _ _ _ _ n l _ => some (n, l)
  | .clEnqueueCopyBuffer _ _ _ _ _ _ n l _ => some (n, l)
  | .clEnqueueFillBuffer _ _ _ _ _ _ n l _ => some (n, l)
  | .clEnqueueMapBuffer _ _ _ _ _ _ n l _ => some (n, l)
  | .clEnqueueUnmapMemObject _ _ _ n l _ => some (n, l)
  | .clEnqueueMigrateMemObjects _ _ _ _ n l _ => some (n, l)
  | _ => none

/-! ## Counting references on the mock executor -/

/-- The external reference count of program `id` on a mock executor that counts calls:
the count it started with, plus the retain calls, minus the release calls. -/
def program_count (initial : Ident → Int) (log : List Call) (id : Ident) : Int :=
  initial id + (log.count (.clRetainProgram id) : Int) - (log.count (.clReleaseProgram id) : Int)

/-- The number of live `Program` handles that hold identifier `id`. -/
def program_holders (handles : List Program) (id : Ident) : Int :=
  (handles.countP (fun h => h.internal_id == id) : Int)

/-- An executor on which every call succeeds; a reference count query is answered
with `2`. -/
def succeeding : List Call → Call → Reply :=
  fun _ _ => { status := CL_SUCCESS, event := 7, result := 9, value := 2, size_ret := 4 }

/-- An executor on which every call succeeds and that hands back the null identifier in
the event output slot. -/
def handing_back_null : List Call → Call → Reply :=
  fun _ _ => { status := CL_SUCCESS, event := NULL, result := 9, value := 2, size_ret := 4 }

/-- An executor on which every call fails with status `code`. -/
def failing (code : Int) : List Call → Call → Reply :=
  fun _ _ => { status := code, event := 0, result := 0, value := 0, size_ret := 0 }

/-- A world with an empty log on the given executor. -/
def fresh (respond : List Call → Call → Reply) : World :=
  { respond := respond, log := [], freed := [] }

/-- One step of a program that owns `Program` handles: copy-construct a new handle from
handle `src`, copy-assign handle `src` to handle `dst`, or destroy handle `i`. -/
inductive HandleOp where
  | copy_construct (src : Nat)
  | copy_assign (dst src : Nat)
  | destroy (i : Nat)
  deriving DecidableEq, Repr

/-- The live `Program` handles of a program together with the world. -/
structure Scene where
  handles : List Program
  world : World

/-- Run one step on the live handles.  A step that names a handle that does not exist
does nothing; a copy that throws creates no handle. -/
def Scene.step (s : Scene) : HandleOp → Scene
  | .copy_construct src =>
    match s.handles[src]? with
    | none => s
    | some source =>
      match Program.copy_construct source s.world with
      | (.returned h, w1) => { handles := s.handles ++ [h], world := w1 }
      | (_, w1) => { s with world := w1 }
  | .copy_assign dst src =>
    match s.handles[dst]?, s.handles[src]? with
    | some target, some source =>
      let r := Program.operator_assign target source s.world
      { handles := s.handles.set dst r.1.2, world := r.2 }
    | _, _ => s
  | .destroy i =>
    match s.handles[i]? with
    | none => s
    | some h => { handles := s.handles.eraseIdx i, world := (h.destructor s.world).2 }

/-- Run a sequence of steps. -/
def Scene.run (s : Scene) (ops : List HandleOp) : Scene := ops.foldl Scene.step s

/-- The part of the external reference count of program `id` that no live handle owns:
retain calls minus release calls minus live handles holding `id`.  The reference counting
invariant says that it never changes. -/
def Scene.surplus (s : Scene) (id : Ident) : Int :=
  program_count (fun _ => 0) s.world.log id - program_holders s.handles id

/-- The steps that do not go through `operator=`. -/
def HandleOp.is_assign : HandleOp → Bool
  | .copy_assign _ _ => true
  | _ => false

/-- The array a wait list is handed over as: null for an empty list, the raw identifiers
of its tokens in order otherwise. -/
def wait_array (event_wait_list : EventWaitList) : Option (List Ident) :=
  if event_wait_list = [] then none else some (event_wait_list.map Event.raw_identifier)

/-- The reference count query of `Program::release`. -/
def reference_count_query (p : Program) : Call :=
  .clGetProgramInfo p.internal_id CL_PROGRAM_REFERENCE_COUNT sizeof_cl_uint true false

/-- Construct a `Program` handle from an identifier and destroy it at once. -/
def construct_then_destroy (identifier : Ident) (increment_reference_count : Bool) :
    M Unit := do
  let p ← Program.construct identifier increment_reference_count
  p.destructor

/-! ## The build bridge: constants and scopes -/

/-- Query name `CL_PROGRAM_CONTEXT` of `CL/cl.h`. -/
def CL_PROGRAM_CONTEXT : Nat := 0x1161

/-- Query name `CL_PROGRAM_NUM_DEVICES` of `CL/cl.h`. -/
def CL_PROGRAM_NUM_DEVICES : Nat := 0x1162

/-- Query name `CL_PROGRAM_DEVICES` of `CL/cl.h`. -/
def CL_PROGRAM_DEVICES : Nat := 0x1163

/-- Query name `CL_PROGRAM_BUILD_STATUS` of `CL/cl.h`. -/
def CL_PROGRAM_BUILD_STATUS : Nat := 0x1181

/-- Build status `CL_BUILD_SUCCESS` of `CL/cl.h`. -/
def CL_BUILD_SUCCESS : Int := 0

/-- Build status `CL_BUILD_NONE` of `CL/cl.h`. -/
def CL_BUILD_NONE : Int := -1

/-- Build status `CL_BUILD_ERROR` of `CL/cl.h`. -/
def CL_BUILD_ERROR : Int := -2

/-- Build status `CL_BUILD_IN_PROGRESS` of `CL/cl.h`. -/
def CL_BUILD_IN_PROGRESS : Int := -3

/-- Event status `CL_COMPLETE` of `CL/cl.h`. -/
def CL_COMPLETE : Int := 0

/-- Error code `CL_BUILD_PROGRAM_FAILURE` of `CL/cl.h`. -/
def CL_BUILD_PROGRAM_FAILURE : Int := -11

/-- Size in bytes of a `cl_int`. -/
def sizeof_cl_int : Nat := 4

/-- Size in bytes of a pointer, such as a `cl_device_id` or a `cl_context`. -/
def sizeof_pointer : Nat := 8

/-- The value a `cl_int` holds after the integer `v` was written to it. -/
def as_cl_int (v : Int) : Int := (v + 2 ^ 31) % 2 ^ 32 - 2 ^ 31

/-- The end of a scope: after the body has returned or thrown, the objects of the scope
are destroyed by `cleanup`, and the body's outcome stands.  A destructor that throws ends
the process. -/
def scope_exit {α : Type} (body : M α) (cleanup : M Unit) : M α := fun w =>
  match body w with
  | (.terminated, w1) => (.terminated, w1)
  | (o, w1) =>
    match noexcept cleanup w1 with
    | (.returned _, w2) => (o, w2)
    | (_, w2) => (.terminated, w2)

/-- Stack unwinding: when the body throws, the objects already built are destroyed by
`cleanup` before the exception goes on. -/
def unwind {α : Type} (body : M α) (cleanup : M Unit) : M α := fun w =>
  match body w with
  | (.raised f, w1) =>
    match noexcept cleanup w1 with
    | (.returned _, w2) => (.raised f, w2)
    | (_, w2) => (.terminated, w2)
  | r => r

/-! ## Event, Context, Device: the other handles of the build bridge -/

/-- Modelled from the spec: `Event::set_status` of `event.hpp`, which is not among the
sources; it sets the status of a user-controlled token through the executor, and a
failure status of the executor becomes a typed failure. -/
def Event.set_status (self : Event) (execution_status : Int) : M Unit := do
  let r ← exec (.clSetUserEventStatus self.internal_id execution_status)
  throw_if_failed r.status

/-- Modelled from the spec: `Context` of `context.hpp`, which is not among the sources; a
resource handle around a context identifier. -/
structure Context where
  internal_id : Ident
  deriving DecidableEq, Repr

/-- Modelled from the spec: the constructor of `Context` from an identifier; the null
identifier fails with `InvalidArgument`, the initial increment is skipped when asked. -/
def Context.construct (identifier : Ident) (increment_reference_count : Bool) :
    M Context := do
  let self : Context := { internal_id := identifier }
  if self.internal_id = NULL then
    raise .InvalidArgument
  else
    if increment_reference_count then
      let r ← exec (.clRetainContext self.internal_id)
      throw_if_failed r.status
    else
      pure ()
    pure self

/-- Modelled from the spec: the destructor of `Context`. -/
def Context.destructor (self : Context) : M Unit :=
  noexcept (do
    let r ← exec (.clReleaseContext self.internal_id)
    throw_if_failed r.status)

/-- Modelled from the spec: `Context::create_user_event`; a user-controlled completion
token is created against the context, and the identifier handed back already carries its
reference. -/
def Context.create_user_event (self : Context) : M Event := do
  let r ← exec (.clCreateUserEvent self.internal_id)
  throw_if_failed r.status
  Event.construct r.event false

/-- Modelled from the spec: `Device` of `device.hpp`, which is not among the sources; a
resource handle around a device identifier. -/
structure Device where
  internal_id : Ident
  deriving DecidableEq, Repr

/-- Modelled from the spec: `Device::raw_identifier`. -/
def Device.raw_identifier (self : Device) : Ident := self.internal_id

/-- Modelled from the spec: the constructor of `Device` from an identifier. -/
def Device.construct (identifier : Ident) (increment_reference_count : Bool) : M Device := do
  let self : Device := { internal_id := identifier }
  if self.internal_id = NULL then
    raise .InvalidArgument
  else
    if increment_reference_count then
      let r ← exec (.clRetainDevice self.internal_id)
      throw_if_failed r.status
    else
      pure ()
    pure self

/-- Modelled from the spec: the destructor of `Device`. -/
def Device.destructor (self : Device) : M Unit :=
  noexcept (do
    let r ← exec (.clReleaseDevice self.internal_id)
    throw_if_failed r.status)

/-- The destruction of a `std::vector<Device>`: its elements are destroyed in turn. -/
def destroy_devices : List Device → M Unit
  | [] => pure ()
  | d :: rest => do
    d.destructor
    destroy_devices rest

/-! ## Program: devices and build status -/

/-- Modelled from the spec: `Program::raw_context_id` of `program.hpp`, which is not in
the version among the sources; the identifier of the context the program belongs to,
obtained by a query. -/
def Program.raw_context_id (self : Program) : M Ident :=
  self.raw_query CL_PROGRAM_CONTEXT sizeof_pointer false

/-- Modelled from the spec: `Program::num_devices` of `program.hpp`, which is not in the
version among the sources; the number of devices associated to the program, obtained by a
query. -/
def Program.num_devices (self : Program) : M Nat :=
  self.raw_uint_query CL_PROGRAM_NUM_DEVICES

/-- `Program::raw_query` for a query whose storage is an array of `amount` identifiers;
the array after the call is returned. -/
def Program.raw_query_array (self : Program) (parameter_name : Nat) (amount : Nat)
    (element_size : Nat) : M (List Ident) := do
  let r ← exec (.clGetProgramInfo self.internal_id parameter_name (amount * element_size)
    true false)
  throw_if_failed r.status
  pure ((r.ids ++ uninitialised amount).take amount)

/-- The loop `result.emplace_back(Device{raw_device_ids[i], true})` of `Program::devices`
over the entries of the array still to come.  How many temporary copies of a handle the
vector makes is up to the C++ library and each comes with its own retain and release; one
construction per element is modelled.  When a construction throws, the vector built so
far is destroyed. -/
def emplace_devices (result : List Device) : List Ident → M (List Device)
  | [] => pure result
  | id :: rest => do
    let d ← unwind (Device.construct id true) (destroy_devices result)
    emplace_devices (result ++ [d]) rest

/-- `Program::devices`. -/
def Program.devices (self : Program) : M (List Device) := do
  let device_amount ← self.num_devices
  let raw_device_ids ← self.raw_query_array CL_PROGRAM_DEVICES device_amount sizeof_pointer
  emplace_devices [] raw_device_ids

/-- `Program::raw_build_info_query`; what the executor wrote is returned. -/
def Program.raw_build_info_query (self : Program) (device : Device) (parameter_name : Nat)
    (output_storage_size : Nat) (output_storage : Bool) (actual_output_size : Bool) :
    M Reply := do
  let r ← exec (.clGetProgramBuildInfo self.internal_id device.raw_identifier parameter_name
    output_storage_size output_storage actual_output_size)
  throw_if_failed r.status
  pure r

/-- Modelled from the spec: `Program::build_status` of `program.hpp`, which is not in the
version among the sources; the build status the executor reports for one device. -/
def Program.build_status (self : Program) (device : Device) : M Int := do
  let r ← self.raw_build_info_query device CL_PROGRAM_BUILD_STATUS sizeof_cl_int true false
  pure (as_cl_int r.int_value)

/-! ## The build-event callback -/

/-- The `for` loop of the callback made by `Program::make_build_event_callback`, over the
devices still to come.  It yields `true` when the loop has run to its end and `false` when
its body has returned from the callback. -/
def check_devices (user_event : Event) (active_program_reference : Program) :
    List Device → M Bool
  | [] => pure true
  | device :: rest => do
    let build_status ← active_program_reference.build_status device
    if build_status = CL_BUILD_SUCCESS then
      check_devices user_event active_program_reference rest
    else if build_status = CL_BUILD_ERROR then do
      user_event.set_status CL_BUILD_PROGRAM_FAILURE
      pure false
    else
      raise .UnsupportedBuildStatus

/-- The callback made by `Program::make_build_event_callback`: the lambda that captured
`user_event` and `active_program_reference`. -/
def build_event_callback (user_event : Event) (active_program_reference : Program)
    (_unused : Ident) : M Unit := do
  let device_list ← active_program_reference.devices
  scope_exit (do
      let completed ← check_devices user_event active_program_reference device_list
      if completed then
        user_event.set_status CL_COMPLETE
      else
        pure ())
    (destroy_devices device_list)

/-! ## Build callbacks as objects -/

/-- Whether a `std::function` holds a callable: the test `if(callback)`. -/
def BuildCallback.has_target : BuildCallback → Bool
  | .empty => false
  | _ => true

/-- Building the closure of the build bridge: `user_event` and
`active_program_reference` are captured by copy. -/
def capture_build_event (user_event : Event) (active_program_reference : Program) :
    M BuildCallback := do
  let e ← Event.copy_construct user_event
  let p ← unwind (Program.copy_construct active_program_reference) e.destructor
  pure (.build_event e p)

/-- The copy constructor of a build callback: what a closure captured is copied; a user's
callable is taken to copy without effect on the executor. -/
def BuildCallback.copy_construct : BuildCallback → M BuildCallback
  | .empty => pure .empty
  | .user tag => pure (.user tag)
  | .build_event e p => capture_build_event e p

/-- The destructor of a build callback: what a closure captured is destroyed. -/
def BuildCallback.destructor : BuildCallback → M Unit :=
  BuildCallback.destructor_with Program.destructor

/-- Calling a build callback on a program identifier.  A user's callable is taken to
return; the call is recorded. -/
def BuildCallback.invoke (self : BuildCallback) (program : Ident) : M Unit :=
  match self with
  | .empty => raise .bad_function_call
  | .user tag => fun w => (.returned (), { w with invoked := w.invoked ++ [(tag, program)] })
  | .build_event e p => build_event_callback e p program

/-- The storage that `new` obtains for a closure: the closure is put on the heap and its
pointer, which is not null, is returned. -/
def allocate (c : BuildCallback) : M Ident := fun w =>
  (.returned (w.heap.length + 1), { w with heap := w.heap ++ [c] })

/-- The expression `new BuildCallback{callback}`. -/
def new_closure (callback : BuildCallback) : M Ident := do
  let c ← callback.copy_construct
  allocate c

/-- Reading the closure behind a pointer.  A pointer that `new` never returned ends the
process; reading a closure that has been deleted is recorded as a stale use and yields
what the storage held. -/
def dereference (ptr : Ident) : M BuildCallback := fun w =>
  if ptr = NULL then (.terminated, w)
  else
    match w.heap[ptr - 1]? with
    | none => (.terminated, w)
    | some c =>
      if ptr ∈ w.freed then (.returned c, { w with stale_uses := w.stale_uses ++ [ptr] })
      else (.returned c, w)

/-! ## Program: building -/

/-- `Program::raw_callback`, the function registered with the executor. -/
def Program.raw_callback (program : Ident) (actual_callback_ptr : Ident) : M Unit := do
  let callback_ptr := actual_callback_ptr
  let stored ← dereference callback_ptr
  let actual_callback ← stored.copy_construct
  scope_exit (do
      actual_callback.invoke program
      delete_closure callback_ptr)
    actual_callback.destructor

/-- The loop
`for(size_t i = 0; i < num_devices; ++i) raw_device_ids[i] = device_list[i].raw_identifier();`
run on the array `raw_device_ids`. -/
def fill_raw_device_ids (device_list : List Device) (num_devices : Nat)
    (raw_device_ids : List Ident) : List Ident :=
  (List.range num_devices).foldl
    (fun arr i => arr.set i (device_list.getD i { internal_id := NULL }).raw_identifier)
    raw_device_ids

/-- The second half of `Program::raw_build_program`: the call to `clBuildProgram`, with a
view of the device list when there is one, made on the object whose callback pointer has
been saved. -/
def Program.call_build_program (self : Program) (device_list_ptr : Option (List Device))
    (options : String) (callback : BuildCallback) : M Unit :=
  match device_list_ptr with
  | none =>
    if callback.has_target then do
      let r ← exec (.clBuildProgram self.internal_id 0 none options true
        self.internal_callback_ptr)
      throw_if_failed r.status
    else do
      let r ← exec (.clBuildProgram self.internal_id 0 none options false NULL)
      throw_if_failed r.status
  | some device_list =>
    let num_devices := device_list.length
    let raw_device_ids := fill_raw_device_ids device_list num_devices (uninitialised num_devices)
    if callback.has_target then do
      let r ← exec (.clBuildProgram self.internal_id num_devices (some raw_device_ids) options
        true self.internal_callback_ptr)
      throw_if_failed r.status
    else do
      let r ← exec (.clBuildProgram self.internal_id num_devices (some raw_device_ids) options
        false NULL)
      throw_if_failed r.status

/-- `Program::raw_build_program`; `device_list_ptr` is `none` for a null pointer.  The
object is changed in place, so its members after the call are given next to the outcome,
also when the call throws. -/
def Program.raw_build_program (self : Program) (device_list_ptr : Option (List Device))
    (options : String) (callback : BuildCallback) :
    World → (Outcome Unit × Program) × World :=
  fun w =>
    match (if callback.has_target then new_closure callback
        else pure self.internal_callback_ptr : M Ident) w with
    | (.returned ptr, w1) =>
      let self1 : Program := { self with internal_callback_ptr := ptr }
      let r := self1.call_build_program device_list_ptr options callback w1
      ((r.1, self1), r.2)
    | (.raised f, w1) => ((.raised f, self), w1)
    | (.terminated, w1) => ((.terminated, self), w1)

/-- `Program::build(options, callback)` and `Program::build(device_list, options,
callback)`; `device_list` is `none` for the first. -/
def Program.build (self : Program) (device_list : Option (List Device)) (options : String)
    (callback : BuildCallback) : World → (Outcome Unit × Program) × World :=
  self.raw_build_program device_list options callback

/-- `Program::make_build_event_callback`.  The objects of the function are destroyed at
its end in the reverse order of their construction. -/
def Program.make_build_event_callback (self : Program) : M (Event × BuildCallback) := do
  let context ← Context.construct (← self.raw_context_id) true
  scope_exit (do
      let user_event ← context.create_user_event
      scope_exit (do
          let active_program_reference ← Program.copy_construct self
          scope_exit (do
              let callback ← capture_build_event user_event active_program_reference
              scope_exit (do
                  let first ← Event.copy_construct user_event
                  let second ← unwind callback.copy_construct first.destructor
                  pure (first, second))
                callback.destructor)
            active_program_reference.destructor)
        user_event.destructor)
    context.destructor

/-- `Program::build_with_event(options)` and `Program::build_with_event(device_list,
options)`; `device_list` is `none` for the first.  The object is changed in place, so its
members after the call are given next to the outcome, also when the call throws. -/
def Program.build_with_event (self : Program) (device_list : Option (List Device))
    (options : String) : World → (Outcome Event × Program) × World :=
  fun w =>
    match self.make_build_event_callback w with
    | (.returned event_and_callback, w1) =>
      let r := self.raw_build_program device_list options event_and_callback.2 w1
      let returning : M Event :=
        match r.1.1 with
        | .returned _ => Event.copy_construct event_and_callback.1
        | .raised f => raise f
        | .terminated => fun w2 => (.terminated, w2)
      let e := scope_exit returning (do
          event_and_callback.2.destructor
          event_and_callback.1.destructor) r.2
      ((e.1, r.1.2), e.2)
    | (.raised f, w1) => ((.raised f, self), w1)
    | (.terminated, w1) => ((.terminated, self), w1)

/-! ## Mock executors for the build bridge -/

/-- The build-status query of the callback for one device of a program. -/
def build_status_query (program device : Ident) : Call :=
  .clGetProgramBuildInfo program device CL_PROGRAM_BUILD_STATUS sizeof_cl_int true false

/-- An executor on which every call succeeds and whose program has the devices
`1, 2, ..., n` with the build statuses listed: the device count and the device list are
answered from the list, a build-status query for device `d` with entry `d - 1`, and a
reference count query with `count`. -/
def building (statuses : List Int) (count : Nat) : List Call → Call → Reply :=
  fun _ c =>
    match c with
    | .clGetProgramInfo _ param _ _ _ =>
      { status := CL_SUCCESS, event := 7, result := 9,
        value := if param = CL_PROGRAM_NUM_DEVICES then statuses.length
          else if param = CL_PROGRAM_CONTEXT then 5 else count,
        size_ret := 4, ids := (List.range statuses.length).map (· + 1) }
    | .clGetProgramBuildInfo _ device _ _ _ _ =>
      { status := CL_SUCCESS, event := 7, result := 9, value := 0, size_ret := 4,
        int_value := statuses.getD (device - 1) CL_BUILD_NONE }
    | _ => { status := CL_SUCCESS, event := 7, result := 9, value := count, size_ret := 4 }

/-- An executor like `building [0] 2` on which every build call fails with the status
`code`. -/
def refusing_build (code : Int) : List Call → Call → Reply :=
  fun log c =>
    match c with
    | .clBuildProgram _ _ _ _ _ _ =>
      { status := code, event := 7, result := 9, value := 2, size_ret := 4 }
    | _ => building [0] 2 log c

/-- Whether a call sets the status of a user event. -/
def Call.is_set_status : Call → Bool
  | .clSetUserEventStatus _ _ => true
  | _ => false

/-- Whether a call is a build-status query. -/
def Call.is_build_status_query : Call → Bool
  | .clGetProgramBuildInfo _ _ _ _ _ _ => true
  | _ => false

/-! ## The observable submissions, uniformly -/

/-- The seven observable submissions of `CommandQueue` with their arguments, the wait
list apart. -/
inductive Observable where
  | read_buffer (source_buffer : Buffer) (offset : Nat) (destination : Ident) (size : Nat)
  | write_buffer (source : Ident) (wait_for_availability : Bool) (dest_buffer : Buffer)
      (offset size : Nat)
  | copy_buffer (source_buffer : Buffer) (source_offset : Nat) (dest_buffer : Buffer)
      (dest_offset size : Nat)
  | fill_buffer (pattern : Ident) (pattern_size : Nat) (dest_buffer : Buffer)
      (offset size : Nat)
  | map_buffer (buffer : Buffer) (offset size : Nat) (map_flags : Nat) (future_result : Ident)
  | unmap_mem_object (memobj : MemoryObject) (mapped_ptr : Ident)
  | migrate_mem_objects (mem_objects : List MemoryObject) (flags : Nat)
  deriving DecidableEq, Repr

/-- Run one observable submission of `CommandQueue` with a wait list. -/
def CommandQueue.observe (self : CommandQueue) (s : Observable)
    (event_wait_list : EventWaitList) : M Event :=
  match s with
  | .read_buffer b o d sz => self.enqueued_read_buffer b o d sz event_wait_list
  | .write_buffer src wfa b o sz => self.enqueued_write_buffer src wfa b o sz event_wait_list
  | .copy_buffer sb so db d sz => self.enqueued_copy_buffer sb so db d sz event_wait_list
  | .fill_buffer p ps b o sz => self.raw_enqueued_fill_buffer p ps b o sz event_wait_list
  | .map_buffer b o sz fl fr => fun w =>
    let r := self.enqueued_map_buffer b o sz fl event_wait_list fr w
    (r.1.1, r.2)
  | .unmap_mem_object mo p => self.enqueued_unmap_mem_object mo p event_wait_list
  | .migrate_mem_objects mos fl => self.enqueued_migrate_mem_objects mos fl event_wait_list

/-- Whether an enqueue call was given an output slot for the new event.  Calls that
create no event have none. -/
def Call.event_slot : Call → Option Bool
  | .clEnqueueReadBuffer _ _ _ _ _ _ _ _ e => some e
  | .clEnqueueWriteBuffer _ _ _ _ _ _ _ _ e => some e
  | .clEnqueueCopyBuffer _ _ _ _ _ _ _ _ e => some e
  | .clEnqueueFillBuffer _ _ _ _ _ _ _ _ e => some e
  | .clEnqueueMapBuffer _ _ _ _ _ _ _ _ e => some e
  | .clEnqueueUnmapMemObject _ _ _ _ _ e => some e
  | .clEnqueueMigrateMemObjects _ _ _ _ _ _ e => some e
  | _ => none

/-! ## Observing a run of the build bridge -/

/-- The calls of a log that set the status of a user event, in order. -/
def set_status_calls (log : List Call) : List Call := log.filter Call.is_set_status

/-- The build-status queries of a log, in order. -/
def build_status_queries (log : List Call) : List Call :=
  log.filter Call.is_build_status_query

/-- The calls made since the log had length `n`. -/
def calls_since (n : Nat) (w : World) : List Call := w.log.drop n

/-- A computation leaves the observation `g` of the world as it is, however it ends. -/
def Preserves {α β : Type} (g : World → β) (m : M α) : Prop := ∀ w, g (m w).2 = g w

/-- The number of devices query of `Program::devices`. -/
def num_devices_query (p : Program) : Call :=
  .clGetProgramInfo p.internal_id CL_PROGRAM_NUM_DEVICES sizeof_cl_uint true false

/-- The device list query of `Program::devices` for `n` devices. -/
def devices_query (p : Program) (n : Nat) : Call :=
  .clGetProgramInfo p.internal_id CL_PROGRAM_DEVICES (n * sizeof_pointer) true false

/-- The executor of the world behaves as a mock for program `p` with the devices `ids`
that reports the build status `status_of d` for device `d`: every call succeeds, the
device count and the device list are answered with `ids`, none of which is null, whenever
they are asked, and so is the build status of a device. -/
def reports (w : World) (p : Program) (ids : List Ident) (status_of : Ident → Int) : Prop :=
  (∀ log c, (w.respond log c).status = CL_SUCCESS) ∧
  (∀ log, (w.respond log (num_devices_query p)).value % 2 ^ 32 = ids.length) ∧
  (∀ log, (w.respond log (devices_query p ids.length)).ids = ids) ∧
  (∀ id ∈ ids, id ≠ NULL) ∧
  (∀ log d, as_cl_int (w.respond log (build_status_query p.internal_id d)).int_value
    = status_of d)

/-- The calls made so far that set the status of a user event. -/
def status_trace (w : World) : List Call := set_status_calls w.log

/-- Whether a call is a `clBuildProgram`. -/
def Call.is_build : Call → Bool
  | .clBuildProgram _ _ _ _ _ _ => true
  | _ => false

/-- Whether a call creates a user event. -/
def Call.is_create_user_event : Call → Bool
  | .clCreateUserEvent _ => true
  | _ => false

/-- The build calls of a log, in order. -/
def build_calls (log : List Call) : List Call := log.filter Call.is_build

/-- The calls of a log that create a user event, in order. -/
def create_user_event_calls (log : List Call) : List Call :=
  log.filter Call.is_create_user_event

/-- The context query of `Program::make_build_event_callback`. -/
def context_query (p : Program) : Call :=
  .clGetProgramInfo p.internal_id CL_PROGRAM_CONTEXT sizeof_pointer true false

/-- The view of a device list that `raw_build_program` hands to the executor: a null
array and count `0` without a list, the raw identifiers of the devices otherwise. -/
def device_view (device_list : Option (List Device)) : Nat × Option (List Ident) :=
  match device_list with
  | none => (0, none)
  | some l => (l.length, some (l.map Device.raw_identifier))

/-- A run that returns: on the executor `R`, started when the calls `Ls` had been added
to the log `base` and the closures `Hs` to the heap `heap`, the computation `m` returns
`v`, and the calls added to `base` are then `Lf`, the closures added to `heap` are `Hf`. -/
def Steps {α : Type} (R : List Call → Call → Reply) (m : M α) (base : List Call)
    (heap : List BuildCallback) (Ls : List Call) (Hs : List BuildCallback) (v : α)
    (Lf : List Call) (Hf : List BuildCallback) : Prop :=
  ∀ w : World, w.respond = R → w.log = base ++ Ls → w.heap = heap ++ Hs →
    ∃ w1 : World, m w = (.returned v, w1) ∧ w1.respond = R ∧ w1.log = base ++ Lf ∧
      w1.heap = heap ++ Hf

/-! ## Copy assignment when the retain fails -/

/-- An executor on which every retain call fails with the status `code` and every other
call succeeds; a reference count query is answered with `count`. -/
def refusing_retain (code : Int) (count : Nat) : List Call → Call → Reply :=
  fun _ c =>
    match c with
    | .clRetainProgram _ =>
      { status := code, event := 0, result := 0, value := 0, size_ret := 0 }
    | .clRetainCommandQueue _ =>
      { status := code, event := 0, result := 0, value := 0, size_ret := 0 }
    | _ => { status := CL_SUCCESS, event := 7, result := 9, value := count, size_ret := 4 }

/-! ## The command-queue example: the report of the queue properties -/

/-- `CL_QUEUE_OUT_OF_ORDER_EXEC_MODE_ENABLE`, that is `(1 << 0)`. -/
def CL_QUEUE_OUT_OF_ORDER_EXEC_MODE_ENABLE : Nat := 1

/-- `CL_QUEUE_PROFILING_ENABLE`, that is `(1 << 1)`. -/
def CL_QUEUE_PROFILING_ENABLE : Nat := 2

/-- What is sent to `std::cout`: a piece of text or `std::endl`. -/
inductive Output where
  | text (s : String)
  | endl
  deriving DecidableEq, Repr

/-- The lines of `main` of the command-queue example that report the ordering mode:
`std::cout << "Command execution will be performed ";`, the test of
`queue_properties & CL_QUEUE_OUT_OF_ORDER_EXEC_MODE_ENABLE` with its two branches, and
`std::cout << std::endl;`. -/
def report_ordering (queue_properties : Nat) : List Output :=
  [.text "Command execution will be performed "] ++
  (if queue_properties &&& CL_QUEUE_OUT_OF_ORDER_EXEC_MODE_ENABLE ≠ 0 then
    [.text "in-order"]
  else
    [.text "out-of-order"]) ++
  [.endl]

/-- The lines of `main` of the command-queue example that report profiling:
`std::cout << "Command profiling is ";`, the test of
`queue_properties & CL_QUEUE_PROFILING_ENABLE` with its two branches, and
`std::cout << std::endl;`. -/
def report_profiling (queue_properties : Nat) : List Output :=
  [.text "Command profiling is "] ++
  (if queue_properties &&& CL_QUEUE_PROFILING_ENABLE ≠ 0 then
    [.text "enabled"]
  else
    [.text "disabled"]) ++
  [.endl]

/-- What `main` of the command-queue example prints about the properties of its queue,
from `const auto queue_properties = command_queue.properties();` on. -/
def report_queue_properties (queue_properties : Nat) : List Output :=
  report_ordering queue_properties ++ report_profiling queue_properties

/-- The report of the ordering mode as the specification words it: "out-of-order" exactly
when `CL_QUEUE_OUT_OF_ORDER_EXEC_MODE_ENABLE` is set and "in-order" otherwise. -/
def specified_report_ordering (queue_properties : Nat) : List Output :=
  [.text "Command execution will be performed ",
    .text (if queue_properties &&& CL_QUEUE_OUT_OF_ORDER_EXEC_MODE_ENABLE ≠ 0
      then "out-of-order" else "in-order"),
    .endl]

/-- The report of profiling as the specification words it: "enabled" exactly when
`CL_QUEUE_PROFILING_ENABLE` is set. -/
def specified_report_profiling (queue_properties : Nat) : List Output :=
  [.text "Command profiling is ",
    .text (if queue_properties &&& CL_QUEUE_PROFILING_ENABLE ≠ 0
      then "enabled" else "disabled"),
    .endl]

/-! ## A pending build callback and the handles of the caller -/

/-- Destroy the `Program` handles of a list one after the other, as when they leave
their scope. -/
def destroy_programs : List Program → M Unit
  | [] => pure ()
  | h :: rest => do
    h.destructor
    destroy_programs rest

/-- The calls that destroying the handles of a list makes when every call succeeds: for
each handle the reference-count query and the release. -/
def destruction_calls : List Program → List Call
  | [] => []
  | h :: rest =>
    reference_count_query h :: .clReleaseProgram h.internal_id :: destruction_calls rest

/-- Whether a call changes the reference count of a program. -/
def Call.is_program_reference : Call → Bool
  | .clRetainProgram _ => true
  | .clReleaseProgram _ => true
  | _ => false

/-- The calls made so far that change the reference count of a program. -/
def program_reference_calls (w : World) : List Call :=
  w.log.filter Call.is_program_reference

/-- A mock executor that counts references: every call succeeds, the context of a
program is `5`, the event created is `7`, and the reference-count query of program `id`
is answered with the count the program started with, plus the retain calls, minus the
release calls made on `id` so far. -/
def counting (initial : Ident → Int) : List Call → Call → Reply :=
  fun log c =>
    match c with
    | .clGetProgramInfo id param _ _ _ =>
      { status := CL_SUCCESS, event := 7, result := 9,
        value := if param = CL_PROGRAM_REFERENCE_COUNT then (program_count initial log id).toNat
          else if param = CL_PROGRAM_CONTEXT then 5 else 1,
        size_ret := 4, ids := [1] }
    | _ => { status := CL_SUCCESS, event := 7, result := 9, value := 0, size_ret := 4 }

/-- A run that returns and frees nothing: as `Steps`, and the closures freed are the
same after the run as before. -/
def QuietSteps {α : Type} (R : List Call → Call → Reply) (m : M α) (base : List Call)
    (heap : List BuildCallback) (Ls : List Call) (Hs : List BuildCallback) (v : α)
    (Lf : List Call) (Hf : List BuildCallback) : Prop :=
  ∀ w : World, w.respond = R → w.log = base ++ Ls → w.heap = heap ++ Hs →
    ∃ w1 : World, m w = (.returned v, w1) ∧ w1.respond = R ∧ w1.log = base ++ Lf ∧
      w1.heap = heap ++ Hf ∧ w1.freed = w.freed

/-! ## Computations that only add calls and frees -/

/-- Whether a call is one that destroying a `Program` or an `Event` handle makes: a query
of a program, a release of a program or a release of an event. -/
def Call.is_teardown : Call → Bool
  | .clGetProgramInfo _ _ _ _ _ => true
  | .clReleaseProgram _ => true
  | .clReleaseEvent _ => true
  | _ => false

/-- A computation that, however it ends, changes the world only by adding calls that
satisfy `good` to the log and pointers to the closures freed. -/
def Frame {α : Type} (good : Call → Bool) (m : M α) : Prop :=
  ∀ w : World, ∃ (L : List Call) (F : List Ident),
    (m w).2 = { w with log := w.log ++ L, freed := w.freed ++ F } ∧ ∀ c ∈ L, good c = true

/-- Whether a call is neither a build call nor the creation of a user event. -/
def Call.is_bookkeeping (c : Call) : Bool := !c.is_build && !c.is_create_user_event

/-- A computation that, on the executor `R`, returns `v` and changes the world only by
adding calls that satisfy `good` to the log and pointers to the closures freed. -/
def Calm {α : Type} (good : Call → Bool) (R : List Call → Call → Reply) (m : M α) (v : α) :
    Prop :=
  ∀ w : World, w.respond = R → ∃ (L : List Call) (F : List Ident),
    m w = (.returned v, { w with log := w.log ++ L, freed := w.freed ++ F }) ∧
      ∀ c ∈ L, good c = true

/-! ## Basic facts about computations -/

theorem bind_apply {α β : Type} (m : M α) (f : α → M β) (w : World) :
    (m >>= f) w = match m w with
      | (.returned a, w1) => f a w1
      | (.raised e, w1) => (.raised e, w1)
      | (.terminated, w1) => (.terminated, w1) := rfl

theorem pure_apply {α : Type} (a : α) (w : World) :
    (pure a : M α) w = (.returned a, w) := rfl

theorem raise_apply {α : Type} (f : Failure) (w : World) :
    (raise f : M α) w = (.raised f, w) := rfl

theorem exec_apply (c : Call) (w : World) :
    exec c w = (.returned (w.respond w.log c), { w with log := w.log ++ [c] }) := rfl

theorem throw_if_failed_apply (code : Int) (w : World) :
    throw_if_failed code w =
      (if code = CL_SUCCESS then .returned () else .raised (.ExecutorError code), w) := by
  unfold throw_if_failed
  split <;> rfl

/-- `Program::retain` issues one retain call and throws exactly on a failure status. -/
theorem program_retain_apply (p : Program) (w : World) :
    p.retain w =
      (if (w.respond w.log (.clRetainProgram p.internal_id)).status = CL_SUCCESS
        then .returned () else
          .raised (.ExecutorError (w.respond w.log (.clRetainProgram p.internal_id)).status),
       { w with log := w.log ++ [.clRetainProgram p.internal_id] }) := by
  simp only [Program.retain, bind_apply, exec_apply, throw_if_failed_apply]

/-- `CommandQueue::retain` issues one retain call and throws exactly on a failure status. -/
theorem queue_retain_apply (q : CommandQueue) (w : World) :
    q.retain w =
      (if (w.respond w.log (.clRetainCommandQueue q.internal_id)).status = CL_SUCCESS
        then .returned () else
          .raised
            (.ExecutorError (w.respond w.log (.clRetainCommandQueue q.internal_id)).status),
       { w with log := w.log ++ [.clRetainCommandQueue q.internal_id] }) := by
  simp only [CommandQueue.retain, bind_apply, exec_apply, throw_if_failed_apply]

/-- `Program::reference_count` issues one query and throws exactly on a failure status. -/
theorem program_reference_count_apply (p : Program) (w : World) :
    p.reference_count w =
      (if (w.respond w.log (reference_count_query p)).status = CL_SUCCESS
        then .returned ((w.respond w.log (reference_count_query p)).value % 2 ^ 32) else
          .raised (.ExecutorError (w.respond w.log (reference_count_query p)).status),
       { w with log := w.log ++ [reference_count_query p] }) := by
  by_cases h : (w.respond w.log (reference_count_query p)).status = CL_SUCCESS
  all_goals
    simp only [reference_count_query] at h
    simp [Program.reference_count, Program.raw_uint_query, Program.raw_query, bind_apply,
      exec_apply, throw_if_failed_apply, reference_count_query, pure_apply, h]

/-- The body of `Program::release` step by step: the query, then the release call, then
the deletion of the callback closure when the count read was one. -/
theorem program_release_with_apply (d : Ident → M Unit) (p : Program) (w : World) :
    p.release_with d w =
      if (w.respond w.log (reference_count_query p)).status = CL_SUCCESS then
        if (w.respond (w.log ++ [reference_count_query p])
            (.clReleaseProgram p.internal_id)).status = CL_SUCCESS then
          (if ((w.respond w.log (reference_count_query p)).value % 2 ^ 32 == 1
              && p.internal_callback_ptr != NULL) = true
            then d p.internal_callback_ptr { w with
              log := w.log ++ [reference_count_query p, .clReleaseProgram p.internal_id] }
            else (.returned (), { w with
              log := w.log ++ [reference_count_query p, .clReleaseProgram p.internal_id] }))
        else
          (.raised (.ExecutorError (w.respond (w.log ++ [reference_count_query p])
              (.clReleaseProgram p.internal_id)).status),
            { w with
              log := w.log ++ [reference_count_query p, .clReleaseProgram p.internal_id] })
      else
        (.raised (.ExecutorError (w.respond w.log (reference_count_query p)).status),
          { w with log := w.log ++ [reference_count_query p] }) := by
  by_cases h : (w.respond w.log (reference_count_query p)).status = CL_SUCCESS
  · by_cases h2 : (w.respond (w.log ++ [reference_count_query p])
        (.clReleaseProgram p.internal_id)).status = CL_SUCCESS
    · by_cases h3 : ((w.respond w.log (reference_count_query p)).value % 2 ^ 32 == 1
          && p.internal_callback_ptr != NULL) = true
      · simp only [Program.release_with, bind_apply, program_reference_count_apply,
          exec_apply, throw_if_failed_apply, h, h2, h3, if_true, List.append_assoc,
          List.singleton_append]
      · simp only [Program.release_with, bind_apply, program_reference_count_apply,
          exec_apply, throw_if_failed_apply, h, h2, h3, if_true, pure_apply,
          List.append_assoc, List.singleton_append]
        rfl
    · simp only [Program.release_with, bind_apply, program_reference_count_apply, exec_apply,
        throw_if_failed_apply, h, h2, if_true, if_false, List.append_assoc,
        List.singleton_append]
  · simp only [Program.release_with, bind_apply, program_reference_count_apply, h, if_false]

/-- `Program::release` step by step: the query, then the release call, then the deletion
of the callback closure when the count read was one. -/
theorem program_release_apply (p : Program) (w : World) :
    p.release w =
      if (w.respond w.log (reference_count_query p)).status = CL_SUCCESS then
        if (w.respond (w.log ++ [reference_count_query p])
            (.clReleaseProgram p.internal_id)).status = CL_SUCCESS then
          (if ((w.respond w.log (reference_count_query p)).value % 2 ^ 32 == 1
              && p.internal_callback_ptr != NULL) = true
            then delete_closure p.internal_callback_ptr { w with
              log := w.log ++ [reference_count_query p, .clReleaseProgram p.internal_id] }
            else (.returned (), { w with
              log := w.log ++ [reference_count_query p, .clReleaseProgram p.internal_id] }))
        else
          (.raised (.ExecutorError (w.respond (w.log ++ [reference_count_query p])
              (.clReleaseProgram p.internal_id)).status),
            { w with
              log := w.log ++ [reference_count_query p, .clReleaseProgram p.internal_id] })
      else
        (.raised (.ExecutorError (w.respond w.log (reference_count_query p)).status),
          { w with log := w.log ++ [reference_count_query p] }) :=
  program_release_with_apply delete_closure p w

/-- A `noexcept` function turns an exception into a termination and changes nothing
else. -/
theorem noexcept_apply {α : Type} (m : M α) (w : World) :
    noexcept m w = (if (m w).1.isRaised = true then .terminated else (m w).1, (m w).2) := by
  unfold noexcept
  rcases hm : m w with ⟨o, w1⟩
  cases o <;> simp [Outcome.isRaised]

/-! ## Computations that only add calls and frees -/

theorem world_frame_nil (w : World) :
    { w with log := w.log ++ [], freed := w.freed ++ [] } = w := by
  cases w
  simp

theorem world_frame_append (w : World) (L1 L2 : List Call) (F1 F2 : List Ident) :
    ({ ({ w with log := w.log ++ L1, freed := w.freed ++ F1 } : World) with
        log := (w.log ++ L1) ++ L2, freed := (w.freed ++ F1) ++ F2 } : World)
      = { w with log := w.log ++ (L1 ++ L2), freed := w.freed ++ (F1 ++ F2) } := by
  simp

theorem frame_pure {α : Type} (good : Call → Bool) (a : α) : Frame good (pure a : M α) :=
  fun w => ⟨[], [], by rw [world_frame_nil]; rfl, by simp⟩

theorem frame_raise {α : Type} (good : Call → Bool) (f : Failure) :
    Frame good (raise f : M α) :=
  fun w => ⟨[], [], by rw [world_frame_nil]; rfl, by simp⟩

theorem frame_bind {α β : Type} (good : Call → Bool) (m : M α) (f : α → M β)
    (hm : Frame good m) (hf : ∀ a, Frame good (f a)) : Frame good (m >>= f) := by
  intro w
  obtain ⟨L1, F1, h1, g1⟩ := hm w
  rw [bind_apply]
  rcases hmw : m w with ⟨o, w1⟩
  rw [hmw] at h1
  simp only at h1
  cases o with
  | returned a =>
    obtain ⟨L2, F2, h2, g2⟩ := hf a w1
    refine ⟨L1 ++ L2, F1 ++ F2, ?_, ?_⟩
    · simp only
      rw [h2, h1]
      simp
    · intro c hc
      rcases List.mem_append.mp hc with h | h
      · exact g1 c h
      · exact g2 c h
  | raised e => exact ⟨L1, F1, h1, g1⟩
  | terminated => exact ⟨L1, F1, h1, g1⟩

theorem frame_exec (good : Call → Bool) (c : Call) (hc : good c = true) :
    Frame good (exec c) :=
  fun w => ⟨[c], [], by simp [exec_apply], by simp [hc]⟩

theorem frame_throw_if_failed (good : Call → Bool) (code : Int) :
    Frame good (throw_if_failed code) :=
  fun w => ⟨[], [], by rw [world_frame_nil, throw_if_failed_apply], by simp⟩

theorem frame_delete (good : Call → Bool) (ptr : Ident) : Frame good (delete ptr) :=
  fun w => ⟨[], [ptr], by simp [delete], by simp⟩

theorem frame_noexcept {α : Type} (good : Call → Bool) (m : M α) (hm : Frame good m) :
    Frame good (noexcept m) := by
  intro w
  rw [noexcept_apply]
  exact hm w

theorem frame_ite {α : Type} (good : Call → Bool) (c : Prop) [Decidable c] (m n : M α)
    (hm : Frame good m) (hn : Frame good n) : Frame good (if c then m else n) := by
  split
  · exact hm
  · exact hn

theorem frame_checked_call (good : Call → Bool) (c : Call) (hc : good c = true) :
    Frame good (do let r ← exec c; throw_if_failed r.status : M Unit) :=
  frame_bind good _ _ (frame_exec good c hc) (fun _ => frame_throw_if_failed good _)

theorem frame_mono {α : Type} (good better : Call → Bool) (m : M α)
    (h : ∀ c, good c = true → better c = true) (hm : Frame good m) : Frame better m := by
  intro w
  obtain ⟨L, F, h1, g1⟩ := hm w
  exact ⟨L, F, h1, fun c hc => h c (g1 c hc)⟩

theorem frame_event_destructor (e : Event) : Frame Call.is_teardown e.destructor :=
  frame_noexcept _ _ (frame_checked_call _ _ rfl)

theorem frame_reference_count (p : Program) : Frame Call.is_teardown p.reference_count := by
  intro w
  refine ⟨[reference_count_query p], [], ?_, by simp [reference_count_query,
    Call.is_teardown]⟩
  rw [program_reference_count_apply]
  simp

theorem frame_release_with (d : Ident → M Unit) (hd : ∀ ptr, Frame Call.is_teardown (d ptr))
    (p : Program) : Frame Call.is_teardown (p.release_with d) :=
  frame_bind _ _ _ (frame_reference_count p) (fun _ =>
    frame_bind _ _ _ (frame_exec _ _ rfl) (fun _ =>
      frame_bind _ _ _ (frame_throw_if_failed _ _) (fun _ =>
        frame_ite _ _ _ _ (hd _) (frame_pure _ _))))

theorem frame_destructor_with (d : Program → M Unit)
    (hd : ∀ p, Frame Call.is_teardown (d p)) (c : BuildCallback) :
    Frame Call.is_teardown (c.destructor_with d) := by
  cases c with
  | empty => exact frame_pure _ _
  | user tag => exact frame_pure _ _
  | build_event e p =>
    exact frame_bind _ _ _ (hd p) (fun _ => frame_event_destructor e)

/-- Deleting a closure adds only calls of destroying handles to the log and pointers to
the closures freed. -/
theorem frame_delete_closure_within (depth : Nat) :
    ∀ ptr, Frame Call.is_teardown (delete_closure_within depth ptr) := by
  induction depth with
  | zero =>
    intro ptr w
    by_cases h : ptr = NULL
    · exact ⟨[], [], by simp [delete_closure_within, h], by simp⟩
    · exact ⟨[], [ptr], by simp [delete_closure_within, h, delete], by simp⟩
  | succ n ih =>
    intro ptr w
    by_cases h : ptr = NULL
    · exact ⟨[], [], by simp [delete_closure_within, h], by simp⟩
    · by_cases hf : ptr ∈ w.freed
      · exact ⟨[], [ptr], by simp [delete_closure_within, h, hf, delete], by simp⟩
      · rcases hc : w.heap[ptr - 1]? with _ | c
        · exact ⟨[], [ptr], by simp [delete_closure_within, h, hf, hc, delete], by simp⟩
        · have hbody : Frame Call.is_teardown (do
              c.destructor_with (fun p => noexcept (p.release_with (fun older =>
                if older < ptr then delete_closure_within n older else delete older)))
              delete ptr : M Unit) :=
            frame_bind _ _ _
              (frame_destructor_with _ (fun p => frame_noexcept _ _
                (frame_release_with _ (fun older =>
                  frame_ite _ _ _ _ (ih older) (frame_delete _ older)) p)) c)
              (fun _ => frame_delete _ ptr)
          obtain ⟨L, F, h1, g1⟩ := hbody w
          refine ⟨L, F, ?_, g1⟩
          rw [← h1]
          simp [delete_closure_within, h, hf, hc]

theorem frame_delete_closure (ptr : Ident) : Frame Call.is_teardown (delete_closure ptr) :=
  fun w => frame_delete_closure_within w.heap.length ptr w

theorem frame_program_release (p : Program) : Frame Call.is_teardown p.release :=
  frame_release_with _ frame_delete_closure p

theorem frame_program_destructor (p : Program) : Frame Call.is_teardown p.destructor :=
  frame_noexcept _ _ (frame_program_release p)

theorem frame_closure_destructor (c : BuildCallback) :
    Frame Call.is_teardown c.destructor :=
  frame_destructor_with _ frame_program_destructor c

/-- `Program::Program(identifier, flag)` on a non-null identifier, step by step. -/
theorem program_construct_apply (identifier : Ident) (h : identifier ≠ NULL) (b : Bool)
    (w : World) :
    Program.construct identifier b w =
      if b = true then
        (if (w.respond w.log (.clRetainProgram identifier)).status = CL_SUCCESS
          then .returned { internal_id := identifier, internal_callback_ptr := NULL }
          else .raised (.ExecutorError (w.respond w.log (.clRetainProgram identifier)).status),
         { w with log := w.log ++ [.clRetainProgram identifier] })
      else (.returned { internal_id := identifier, internal_callback_ptr := NULL }, w) := by
  cases b
  · simp [Program.construct, h, bind_apply, pure_apply]
  · by_cases hs : (w.respond w.log (.clRetainProgram identifier)).status = CL_SUCCESS
    all_goals simp [Program.construct, h, bind_apply, pure_apply, program_retain_apply, hs]

/-- `CommandQueue::CommandQueue(identifier, flag)` on a non-null identifier, step by
step. -/
theorem queue_construct_apply (identifier : Ident) (h : identifier ≠ NULL) (b : Bool)
    (w : World) :
    CommandQueue.construct identifier b w =
      if b = true then
        (if (w.respond w.log (.clRetainCommandQueue identifier)).status = CL_SUCCESS
          then .returned { internal_id := identifier }
          else .raised
            (.ExecutorError (w.respond w.log (.clRetainCommandQueue identifier)).status),
         { w with log := w.log ++ [.clRetainCommandQueue identifier] })
      else (.returned { internal_id := identifier }, w) := by
  cases b
  · simp [CommandQueue.construct, h, bind_apply, pure_apply]
  · by_cases hs : (w.respond w.log (.clRetainCommandQueue identifier)).status = CL_SUCCESS
    all_goals
      simp [CommandQueue.construct, h, bind_apply, pure_apply, queue_retain_apply, hs]

theorem no_raise_bind {α β : Type} (m : M α) (f : α → M β)
    (hm : ∀ w, (m w).1.isRaised = false) (hf : ∀ a w, (f a w).1.isRaised = false)
    (w : World) : ((m >>= f) w).1.isRaised = false := by
  rw [bind_apply]
  have h := hm w
  rcases hmw : m w with ⟨o, w1⟩
  rw [hmw] at h
  cases o with
  | returned a => exact hf a w1
  | raised e => simp [Outcome.isRaised] at h
  | terminated => rfl

theorem no_raise_noexcept {α : Type} (m : M α) (w : World) :
    (noexcept m w).1.isRaised = false := by
  rw [noexcept_apply]
  split
  · rfl
  · rename_i h
    simpa using h

/-- The destructor of a closure never ends with an exception when the destructor of the
program it holds is `noexcept`. -/
theorem destructor_with_no_raise (d : Program → M Unit) (c : BuildCallback) (w : World) :
    (c.destructor_with (fun p => noexcept (d p)) w).1.isRaised = false := by
  cases c with
  | empty => rfl
  | user tag => rfl
  | build_event e p =>
    exact no_raise_bind _ _ (fun w1 => no_raise_noexcept _ w1)
      (fun _ w1 => no_raise_noexcept _ w1) w

/-- Deleting a closure never ends with an exception: the destructors it runs are
`noexcept`. -/
theorem delete_closure_within_no_raise (depth : Nat) (ptr : Ident) (w : World) :
    (delete_closure_within depth ptr w).1.isRaised = false := by
  cases depth with
  | zero =>
    by_cases h : ptr = NULL <;> simp [delete_closure_within, h, delete, Outcome.isRaised]
  | succ n =>
    by_cases h : ptr = NULL
    · simp [delete_closure_within, h, Outcome.isRaised]
    · by_cases hf : ptr ∈ w.freed
      · simp [delete_closure_within, h, hf, delete, Outcome.isRaised]
      · rcases hc : w.heap[ptr - 1]? with _ | c
        · simp [delete_closure_within, h, hf, hc, delete, Outcome.isRaised]
        · simp only [delete_closure_within, h, hf, hc, if_false]
          exact no_raise_bind _ _ (fun w1 => destructor_with_no_raise _ c w1)
            (fun _ w1 => (rfl : (delete ptr w1).1.isRaised = false)) w

theorem delete_closure_no_raise (ptr : Ident) (w : World) :
    (delete_closure ptr w).1.isRaised = false :=
  delete_closure_within_no_raise w.heap.length ptr w

/-- The bound on nested destructions is never reached: any two bounds that cover the
pointer or the heap give the same `delete`. -/
theorem delete_closure_within_fuel (d1 : Nat) :
    ∀ (d2 : Nat) (ptr : Nat) (w : World), (ptr ≤ d1 ∨ w.heap.length ≤ d1) →
      (ptr ≤ d2 ∨ w.heap.length ≤ d2) →
      delete_closure_within d1 ptr w = delete_closure_within d2 ptr w := by
  have base : ∀ (d : Nat) (ptr : Nat) (w : World), (ptr ≤ 0 ∨ w.heap.length ≤ 0) →
      delete_closure_within d ptr w = delete_closure_within 0 ptr w := by
    intro d ptr w h
    cases d with
    | zero => rfl
    | succ m =>
      by_cases hp : ptr = NULL
      · simp [delete_closure_within, hp]
      · have hp0 : ptr ≠ 0 := hp
        have hL : w.heap.length = 0 := by
          rcases h with h | h <;> omega
        by_cases hf : ptr ∈ w.freed
        · simp [delete_closure_within, hp, hf]
        · have hnone : w.heap[ptr - 1]? = none := by
            rw [List.getElem?_eq_none]
            omega
          simp [delete_closure_within, hp, hf, hnone]
  induction d1 with
  | zero =>
    intro d2 ptr w h1 _
    exact (base d2 ptr w h1).symm
  | succ n ih =>
    intro d2 ptr w h1 h2
    cases d2 with
    | zero => exact base (n + 1) ptr w h2
    | succ m =>
      by_cases hp : ptr = NULL
      · simp [delete_closure_within, hp]
      · by_cases hf : ptr ∈ w.freed
        · simp [delete_closure_within, hp, hf]
        · rcases hc : w.heap[ptr - 1]? with _ | c
          · simp [delete_closure_within, hp, hf, hc]
          · have hlt : ptr - 1 < w.heap.length := by
              by_contra hge
              have hle : w.heap.length ≤ ptr - 1 := by omega
              rw [List.getElem?_eq_none hle] at hc
              simp at hc
            have hp0 : ptr ≠ 0 := hp
            have hfun : (fun older : Nat =>
                  if older < ptr then delete_closure_within n older else delete older)
                = (fun older : Nat =>
                  if older < ptr then delete_closure_within m older else delete older) := by
              funext older
              by_cases ho : older < ptr
              · simp only [ho, if_true]
                funext w1
                refine ih m older w1 (Or.inl ?_) (Or.inl ?_)
                · rcases h1 with h | h <;> omega
                · rcases h2 with h | h <;> omega
              · simp only [ho, if_false]
            simp only [delete_closure_within, hp, hf, hc, if_false]
            rw [hfun]

/-- A larger bound than the number of closures on the heap changes nothing. -/
theorem delete_closure_fuel (d : Nat) (ptr : Ident) (w : World) (h : w.heap.length ≤ d) :
    delete_closure_within d ptr w = delete_closure ptr w :=
  delete_closure_within_fuel d w.heap.length ptr w (Or.inr h) (Or.inr (Nat.le_refl _))

/-- `Program::~Program` step by step. -/
theorem program_destructor_apply (p : Program) (w : World) :
    p.destructor w =
      if (w.respond w.log (reference_count_query p)).status = CL_SUCCESS then
        if (w.respond (w.log ++ [reference_count_query p])
            (.clReleaseProgram p.internal_id)).status = CL_SUCCESS then
          (if ((w.respond w.log (reference_count_query p)).value % 2 ^ 32 == 1
              && p.internal_callback_ptr != NULL) = true
            then delete_closure p.internal_callback_ptr { w with
              log := w.log ++ [reference_count_query p, .clReleaseProgram p.internal_id] }
            else (.returned (), { w with
              log := w.log ++ [reference_count_query p, .clReleaseProgram p.internal_id] }))
        else
          (.terminated,
            { w with
              log := w.log ++ [reference_count_query p, .clReleaseProgram p.internal_id] })
      else
        (.terminated, { w with log := w.log ++ [reference_count_query p] }) := by
  unfold Program.destructor
  rw [noexcept_apply, program_release_apply]
  by_cases h : (w.respond w.log (reference_count_query p)).status = CL_SUCCESS
  · by_cases h2 : (w.respond (w.log ++ [reference_count_query p])
        (.clReleaseProgram p.internal_id)).status = CL_SUCCESS
    · by_cases h3 : ((w.respond w.log (reference_count_query p)).value % 2 ^ 32 == 1
          && p.internal_callback_ptr != NULL) = true
      · simp only [h, h2, h3, if_true, delete_closure_no_raise, Bool.false_eq_true,
          if_false]
      · simp only [h, h2, h3, if_true, if_false, Outcome.isRaised, Bool.false_eq_true]
    · simp [h, h2, Outcome.isRaised]
  · simp [h, Outcome.isRaised]

/-- Removing the element at an index lowers the count of a predicate by one exactly
when the element satisfies it. -/
theorem countP_eraseIdx_add {α : Type} (p : α → Bool) (l : List α) (i : Nat) (a : α)
    (h : l[i]? = some a) :
    (l.eraseIdx i).countP p + (if p a = true then 1 else 0) = l.countP p := by
  induction l generalizing i with
  | nil => simp at h
  | cons x xs ih =>
    cases i with
    | zero =>
      simp at h
      subst h
      by_cases hx : p x = true <;> simp [List.countP_cons, hx]
    | succ j =>
      simp at h
      have := ih j h
      by_cases hx : p x = true <;> simp [List.countP_cons, hx] <;> omega

/-- A step of the owning program leaves the behaviour of the executor as it is. -/
theorem step_respond (s : Scene) (op : HandleOp) :
    (s.step op).world.respond = s.world.respond := by
  cases op with
  | copy_construct src =>
    rcases hsrc : s.handles[src]? with _ | source
    · simp only [Scene.step, hsrc]
    · by_cases hs : (s.world.respond s.world.log
          (.clRetainProgram source.internal_id)).status = CL_SUCCESS
      all_goals
        simp [Scene.step, hsrc, Program.copy_construct, Program.copy_internal_data, bind_apply,
          pure_apply, program_retain_apply, hs]
  | copy_assign dst src =>
    rcases hdst : s.handles[dst]? with _ | target
    · simp only [Scene.step, hdst]
    · rcases hsrc : s.handles[src]? with _ | source
      · simp only [Scene.step, hdst, hsrc]
      · simp [Scene.step, hdst, hsrc, Program.operator_assign, Program.copy_internal_data,
          program_retain_apply]
  | destroy i =>
    rcases hi : s.handles[i]? with _ | h
    · simp only [Scene.step, hi]
    · obtain ⟨L, F, h1, _⟩ := frame_program_destructor h s.world
      simp only [Scene.step, hi, h1]

/-- Handles that point to no callback closure stay so along copy-constructions and
destructions. -/
theorem step_keeps_null (s : Scene) (op : HandleOp) (hop : op.is_assign = false)
    (hnull : ∀ h ∈ s.handles, h.internal_callback_ptr = NULL) :
    ∀ h ∈ (s.step op).handles, h.internal_callback_ptr = NULL := by
  cases op with
  | copy_assign dst src => simp [HandleOp.is_assign] at hop
  | copy_construct src =>
    rcases hsrc : s.handles[src]? with _ | source
    · simpa only [Scene.step, hsrc] using hnull
    · have hs := hnull source (List.getElem?_mem hsrc)
      by_cases hst : (s.world.respond s.world.log
          (.clRetainProgram source.internal_id)).status = CL_SUCCESS
      · intro h hm
        simp [Scene.step, hsrc, Program.copy_construct, Program.copy_internal_data,
          bind_apply, pure_apply, program_retain_apply, hst] at hm
        rcases hm with hm | hm
        · exact hnull h hm
        · rw [hm]
          exact hs
      · intro h hm
        simp [Scene.step, hsrc, Program.copy_construct, Program.copy_internal_data,
          bind_apply, pure_apply, program_retain_apply, hst] at hm
        exact hnull h hm
  | destroy i =>
    rcases hi : s.handles[i]? with _ | h
    · simpa only [Scene.step, hi] using hnull
    · intro h1 hm
      simp only [Scene.step, hi] at hm
      exact hnull h1 (List.mem_of_mem_eraseIdx hm)

/-- On the paths that do not go through `operator=` the reference counting invariant
holds for handles that point to no callback closure: on an executor whose calls succeed,
a copy-construction raises the external count of the copied identifier by one and adds
one live handle, a destruction lowers it by one and removes one live handle, so the
surplus of every identifier stays what it was. -/
theorem step_keeps_surplus (s : Scene) (op : HandleOp) (hop : op.is_assign = false)
    (hok : ∀ log c, (s.world.respond log c).status = CL_SUCCESS)
    (hnull : ∀ h ∈ s.handles, h.internal_callback_ptr = NULL) (id : Ident) :
    (s.step op).surplus id = s.surplus id := by
  cases op with
  | copy_assign dst src => simp [HandleOp.is_assign] at hop
  | copy_construct src =>
    rcases hsrc : s.handles[src]? with _ | source
    · simp only [Scene.step, hsrc]
    · simp only [Scene.step, hsrc, Program.copy_construct, Program.copy_internal_data,
        bind_apply, pure_apply, program_retain_apply, hok, if_true]
      by_cases hid : source.internal_id = id
      · simp [Scene.surplus, program_count, program_holders, List.count_append,
          List.countP_append, List.countP_cons, hid]
        omega
      · have hid2 : ¬ id = source.internal_id := fun e => hid e.symm
        simp [Scene.surplus, program_count, program_holders, List.count_append,
          List.countP_append, List.countP_cons, List.count_cons, hid, hid2]
  | destroy i =>
    rcases hi : s.handles[i]? with _ | h
    · simp only [Scene.step, hi]
    · have hc := countP_eraseIdx_add (fun x : Program => x.internal_id == id) s.handles i h hi
      have hn := hnull h (List.getElem?_mem hi)
      simp only [Scene.step, hi, program_destructor_apply, hok, if_true, hn, bne_self_eq_false,
        Bool.and_false, Bool.false_eq_true, if_false]
      by_cases hid : h.internal_id = id
      · simp [hid] at hc
        simp [Scene.surplus, program_count, program_holders, List.count_append,
          List.count_cons, reference_count_query, hid]
        omega
      · simp [hid] at hc
        simp [Scene.surplus, program_count, program_holders, List.count_append,
          List.count_cons, reference_count_query, hid]
        omega

/-- The invariant along a whole sequence of copy-constructions and destructions. -/
theorem run_keeps_surplus (ops : List HandleOp) (s : Scene)
    (hops : ∀ op ∈ ops, op.is_assign = false)
    (hok : ∀ log c, (s.world.respond log c).status = CL_SUCCESS)
    (hnull : ∀ h ∈ s.handles, h.internal_callback_ptr = NULL) (id : Ident) :
    (s.run ops).surplus id = s.surplus id := by
  induction ops generalizing s with
  | nil => rfl
  | cons op rest ih =>
    have h1 : op.is_assign = false := hops op (List.mem_cons_self _ _)
    have h2 : ∀ o ∈ rest, o.is_assign = false :=
      fun o ho => hops o (List.mem_cons_of_mem _ ho)
    have hok2 : ∀ log c, ((s.step op).world.respond log c).status = CL_SUCCESS := by
      rw [step_respond]
      exact hok
    have := ih (s.step op) h2 hok2 (step_keeps_null s op h1 hnull)
    simp only [Scene.run, List.foldl_cons] at this ⊢
    rw [this, step_keeps_surplus s op h1 hok hnull id]

/-- A loop that writes `f i` at every index `i < k` of an array leaves the first `k`
entries equal to `f 0, f 1, ...` and the rest of the array untouched. -/
theorem foldl_set_range (f : Nat → Ident) (arr : List Ident) (k : Nat)
    (hk : k ≤ arr.length) :
    (List.range k).foldl (fun a i => a.set i (f i)) arr
      = (List.range k).map f ++ arr.drop k := by
  induction k with
  | zero => simp
  | succ k ih =>
    have hlt : k < arr.length := hk
    rw [List.range_succ, List.foldl_append, ih (Nat.le_of_lt hlt)]
    simp only [List.foldl_cons, List.foldl_nil, List.map_append, List.map_cons, List.map_nil]
    rw [List.set_append]
    simp only [List.length_map, List.length_range, Nat.lt_irrefl, if_false, Nat.sub_self]
    rw [List.drop_eq_getElem_cons hlt, List.set_cons_zero, List.append_assoc]
    rfl

/-- The marshalling loop of the submissions turns a wait list into the array of the raw
identifiers of its tokens, in the same order. -/
theorem fill_raw_event_ids_eq_map (wl : EventWaitList) :
    fill_raw_event_ids wl wl.length (uninitialised wl.length) = wl.map Event.raw_identifier := by
  unfold fill_raw_event_ids
  rw [foldl_set_range (fun i => (wl.getD i { internal_id := NULL }).raw_identifier)
    (uninitialised wl.length) wl.length (by simp [uninitialised])]
  simp only [uninitialised, List.drop_replicate, Nat.sub_self, List.replicate_zero,
    List.append_nil]
  apply List.ext_getElem
  · simp
  · intro i h1 h2
    simp at h1
    simp [List.getD_eq_getElem?_getD, h1]

/-- How a call that was answered with reply `r` ends once `throw_if_failed` has seen the
status. -/
theorem checked_exec_apply {α : Type} (c : Call) (k : Reply → α) (w : World) :
    (do let r ← exec c; throw_if_failed r.status; pure (k r) : M α) w =
      (if (w.respond w.log c).status = CL_SUCCESS then .returned (k (w.respond w.log c))
        else .raised (.ExecutorError (w.respond w.log c).status),
       { w with log := w.log ++ [c] }) := by
  by_cases h : (w.respond w.log c).status = CL_SUCCESS
  all_goals simp [bind_apply, exec_apply, throw_if_failed_apply, pure_apply, h]

/-- `raw_read_buffer` issues one call, with the marshalled wait list, and checks its
status. -/
theorem raw_read_buffer_apply (self : CommandQueue) (b : Buffer) (o : Nat) (d : Ident)
    (sz : Nat) (sync : Bool) (wl : EventWaitList) (ev : Bool) (w : World) :
    self.raw_read_buffer b o d sz sync wl ev w =
      (if (w.respond w.log (.clEnqueueReadBuffer self.internal_id b.raw_identifier sync o sz d
            wl.length (wait_array wl) ev)).status = CL_SUCCESS
        then .returned (written ev (w.respond w.log (.clEnqueueReadBuffer self.internal_id
            b.raw_identifier sync o sz d wl.length (wait_array wl) ev)))
        else .raised (.ExecutorError (w.respond w.log (.clEnqueueReadBuffer self.internal_id
            b.raw_identifier sync o sz d wl.length (wait_array wl) ev)).status),
       { w with log := w.log ++ [.clEnqueueReadBuffer self.internal_id b.raw_identifier sync
            o sz d wl.length (wait_array wl) ev] }) := by
  unfold CommandQueue.raw_read_buffer
  by_cases hwl : wl = []
  · subst hwl
    simp only [List.length_nil, if_true, checked_exec_apply, wait_array]
  · have hlen : ¬ wl.length = 0 := fun h => hwl (List.length_eq_zero.mp h)
    simp only [hlen, if_false, checked_exec_apply, wait_array, hwl, fill_raw_event_ids_eq_map]

/-- `raw_write_buffer` issues one call, with the marshalled wait list, and checks its status. -/
theorem raw_write_buffer_apply (self : CommandQueue) (src : Ident) (wfa : Bool) (b : Buffer) (o sz : Nat) (wl : EventWaitList) (ev : Bool)
    (w : World) :
    self.raw_write_buffer src wfa b o sz wl ev w =
      (if (w.respond w.log (.clEnqueueWriteBuffer self.internal_id b.raw_identifier wfa o sz src wl.length (wait_array wl) ev)).status = CL_SUCCESS
        then .returned (written ev (w.respond w.log (.clEnqueueWriteBuffer self.internal_id b.raw_identifier wfa o sz src wl.length (wait_array wl) ev)))
        else .raised (.ExecutorError (w.respond w.log (.clEnqueueWriteBuffer self.internal_id b.raw_identifier wfa o sz src wl.length (wait_array wl) ev)).status),
       { w with log := w.log ++ [.clEnqueueWriteBuffer self.internal_id b.raw_identifier wfa o sz src wl.length (wait_array wl) ev] }) := by
  unfold CommandQueue.raw_write_buffer
  by_cases hwl : wl = []
  · subst hwl
    simp only [List.length_nil, if_true, checked_exec_apply, wait_array]
  · have hlen : ¬ wl.length = 0 := fun h => hwl (List.length_eq_zero.mp h)
    simp only [hlen, if_false, checked_exec_apply, wait_array, hwl, fill_raw_event_ids_eq_map]

/-- `raw_copy_buffer` issues one call, with the marshalled wait list, and checks its status. -/
theorem raw_copy_buffer_apply (self : CommandQueue) (sb : Buffer) (so : Nat) (db : Buffer) (d sz : Nat) (wl : EventWaitList) (ev : Bool)
    (w : World) :
    self.raw_copy_buffer sb so db d sz wl ev w =
      (if (w.respond w.log (.clEnqueueCopyBuffer self.internal_id sb.raw_identifier db.raw_identifier so d sz wl.length (wait_array wl) ev)).status = CL_SUCCESS
        then .returned (written ev (w.respond w.log (.clEnqueueCopyBuffer self.internal_id sb.raw_identifier db.raw_identifier so d sz wl.length (wait_array wl) ev)))
        else .raised (.ExecutorError (w.respond w.log (.clEnqueueCopyBuffer self.internal_id sb.raw_identifier db.raw_identifier so d sz wl.length (wait_array wl) ev)).status),
       { w with log := w.log ++ [.clEnqueueCopyBuffer self.internal_id sb.raw_identifier db.raw_identifier so d sz wl.length (wait_array wl) ev] }) := by
  unfold CommandQueue.raw_copy_buffer
  by_cases hwl : wl = []
  · subst hwl
    simp only [List.length_nil, if_true, checked_exec_apply, wait_array]
  · have hlen : ¬ wl.length = 0 := fun h => hwl (List.length_eq_zero.mp h)
    simp only [hlen, if_false, checked_exec_apply, wait_array, hwl, fill_raw_event_ids_eq_map]

/-- `raw_fill_buffer` issues one call, with the marshalled wait list, and checks its status. -/
theorem raw_fill_buffer_apply (self : CommandQueue) (p : Ident) (ps : Nat) (b : Buffer) (o sz : Nat) (wl : EventWaitList) (ev : Bool)
    (w : World) :
    self.raw_fill_buffer p ps b o sz wl ev w =
      (if (w.respond w.log (.clEnqueueFillBuffer self.internal_id b.raw_identifier p ps o sz wl.length (wait_array wl) ev)).status = CL_SUCCESS
        then .returned (written ev (w.respond w.log (.clEnqueueFillBuffer self.internal_id b.raw_identifier p ps o sz wl.length (wait_array wl) ev)))
        else .raised (.ExecutorError (w.respond w.log (.clEnqueueFillBuffer self.internal_id b.raw_identifier p ps o sz wl.length (wait_array wl) ev)).status),
       { w with log := w.log ++ [.clEnqueueFillBuffer self.internal_id b.raw_identifier p ps o sz wl.length (wait_array wl) ev] }) := by
  unfold CommandQueue.raw_fill_buffer
  by_cases hwl : wl = []
  · subst hwl
    simp only [List.length_nil, if_true, checked_exec_apply, wait_array]
  · have hlen : ¬ wl.length = 0 := fun h => hwl (List.length_eq_zero.mp h)
    simp only [hlen, if_false, checked_exec_apply, wait_array, hwl, fill_raw_event_ids_eq_map]

/-- `raw_map_buffer` issues one call, with the marshalled wait list, and checks its status. -/
theorem raw_map_buffer_apply (self : CommandQueue) (b : Buffer) (o sz : Nat) (sync : Bool) (fl : Nat) (wl : EventWaitList) (ev : Bool)
    (w : World) :
    self.raw_map_buffer b o sz sync fl wl ev w =
      (if (w.respond w.log (.clEnqueueMapBuffer self.internal_id b.raw_identifier sync fl o sz wl.length (wait_array wl) ev)).status = CL_SUCCESS
        then .returned ((fun r => (r.result, written ev r)) (w.respond w.log (.clEnqueueMapBuffer self.internal_id b.raw_identifier sync fl o sz wl.length (wait_array wl) ev)))
        else .raised (.ExecutorError (w.respond w.log (.clEnqueueMapBuffer self.internal_id b.raw_identifier sync fl o sz wl.length (wait_array wl) ev)).status),
       { w with log := w.log ++ [.clEnqueueMapBuffer self.internal_id b.raw_identifier sync fl o sz wl.length (wait_array wl) ev] }) := by
  unfold CommandQueue.raw_map_buffer
  by_cases hwl : wl = []
  · subst hwl
    simp only [List.length_nil, if_true, checked_exec_apply, wait_array]
  · have hlen : ¬ wl.length = 0 := fun h => hwl (List.length_eq_zero.mp h)
    simp only [hlen, if_false, checked_exec_apply, wait_array, hwl, fill_raw_event_ids_eq_map]

/-- `raw_unmap_mem_object` issues one call, with the marshalled wait list, and checks its status. -/
theorem raw_unmap_mem_object_apply (self : CommandQueue) (mo : MemoryObject) (p : Ident) (wl : EventWaitList) (ev : Bool)
    (w : World) :
    self.raw_unmap_mem_object mo p wl ev w =
      (if (w.respond w.log (.clEnqueueUnmapMemObject self.internal_id mo.raw_identifier p wl.length (wait_array wl) ev)).status = CL_SUCCESS
        then .returned (written ev (w.respond w.log (.clEnqueueUnmapMemObject self.internal_id mo.raw_identifier p wl.length (wait_array wl) ev)))
        else .raised (.ExecutorError (w.respond w.log (.clEnqueueUnmapMemObject self.internal_id mo.raw_identifier p wl.length (wait_array wl) ev)).status),
       { w with log := w.log ++ [.clEnqueueUnmapMemObject self.internal_id mo.raw_identifier p wl.length (wait_array wl) ev] }) := by
  unfold CommandQueue.raw_unmap_mem_object
  by_cases hwl : wl = []
  · subst hwl
    simp only [List.length_nil, if_true, checked_exec_apply, wait_array]
  · have hlen : ¬ wl.length = 0 := fun h => hwl (List.length_eq_zero.mp h)
    simp only [hlen, if_false, checked_exec_apply, wait_array, hwl, fill_raw_event_ids_eq_map]

/-- `raw_migrate_mem_objects` issues one call, with the marshalled wait list, and checks its status. -/
theorem raw_migrate_mem_objects_apply (self : CommandQueue) (mos : List MemoryObject) (fl : Nat) (wl : EventWaitList) (ev : Bool)
    (w : World) :
    self.raw_migrate_mem_objects mos fl wl ev w =
      (if (w.respond w.log (.clEnqueueMigrateMemObjects self.internal_id mos.length
            (fill_raw_object_ids mos mos.length (uninitialised mos.length)) fl wl.length (wait_array wl) ev)).status = CL_SUCCESS
        then .returned (written ev (w.respond w.log (.clEnqueueMigrateMemObjects self.internal_id mos.length
            (fill_raw_object_ids mos mos.length (uninitialised mos.length)) fl wl.length (wait_array wl) ev)))
        else .raised (.ExecutorError (w.respond w.log (.clEnqueueMigrateMemObjects self.internal_id mos.length
            (fill_raw_object_ids mos mos.length (uninitialised mos.length)) fl wl.length (wait_array wl) ev)).status),
       { w with log := w.log ++ [.clEnqueueMigrateMemObjects self.internal_id mos.length
            (fill_raw_object_ids mos mos.length (uninitialised mos.length)) fl wl.length (wait_array wl) ev] }) := by
  unfold CommandQueue.raw_migrate_mem_objects
  by_cases hwl : wl = []
  · subst hwl
    simp only [List.length_nil, if_true, checked_exec_apply, wait_array]
  · have hlen : ¬ wl.length = 0 := fun h => hwl (List.length_eq_zero.mp h)
    simp only [hlen, if_false, checked_exec_apply, wait_array, hwl, fill_raw_event_ids_eq_map]

/-- Running a computation for its effects keeps how it ends and what it did. -/
theorem discard_apply {α : Type} (m : M α) (w : World) :
    discard m w =
      (match (m w).1 with
        | .returned _ => .returned ()
        | .raised f => .raised f
        | .terminated => .terminated,
       (m w).2) := by
  unfold discard
  rw [bind_apply]
  rcases m w with ⟨o, w1⟩
  cases o <;> rfl

/-- Every raw submission issues exactly one executor call; the call carries the length
of the wait list and its marshalled array, and the submission throws the typed failure
for the call's status exactly when that status is not success. -/
theorem raw_submit_apply (self : CommandQueue) (s : RawSubmission) (wl : EventWaitList)
    (ev : Bool) (w : World) :
    ∃ c : Call, c.wait_list_args = some (wl.length, wait_array wl) ∧
      self.raw_submit s wl ev w =
        (if (w.respond w.log c).status = CL_SUCCESS then .returned ()
          else .raised (.ExecutorError (w.respond w.log c).status),
         { w with log := w.log ++ [c] }) := by
  cases s with
  | read_buffer b o d sz sync =>
    refine ⟨.clEnqueueReadBuffer self.internal_id b.raw_identifier sync o sz d wl.length
      (wait_array wl) ev, rfl, ?_⟩
    simp only [CommandQueue.raw_submit, discard_apply, raw_read_buffer_apply]
    split_ifs with h <;> rfl
  | write_buffer src wfa b o sz =>
    refine ⟨.clEnqueueWriteBuffer self.internal_id b.raw_identifier wfa o sz src wl.length
      (wait_array wl) ev, rfl, ?_⟩
    simp only [CommandQueue.raw_submit, discard_apply, raw_write_buffer_apply]
    split_ifs with h <;> rfl
  | copy_buffer sb so db d sz =>
    refine ⟨.clEnqueueCopyBuffer self.internal_id sb.raw_identifier db.raw_identifier so d sz wl.length
      (wait_array wl) ev, rfl, ?_⟩
    simp only [CommandQueue.raw_submit, discard_apply, raw_copy_buffer_apply]
    split_ifs with h <;> rfl
  | fill_buffer p ps b o sz =>
    refine ⟨.clEnqueueFillBuffer self.internal_id b.raw_identifier p ps o sz wl.length
      (wait_array wl) ev, rfl, ?_⟩
    simp only [CommandQueue.raw_submit, discard_apply, raw_fill_buffer_apply]
    split_ifs with h <;> rfl
  | map_buffer b o sz sync fl =>
    refine ⟨.clEnqueueMapBuffer self.internal_id b.raw_identifier sync fl o sz wl.length
      (wait_array wl) ev, rfl, ?_⟩
    simp only [CommandQueue.raw_submit, discard_apply, raw_map_buffer_apply]
    split_ifs with h <;> rfl
  | unmap_mem_object mo p =>
    refine ⟨.clEnqueueUnmapMemObject self.internal_id mo.raw_identifier p wl.length
      (wait_array wl) ev, rfl, ?_⟩
    simp only [CommandQueue.raw_submit, discard_apply, raw_unmap_mem_object_apply]
    split_ifs with h <;> rfl
  | migrate_mem_objects mos fl =>
    refine ⟨.clEnqueueMigrateMemObjects self.internal_id mos.length
        (fill_raw_object_ids mos mos.length (uninitialised mos.length)) fl wl.length
      (wait_array wl) ev, rfl, ?_⟩
    simp only [CommandQueue.raw_submit, discard_apply, raw_migrate_mem_objects_apply]
    split_ifs with h <;> rfl

/-- Wrapping an identifier into an `Event` without the initial increment: it throws
`InvalidArgument` on the null identifier and issues no executor call. -/
theorem event_construct_apply (identifier : Ident) (w : World) :
    Event.construct identifier false w =
      (if identifier = NULL then .raised .InvalidArgument
        else .returned { internal_id := identifier }, w) := by
  by_cases h : identifier = NULL
  all_goals simp [Event.construct, h, bind_apply, pure_apply, raise_apply]

/-- Every operation of `CommandQueue` issues exactly one executor call.  The call carries
the operation's wait list, marshalled; the operation throws the typed failure for the
call's status when that status is not success; on success it returns, except that an
observable shape throws `InvalidArgument` when the event handed back is null. -/
theorem perform_apply (self : CommandQueue) (op : Operation) (w : World) :
    ∃ c : Call,
      (∀ wl, op.event_wait_list = some wl →
        c.wait_list_args = some (wl.length, wait_array wl)) ∧
      self.perform op w =
        (if (w.respond w.log c).status = CL_SUCCESS then
            (if op.observable = true ∧ (w.respond w.log c).event = NULL
              then .raised .InvalidArgument else .returned ())
          else .raised (.ExecutorError (w.respond w.log c).status),
         { w with log := w.log ++ [c] }) := by
  cases op with
  | raw s wl ev =>
    obtain ⟨c, hc, hrun⟩ := raw_submit_apply self s wl ev w
    refine ⟨c, ?_, ?_⟩
    · intro l hl
      simp only [Operation.event_wait_list, Option.some.injEq] at hl
      subst hl
      exact hc
    · simp only [CommandQueue.perform, hrun, Operation.observable]
      simp
  | raw_query p sz st a =>
    refine ⟨
      .clGetCommandQueueInfo self.internal_id p sz st a,
      ?_, ?_⟩
    · intro l hl
      simp [Operation.event_wait_list] at hl
    · by_cases h : (w.respond w.log
        (.clGetCommandQueueInfo
          self.internal_id p sz st a)).status = CL_SUCCESS
      · simp [CommandQueue.perform, discard_apply, bind_apply, pure_apply, exec_apply,
          throw_if_failed_apply, event_construct_apply, written, Operation.observable,
          CommandQueue.raw_query, h]
      · simp [CommandQueue.perform, discard_apply, bind_apply, pure_apply, exec_apply,
          throw_if_failed_apply, event_construct_apply, written, Operation.observable,
          CommandQueue.raw_query, h]
  | raw_query_output_size p =>
    refine ⟨
      .clGetCommandQueueInfo self.internal_id p 0 NULL true,
      ?_, ?_⟩
    · intro l hl
      simp [Operation.event_wait_list] at hl
    · by_cases h : (w.respond w.log
        (.clGetCommandQueueInfo
          self.internal_id p 0 NULL true)).status = CL_SUCCESS
      · simp [CommandQueue.perform, discard_apply, bind_apply, pure_apply, exec_apply,
          throw_if_failed_apply, event_construct_apply, written, Operation.observable,
          CommandQueue.raw_query_output_size, CommandQueue.raw_query, h]
      · simp [CommandQueue.perform, discard_apply, bind_apply, pure_apply, exec_apply,
          throw_if_failed_apply, event_construct_apply, written, Operation.observable,
          CommandQueue.raw_query_output_size, CommandQueue.raw_query, h]
  | flush =>
    refine ⟨
      .clFlush self.internal_id,
      ?_, ?_⟩
    · intro l hl
      simp [Operation.event_wait_list] at hl
    · by_cases h : (w.respond w.log
        (.clFlush
          self.internal_id)).status = CL_SUCCESS
      · simp [CommandQueue.perform, discard_apply, bind_apply, pure_apply, exec_apply,
          throw_if_failed_apply, event_construct_apply, written, Operation.observable,
          CommandQueue.flush, h]
      · simp [CommandQueue.perform, discard_apply, bind_apply, pure_apply, exec_apply,
          throw_if_failed_apply, event_construct_apply, written, Operation.observable,
          CommandQueue.flush, h]
  | finish =>
    refine ⟨
      .clFinish self.internal_id,
      ?_, ?_⟩
    · intro l hl
      simp [Operation.event_wait_list] at hl
    · by_cases h : (w.respond w.log
        (.clFinish
          self.internal_id)).status = CL_SUCCESS
      · simp [CommandQueue.perform, discard_apply, bind_apply, pure_apply, exec_apply,
          throw_if_failed_apply, event_construct_apply, written, Operation.observable,
          CommandQueue.finish, h]
      · simp [CommandQueue.perform, discard_apply, bind_apply, pure_apply, exec_apply,
          throw_if_failed_apply, event_construct_apply, written, Operation.observable,
          CommandQueue.finish, h]
  | enqueued_read_buffer b o d sz wl =>
    refine ⟨
      .clEnqueueReadBuffer self.internal_id b.raw_identifier false o sz d wl.length (wait_array
        wl) true,
      ?_, ?_⟩
    · intro l hl
      simp only [Operation.event_wait_list, Option.some.injEq] at hl
      subst hl
      rfl
    · by_cases h : (w.respond w.log
        (.clEnqueueReadBuffer
          self.internal_id b.raw_identifier false o sz d wl.length (wait_array wl) true)).status = CL_SUCCESS
      · simp [CommandQueue.perform, discard_apply, bind_apply, pure_apply, exec_apply,
          throw_if_failed_apply, event_construct_apply, written, Operation.observable,
          CommandQueue.enqueued_read_buffer, raw_read_buffer_apply, h]
        split_ifs <;> rfl
      · simp [CommandQueue.perform, discard_apply, bind_apply, pure_apply, exec_apply,
          throw_if_failed_apply, event_construct_apply, written, Operation.observable,
          CommandQueue.enqueued_read_buffer, raw_read_buffer_apply, h]
  | enqueue_read_buffer b o d sz wl =>
    refine ⟨
      .clEnqueueReadBuffer self.internal_id b.raw_identifier false o sz d wl.length (wait_array
        wl) false,
      ?_, ?_⟩
    · intro l hl
      simp only [Operation.event_wait_list, Option.some.injEq] at hl
      subst hl
      rfl
    · by_cases h : (w.respond w.log
        (.clEnqueueReadBuffer
          self.internal_id b.raw_identifier false o sz d wl.length (wait_array wl) false)).status = CL_SUCCESS
      · simp [CommandQueue.perform, discard_apply, bind_apply, pure_apply, exec_apply,
          throw_if_failed_apply, event_construct_apply, written, Operation.observable,
          CommandQueue.enqueue_read_buffer, raw_read_buffer_apply, h]
      · simp [CommandQueue.perform, discard_apply, bind_apply, pure_apply, exec_apply,
          throw_if_failed_apply, event_construct_apply, written, Operation.observable,
          CommandQueue.enqueue_read_buffer, raw_read_buffer_apply, h]
  | read_buffer b o d sz wl =>
    refine ⟨
      .clEnqueueReadBuffer self.internal_id b.raw_identifier true o sz d wl.length (wait_array
        wl) false,
      ?_, ?_⟩
    · intro l hl
      simp only [Operation.event_wait_list, Option.some.injEq] at hl
      subst hl
      rfl
    · by_cases h : (w.respond w.log
        (.clEnqueueReadBuffer
          self.internal_id b.raw_identifier true o sz d wl.length (wait_array wl) false)).status = CL_SUCCESS
      · simp [CommandQueue.perform, discard_apply, bind_apply, pure_apply, exec_apply,
          throw_if_failed_apply, event_construct_apply, written, Operation.observable,
          CommandQueue.read_buffer, raw_read_buffer_apply, h]
      · simp [CommandQueue.perform, discard_apply, bind_apply, pure_apply, exec_apply,
          throw_if_failed_apply, event_construct_apply, written, Operation.observable,
          CommandQueue.read_buffer, raw_read_buffer_apply, h]
  | enqueued_write_buffer src wfa b o sz wl =>
    refine ⟨
      .clEnqueueWriteBuffer self.internal_id b.raw_identifier wfa o sz src wl.length
        (wait_array wl) true,
      ?_, ?_⟩
    · intro l hl
      simp only [Operation.event_wait_list, Option.some.injEq] at hl
      subst hl
      rfl
    · by_cases h : (w.respond w.log
        (.clEnqueueWriteBuffer
          self.internal_id b.raw_identifier wfa o sz src wl.length (wait_array wl) true)).status = CL_SUCCESS
      · simp [CommandQueue.perform, discard_apply, bind_apply, pure_apply, exec_apply,
          throw_if_failed_apply, event_construct_apply, written, Operation.observable,
          CommandQueue.enqueued_write_buffer, raw_write_buffer_apply, h]
        split_ifs <;> rfl
      · simp [CommandQueue.perform, discard_apply, bind_apply, pure_apply, exec_apply,
          throw_if_failed_apply, event_construct_apply, written, Operation.observable,
          CommandQueue.enqueued_write_buffer, raw_write_buffer_apply, h]
  | enqueue_write_buffer src wfa b o sz wl =>
    refine ⟨
      .clEnqueueWriteBuffer self.internal_id b.raw_identifier wfa o sz src wl.length
        (wait_array wl) false,
      ?_, ?_⟩
    · intro l hl
      simp only [Operation.event_wait_list, Option.some.injEq] at hl
      subst hl
      rfl
    · by_cases h : (w.respond w.log
        (.clEnqueueWriteBuffer
          self.internal_id b.raw_identifier wfa o sz src wl.length (wait_array wl) false)).status = CL_SUCCESS
      · simp [CommandQueue.perform, discard_apply, bind_apply, pure_apply, exec_apply,
          throw_if_failed_apply, event_construct_apply, written, Operation.observable,
          CommandQueue.enqueue_write_buffer, raw_write_buffer_apply, h]
      · simp [CommandQueue.perform, discard_apply, bind_apply, pure_apply, exec_apply,
          throw_if_failed_apply, event_construct_apply, written, Operation.observable,
          CommandQueue.enqueue_write_buffer, raw_write_buffer_apply, h]
  | enqueued_copy_buffer sb so db d sz wl =>
    refine ⟨
      .clEnqueueCopyBuffer self.internal_id sb.raw_identifier db.raw_identifier so d sz
        wl.length (wait_array wl) true,
      ?_, ?_⟩
    · intro l hl
      simp only [Operation.event_wait_list, Option.some.injEq] at hl
      subst hl
      rfl
    · by_cases h : (w.respond w.log
        (.clEnqueueCopyBuffer
          self.internal_id sb.raw_identifier db.raw_identifier so d sz wl.length (wait_array
            wl) true)).status = CL_SUCCESS
      · simp [CommandQueue.perform, discard_apply, bind_apply, pure_apply, exec_apply,
          throw_if_failed_apply, event_construct_apply, written, Operation.observable,
          CommandQueue.enqueued_copy_buffer, raw_copy_buffer_apply, h]
        split_ifs <;> rfl
      · simp [CommandQueue.perform, discard_apply, bind_apply, pure_apply, exec_apply,
          throw_if_failed_apply, event_construct_apply, written, Operation.observable,
          CommandQueue.enqueued_copy_buffer, raw_copy_buffer_apply, h]
  | enqueue_copy_buffer sb so db d sz wl =>
    refine ⟨
      .clEnqueueCopyBuffer self.internal_id sb.raw_identifier db.raw_identifier so d sz
        wl.length (wait_array wl) false,
      ?_, ?_⟩
    · intro l hl
      simp only [Operation.event_wait_list, Option.some.injEq] at hl
      subst hl
      rfl
    · by_cases h : (w.respond w.log
        (.clEnqueueCopyBuffer
          self.internal_id sb.raw_identifier db.raw_identifier so d sz wl.length (wait_array
            wl) false)).status = CL_SUCCESS
      · simp [CommandQueue.perform, discard_apply, bind_apply, pure_apply, exec_apply,
          throw_if_failed_apply, event_construct_apply, written, Operation.observable,
          CommandQueue.enqueue_copy_buffer, raw_copy_buffer_apply, h]
      · simp [CommandQueue.perform, discard_apply, bind_apply, pure_apply, exec_apply,
          throw_if_failed_apply, event_construct_apply, written, Operation.observable,
          CommandQueue.enqueue_copy_buffer, raw_copy_buffer_apply, h]
  | raw_enqueued_fill_buffer p ps b o sz wl =>
    refine ⟨
      .clEnqueueFillBuffer self.internal_id b.raw_identifier p ps o sz wl.length (wait_array
        wl) true,
      ?_, ?_⟩
    · intro l hl
      simp only [Operation.event_wait_list, Option.some.injEq] at hl
      subst hl
      rfl
    · by_cases h : (w.respond w.log
        (.clEnqueueFillBuffer
          self.internal_id b.raw_identifier p ps o sz wl.length (wait_array wl) true)).status = CL_SUCCESS
      · simp [CommandQueue.perform, discard_apply, bind_apply, pure_apply, exec_apply,
          throw_if_failed_apply, event_construct_apply, written, Operation.observable,
          CommandQueue.raw_enqueued_fill_buffer, raw_fill_buffer_apply, h]
        split_ifs <;> rfl
      · simp [CommandQueue.perform, discard_apply, bind_apply, pure_apply, exec_apply,
          throw_if_failed_apply, event_construct_apply, written, Operation.observable,
          CommandQueue.raw_enqueued_fill_buffer, raw_fill_buffer_apply, h]
  | raw_enqueue_fill_buffer p ps b o sz wl =>
    refine ⟨
      .clEnqueueFillBuffer self.internal_id b.raw_identifier p ps o sz wl.length (wait_array
        wl) false,
      ?_, ?_⟩
    · intro l hl
      simp only [Operation.event_wait_list, Option.some.injEq] at hl
      subst hl
      rfl
    · by_cases h : (w.respond w.log
        (.clEnqueueFillBuffer
          self.internal_id b.raw_identifier p ps o sz wl.length (wait_array wl) false)).status = CL_SUCCESS
      · simp [CommandQueue.perform, discard_apply, bind_apply, pure_apply, exec_apply,
          throw_if_failed_apply, event_construct_apply, written, Operation.observable,
          CommandQueue.raw_enqueue_fill_buffer, raw_fill_buffer_apply, h]
      · simp [CommandQueue.perform, discard_apply, bind_apply, pure_apply, exec_apply,
          throw_if_failed_apply, event_construct_apply, written, Operation.observable,
          CommandQueue.raw_enqueue_fill_buffer, raw_fill_buffer_apply, h]
  | enqueued_map_buffer b o sz fl wl fr =>
    refine ⟨
      .clEnqueueMapBuffer self.internal_id b.raw_identifier false fl o sz wl.length (wait_array
        wl) true,
      ?_, ?_⟩
    · intro l hl
      simp only [Operation.event_wait_list, Option.some.injEq] at hl
      subst hl
      rfl
    · by_cases h : (w.respond w.log
        (.clEnqueueMapBuffer
          self.internal_id b.raw_identifier false fl o sz wl.length (wait_array wl) true)).status = CL_SUCCESS
      · simp [CommandQueue.perform, discard_apply, bind_apply, pure_apply, exec_apply,
          throw_if_failed_apply, event_construct_apply, written, Operation.observable,
          CommandQueue.enqueued_map_buffer, raw_map_buffer_apply, h]
        split_ifs <;> rfl
      · simp [CommandQueue.perform, discard_apply, bind_apply, pure_apply, exec_apply,
          throw_if_failed_apply, event_construct_apply, written, Operation.observable,
          CommandQueue.enqueued_map_buffer, raw_map_buffer_apply, h]
  | enqueue_map_buffer b o sz fl wl fr =>
    refine ⟨
      .clEnqueueMapBuffer self.internal_id b.raw_identifier false fl o sz wl.length (wait_array
        wl) false,
      ?_, ?_⟩
    · intro l hl
      simp only [Operation.event_wait_list, Option.some.injEq] at hl
      subst hl
      rfl
    · by_cases h : (w.respond w.log
        (.clEnqueueMapBuffer
          self.internal_id b.raw_identifier false fl o sz wl.length (wait_array wl) false)).status = CL_SUCCESS
      · simp [CommandQueue.perform, discard_apply, bind_apply, pure_apply, exec_apply,
          throw_if_failed_apply, event_construct_apply, written, Operation.observable,
          CommandQueue.enqueue_map_buffer, raw_map_buffer_apply, h]
      · simp [CommandQueue.perform, discard_apply, bind_apply, pure_apply, exec_apply,
          throw_if_failed_apply, event_construct_apply, written, Operation.observable,
          CommandQueue.enqueue_map_buffer, raw_map_buffer_apply, h]
  | map_buffer b o sz fl wl =>
    refine ⟨
      .clEnqueueMapBuffer self.internal_id b.raw_identifier true fl o sz wl.length (wait_array
        wl) false,
      ?_, ?_⟩
    · intro l hl
      simp only [Operation.event_wait_list, Option.some.injEq] at hl
      subst hl
      rfl
    · by_cases h : (w.respond w.log
        (.clEnqueueMapBuffer
          self.internal_id b.raw_identifier true fl o sz wl.length (wait_array wl) false)).status = CL_SUCCESS
      · simp [CommandQueue.perform, discard_apply, bind_apply, pure_apply, exec_apply,
          throw_if_failed_apply, event_construct_apply, written, Operation.observable,
          CommandQueue.map_buffer, raw_map_buffer_apply, h]
      · simp [CommandQueue.perform, discard_apply, bind_apply, pure_apply, exec_apply,
          throw_if_failed_apply, event_construct_apply, written, Operation.observable,
          CommandQueue.map_buffer, raw_map_buffer_apply, h]
  | enqueued_unmap_mem_object mo p wl =>
    refine ⟨
      .clEnqueueUnmapMemObject self.internal_id mo.raw_identifier p wl.length (wait_array wl)
        true,
      ?_, ?_⟩
    · intro l hl
      simp only [Operation.event_wait_list, Option.some.injEq] at hl
      subst hl
      rfl
    · by_cases h : (w.respond w.log
        (.clEnqueueUnmapMemObject
          self.internal_id mo.raw_identifier p wl.length (wait_array wl) true)).status = CL_SUCCESS
      · simp [CommandQueue.perform, discard_apply, bind_apply, pure_apply, exec_apply,
          throw_if_failed_apply, event_construct_apply, written, Operation.observable,
          CommandQueue.enqueued_unmap_mem_object, raw_unmap_mem_object_apply, h]
        split_ifs <;> rfl
      · simp [CommandQueue.perform, discard_apply, bind_apply, pure_apply, exec_apply,
          throw_if_failed_apply, event_construct_apply, written, Operation.observable,
          CommandQueue.enqueued_unmap_mem_object, raw_unmap_mem_object_apply, h]
  | enqueue_unmap_mem_object mo p wl =>
    refine ⟨
      .clEnqueueUnmapMemObject self.internal_id mo.raw_identifier p wl.length (wait_array wl)
        false,
      ?_, ?_⟩
    · intro l hl
      simp only [Operation.event_wait_list, Option.some.injEq] at hl
      subst hl
      rfl
    · by_cases h : (w.respond w.log
        (.clEnqueueUnmapMemObject
          self.internal_id mo.raw_identifier p wl.length (wait_array wl) false)).status = CL_SUCCESS
      · simp [CommandQueue.perform, discard_apply, bind_apply, pure_apply, exec_apply,
          throw_if_failed_apply, event_construct_apply, written, Operation.observable,
          CommandQueue.enqueue_unmap_mem_object, raw_unmap_mem_object_apply, h]
      · simp [CommandQueue.perform, discard_apply, bind_apply, pure_apply, exec_apply,
          throw_if_failed_apply, event_construct_apply, written, Operation.observable,
          CommandQueue.enqueue_unmap_mem_object, raw_unmap_mem_object_apply, h]
  | enqueued_migrate_mem_objects mos fl wl =>
    refine ⟨
      .clEnqueueMigrateMemObjects self.internal_id mos.length (fill_raw_object_ids mos
        mos.length (uninitialised mos.length)) fl wl.length (wait_array wl) true,
      ?_, ?_⟩
    · intro l hl
      simp only [Operation.event_wait_list, Option.some.injEq] at hl
      subst hl
      rfl
    · by_cases h : (w.respond w.log
        (.clEnqueueMigrateMemObjects
          self.internal_id mos.length (fill_raw_object_ids mos mos.length (uninitialised
            mos.length)) fl wl.length (wait_array wl) true)).status = CL_SUCCESS
      · simp [CommandQueue.perform, discard_apply, bind_apply, pure_apply, exec_apply,
          throw_if_failed_apply, event_construct_apply, written, Operation.observable,
          CommandQueue.enqueued_migrate_mem_objects, raw_migrate_mem_objects_apply, h]
        split_ifs <;> rfl
      · simp [CommandQueue.perform, discard_apply, bind_apply, pure_apply, exec_apply,
          throw_if_failed_apply, event_construct_apply, written, Operation.observable,
          CommandQueue.enqueued_migrate_mem_objects, raw_migrate_mem_objects_apply, h]
  | enqueue_migrate_mem_objects mos fl wl =>
    refine ⟨
      .clEnqueueMigrateMemObjects self.internal_id mos.length (fill_raw_object_ids mos
        mos.length (uninitialised mos.length)) fl wl.length (wait_array wl) false,
      ?_, ?_⟩
    · intro l hl
      simp only [Operation.event_wait_list, Option.some.injEq] at hl
      subst hl
      rfl
    · by_cases h : (w.respond w.log
        (.clEnqueueMigrateMemObjects
          self.internal_id mos.length (fill_raw_object_ids mos mos.length (uninitialised
            mos.length)) fl wl.length (wait_array wl) false)).status = CL_SUCCESS
      · simp [CommandQueue.perform, discard_apply, bind_apply, pure_apply, exec_apply,
          throw_if_failed_apply, event_construct_apply, written, Operation.observable,
          CommandQueue.enqueue_migrate_mem_objects, raw_migrate_mem_objects_apply, h]
      · simp [CommandQueue.perform, discard_apply, bind_apply, pure_apply, exec_apply,
          throw_if_failed_apply, event_construct_apply, written, Operation.observable,
          CommandQueue.enqueue_migrate_mem_objects, raw_migrate_mem_objects_apply, h]

/-- An observable shape wraps the event the executor handed back, and wrapping the null
identifier throws `InvalidArgument` although the call succeeded. -/
theorem observable_shape_rejects_null_event (self : CommandQueue) (op : Operation)
    (w : World) (hobs : op.observable = true)
    (hnull : ∀ c, (w.respond w.log c).status = CL_SUCCESS ∧ (w.respond w.log c).event = NULL) :
    (self.perform op w).1 = .raised .InvalidArgument := by
  obtain ⟨c, _, hrun⟩ := perform_apply self op w
  rw [hrun]
  simp [hobs, hnull c]

/-! ## The claims -/

/-- C1 at its failing inputs, on an executor where every call succeeds.  Two handles hold
identifiers `1` and `2`.  Assigning the second to the first retains `2` and releases
nothing: no live handle holds `1` any more, yet its external count has not dropped, and
after both handles are destroyed `1` still carries the reference.  Assigning a handle to
itself retains `1` once more with one handle alive.  `CommandQueue::operator=` behaves
alike. -/
theorem copy_assignment_leaks_a_reference :
    (({ handles := [⟨1, NULL⟩, ⟨2, NULL⟩], world := fresh succeeding } : Scene).step
        (.copy_assign 0 1)).handles = [⟨2, NULL⟩, ⟨2, NULL⟩] ∧
    (({ handles := [⟨1, NULL⟩, ⟨2, NULL⟩], world := fresh succeeding } : Scene).step
        (.copy_assign 0 1)).world.log = [.clRetainProgram 2] ∧
    (({ handles := [⟨1, NULL⟩, ⟨2, NULL⟩], world := fresh succeeding } : Scene).step
        (.copy_assign 0 1)).surplus 1
      = ({ handles := [⟨1, NULL⟩, ⟨2, NULL⟩], world := fresh succeeding } : Scene).surplus 1
        + 1 ∧
    (({ handles := [⟨1, NULL⟩, ⟨2, NULL⟩], world := fresh succeeding } : Scene).run
        [.copy_assign 0 1, .destroy 0, .destroy 0]).handles = [] ∧
    (({ handles := [⟨1, NULL⟩, ⟨2, NULL⟩], world := fresh succeeding } : Scene).run
        [.copy_assign 0 1, .destroy 0, .destroy 0]).world.log.count (.clReleaseProgram 1)
      = 0 ∧
    (({ handles := [⟨1, NULL⟩], world := fresh succeeding } : Scene).step
        (.copy_assign 0 0)).handles = [⟨1, NULL⟩] ∧
    (({ handles := [⟨1, NULL⟩], world := fresh succeeding } : Scene).step
        (.copy_assign 0 0)).world.log = [.clRetainProgram 1] ∧
    (CommandQueue.operator_assign ⟨1⟩ ⟨2⟩ (fresh succeeding)).1 = (.returned (), ⟨2⟩) ∧
    (CommandQueue.operator_assign ⟨1⟩ ⟨2⟩ (fresh succeeding)).2.log
      = [.clRetainCommandQueue 2] := by
  decide

/-- C2: for `CommandQueue` and for `Program`, and for either value of
`increment_reference_count`, constructing a handle from the null identifier throws
`InvalidArgument`, and no call at all (so no retain call) has been issued to the executor
when it throws: the world is the one the constructor started in. -/
theorem null_identifier_rejected_before_retain (increment_reference_count : Bool)
    (w : World) :
    CommandQueue.construct NULL increment_reference_count w = (.raised .InvalidArgument, w) ∧
    Program.construct NULL increment_reference_count w = (.raised .InvalidArgument, w) :=
  ⟨rfl, rfl⟩

/-- C3, as stated, fails: on an executor where every call succeeds, constructing a
`Program` from identifier `1` without the initial increment and destroying it issues no
retain call and one release call, so the two numbers differ and the count drops by one. -/
theorem construct_then_destroy_unbalanced_without_increment :
    ¬ ((construct_then_destroy 1 false (fresh succeeding)).2.log.count (.clRetainProgram 1)
        = (construct_then_destroy 1 false (fresh succeeding)).2.log.count
            (.clReleaseProgram 1)) ∧
    program_count (fun _ => 1) (construct_then_destroy 1 false (fresh succeeding)).2.log 1
      = program_count (fun _ => 1) (fresh succeeding).log 1 - 1 := by
  decide

/-- C3, amended: for every non-null identifier and every executor whose calls succeed,
constructing a `Program` handle with `increment_reference_count = true` and destroying it
issues exactly one retain and one release on the identifier, so its external reference
count is unchanged; with `increment_reference_count = false` it issues no retain and one
release, so the count drops by one (the reference the identifier carried is consumed). -/
theorem construct_then_destroy_balance (identifier : Ident) (h : identifier ≠ NULL)
    (increment_reference_count : Bool) (w : World)
    (hok : ∀ log c, (w.respond log c).status = CL_SUCCESS) (initial : Ident → Int) :
    (construct_then_destroy identifier increment_reference_count w).1 = .returned () ∧
    (construct_then_destroy identifier increment_reference_count w).2.log =
      w.log ++ (if increment_reference_count = true then [.clRetainProgram identifier] else [])
        ++ [reference_count_query ⟨identifier, NULL⟩, .clReleaseProgram identifier] ∧
    program_count initial
        (construct_then_destroy identifier increment_reference_count w).2.log identifier =
      program_count initial w.log identifier
        - (if increment_reference_count = true then 0 else 1) := by
  have hrun : construct_then_destroy identifier increment_reference_count w =
      (.returned (),
        { w with
          log := w.log
            ++ (if increment_reference_count = true then [.clRetainProgram identifier] else [])
            ++ [reference_count_query ⟨identifier, NULL⟩, .clReleaseProgram identifier] }) := by
    cases increment_reference_count
    · simp [construct_then_destroy, program_construct_apply identifier h, bind_apply,
        program_destructor_apply, hok, NULL]
    · simp [construct_then_destroy, program_construct_apply identifier h, bind_apply,
        program_destructor_apply, hok, NULL]
  rw [hrun]
  refine ⟨rfl, rfl, ?_⟩
  cases increment_reference_count <;>
    simp [program_count, reference_count_query, List.count_append, List.count_cons,
      List.count_nil] <;> omega

/-- Witness for the amended C3 at identifier `1`, with the increment, on an executor where
every call succeeds. -/
theorem construct_then_destroy_balance_witness :
    (1 : Ident) ≠ NULL ∧
    program_count (fun _ => 1) (construct_then_destroy 1 true (fresh succeeding)).2.log 1
      = program_count (fun _ => 1) (fresh succeeding).log 1 - 0 :=
  ⟨by decide,
   (construct_then_destroy_balance 1 (by decide) true (fresh succeeding)
      (fun _ _ => rfl) (fun _ => 1)).2.2⟩

/-- C4: for every non-null identifier, the `CommandQueue` and `Program` constructors issue
exactly one executor call, a retain on that identifier, when `increment_reference_count`
is true, and no call at all when it is false; whenever a handle comes out (always when the
flag is false, and when the retain succeeds otherwise) `raw_identifier()` returns the
identifier that was given. -/
theorem constructor_retains_as_asked (identifier : Ident) (h : identifier ≠ NULL) (w : World) :
    ((Program.construct identifier true w).2.log = w.log ++ [.clRetainProgram identifier] ∧
     (Program.construct identifier false w).2.log = w.log ∧
     (∃ p, (Program.construct identifier false w).1 = .returned p ∧
        p.raw_identifier = identifier) ∧
     ((w.respond w.log (.clRetainProgram identifier)).status = CL_SUCCESS →
        ∃ p, (Program.construct identifier true w).1 = .returned p ∧
          p.raw_identifier = identifier) ∧
     ∀ b p, (Program.construct identifier b w).1 = .returned p →
        p.raw_identifier = identifier) ∧
    ((CommandQueue.construct identifier true w).2.log
        = w.log ++ [.clRetainCommandQueue identifier] ∧
     (CommandQueue.construct identifier false w).2.log = w.log ∧
     (∃ q, (CommandQueue.construct identifier false w).1 = .returned q ∧
        q.raw_identifier = identifier) ∧
     ((w.respond w.log (.clRetainCommandQueue identifier)).status = CL_SUCCESS →
        ∃ q, (CommandQueue.construct identifier true w).1 = .returned q ∧
          q.raw_identifier = identifier) ∧
     ∀ b q, (CommandQueue.construct identifier b w).1 = .returned q →
        q.raw_identifier = identifier) := by
  have hP := fun b => program_construct_apply identifier h b w
  have hQ := fun b => queue_construct_apply identifier h b w
  refine ⟨⟨?_, ?_, ?_, ?_, ?_⟩, ⟨?_, ?_, ?_, ?_, ?_⟩⟩
  · simp [hP]
  · simp [hP]
  · exact ⟨⟨identifier, NULL⟩, by simp [hP], rfl⟩
  · intro hs
    exact ⟨⟨identifier, NULL⟩, by simp [hP, hs], rfl⟩
  · intro b p hp
    rw [hP] at hp
    cases b
    · simp at hp
      rw [← hp]; rfl
    · by_cases hs : (w.respond w.log (.clRetainProgram identifier)).status = CL_SUCCESS
      · simp [hs] at hp
        rw [← hp]; rfl
      · simp [hs] at hp
  · simp [hQ]
  · simp [hQ]
  · exact ⟨⟨identifier⟩, by simp [hQ], rfl⟩
  · intro hs
    exact ⟨⟨identifier⟩, by simp [hQ, hs], rfl⟩
  · intro b q hq
    rw [hQ] at hq
    cases b
    · simp at hq
      rw [← hq]; rfl
    · by_cases hs : (w.respond w.log (.clRetainCommandQueue identifier)).status = CL_SUCCESS
      · simp [hs] at hq
        rw [← hq]; rfl
      · simp [hs] at hq

/-- Witness for C4 at identifier `5` on an executor where every call succeeds. -/
theorem constructor_retains_as_asked_witness :
    (5 : Ident) ≠ NULL ∧
    (Program.construct 5 true (fresh succeeding)).2.log = [.clRetainProgram 5] ∧
    (Program.construct 5 false (fresh succeeding)).2.log = [] :=
  ⟨by decide,
   (constructor_retains_as_asked 5 (by decide) (fresh succeeding)).1.1,
   (constructor_retains_as_asked 5 (by decide) (fresh succeeding)).1.2.1⟩

/-- C5, as stated, fails: on an executor whose reference count query fails, destroying a
`Program` handle that holds identifier `1` issues no release call at all (the only call
made is the query, after which the process ends). -/
theorem destructor_skips_release_when_query_fails :
    ¬ (((⟨1, NULL⟩ : Program).destructor (fresh (failing (-5)))).2.log.count
        (.clReleaseProgram 1) = 1) ∧
    ((⟨1, NULL⟩ : Program).destructor (fresh (failing (-5)))).2.log
      = [reference_count_query ⟨1, NULL⟩] ∧
    ((⟨1, NULL⟩ : Program).destructor (fresh (failing (-5)))).1 = .terminated := by
  decide

/-- C5, amended: whenever the reference count query made by `release` succeeds, whatever
value it returns and whether the release call itself then succeeds or fails, the calls of
destroying a `Program` handle begin with the query and one release call for the handle's
identifier, and every further call is a query or a release made by destroying a closure.
These two are its only calls, so the identifier is released exactly once, unless the
release call succeeded, the count read was `1` and the callback pointer of the handle is
not null; in that case what follows the two calls is the deletion of the closure behind
the pointer. -/
theorem destructor_releases_once (p : Program) (w : World)
    (hq : (w.respond w.log (reference_count_query p)).status = CL_SUCCESS) :
    (∃ rest : List Call,
      (p.destructor w).2.log
        = w.log ++ [reference_count_query p, .clReleaseProgram p.internal_id] ++ rest ∧
      ∀ c ∈ rest, c.is_teardown = true) ∧
    (¬ ((w.respond (w.log ++ [reference_count_query p])
          (.clReleaseProgram p.internal_id)).status = CL_SUCCESS ∧
        (w.respond w.log (reference_count_query p)).value % 2 ^ 32 = 1 ∧
        p.internal_callback_ptr ≠ NULL) →
      (p.destructor w).2.log
        = w.log ++ [reference_count_query p, .clReleaseProgram p.internal_id] ∧
      (p.destructor w).2.log.count (.clReleaseProgram p.internal_id)
        = w.log.count (.clReleaseProgram p.internal_id) + 1 ∧
      (p.destructor w).2.freed = w.freed) ∧
    ((w.respond (w.log ++ [reference_count_query p])
          (.clReleaseProgram p.internal_id)).status = CL_SUCCESS ∧
        (w.respond w.log (reference_count_query p)).value % 2 ^ 32 = 1 ∧
        p.internal_callback_ptr ≠ NULL →
      p.destructor w = delete_closure p.internal_callback_ptr { w with
        log := w.log ++ [reference_count_query p, .clReleaseProgram p.internal_id] }) := by
  have hplain : ¬ ((w.respond (w.log ++ [reference_count_query p])
          (.clReleaseProgram p.internal_id)).status = CL_SUCCESS ∧
        (w.respond w.log (reference_count_query p)).value % 2 ^ 32 = 1 ∧
        p.internal_callback_ptr ≠ NULL) →
      (p.destructor w).2 = { w with
        log := w.log ++ [reference_count_query p, .clReleaseProgram p.internal_id] } := by
    intro hn
    rw [program_destructor_apply]
    by_cases h2 : (w.respond (w.log ++ [reference_count_query p])
        (.clReleaseProgram p.internal_id)).status = CL_SUCCESS
    · have hc : ((w.respond w.log (reference_count_query p)).value % 2 ^ 32 == 1
          && p.internal_callback_ptr != NULL) = false := by
        by_cases h3 : (w.respond w.log (reference_count_query p)).value % 2 ^ 32 = 1
        · by_cases h4 : p.internal_callback_ptr = NULL
          · simp [h4]
          · exact absurd ⟨h2, h3, h4⟩ hn
        · simp only [Nat.reducePow] at h3
          simp [h3]
      simp only [hq, h2, hc, if_true, Bool.false_eq_true, if_false]
    · simp only [hq, h2, if_true, if_false]
  have hdel : (w.respond (w.log ++ [reference_count_query p])
          (.clReleaseProgram p.internal_id)).status = CL_SUCCESS ∧
        (w.respond w.log (reference_count_query p)).value % 2 ^ 32 = 1 ∧
        p.internal_callback_ptr ≠ NULL →
      p.destructor w = delete_closure p.internal_callback_ptr { w with
        log := w.log ++ [reference_count_query p, .clReleaseProgram p.internal_id] } := by
    rintro ⟨h2, h3, h4⟩
    have hc : ((w.respond w.log (reference_count_query p)).value % 2 ^ 32 == 1
        && p.internal_callback_ptr != NULL) = true := by
      simp only [Nat.reducePow] at h3
      simp [h3, h4]
    rw [program_destructor_apply]
    simp only [hq, h2, hc, if_true]
  refine ⟨?_, ?_, hdel⟩
  · by_cases hn : ((w.respond (w.log ++ [reference_count_query p])
          (.clReleaseProgram p.internal_id)).status = CL_SUCCESS ∧
        (w.respond w.log (reference_count_query p)).value % 2 ^ 32 = 1 ∧
        p.internal_callback_ptr ≠ NULL)
    · obtain ⟨L, F, h1, g1⟩ := frame_delete_closure p.internal_callback_ptr { w with
        log := w.log ++ [reference_count_query p, .clReleaseProgram p.internal_id] }
      refine ⟨L, ?_, g1⟩
      rw [hdel hn, h1]
    · refine ⟨[], ?_, by simp⟩
      rw [hplain hn]
      simp
  · intro hn
    rw [hplain hn]
    refine ⟨rfl, ?_, rfl⟩
    simp [reference_count_query, List.count_append, List.count_cons]

/-- Witness for the amended C5.  A handle on identifier `1` that points to no closure, on
an executor where every call succeeds, makes the query and one release.  On an executor
that answers the count `1`, the handle that `build_with_event` has left pointing to the
closure of the build bridge makes the query and its release and then deletes the closure,
which releases the program copy and the event the closure holds. -/
theorem destructor_releases_once_witness :
    ((⟨1, NULL⟩ : Program).destructor (fresh succeeding)).2.log
      = [reference_count_query ⟨1, NULL⟩, .clReleaseProgram 1] ∧
    (calls_since 24 ((⟨1, 1⟩ : Program).destructor
      (Program.build_with_event ⟨1, NULL⟩ none "" (fresh (building [0] 1))).2).2)
      = [reference_count_query ⟨1, 1⟩, .clReleaseProgram 1,
          reference_count_query ⟨1, NULL⟩, .clReleaseProgram 1, .clReleaseEvent 7] ∧
    ((⟨1, 1⟩ : Program).destructor
      (Program.build_with_event ⟨1, NULL⟩ none "" (fresh (building [0] 1))).2).2.freed
      = [1] :=
  ⟨((destructor_releases_once ⟨1, NULL⟩ (fresh succeeding) rfl).2.1 (by decide)).1,
   by decide, by decide⟩

/-- C6: whatever the executor answers, destroying a `Program` handle never ends with an
exception for the caller; when the reference count query fails, or when it succeeds and
the release call fails, the destructor ends the process (`std::terminate`) rather than
returning as if nothing had happened. -/
theorem destructor_never_throws (p : Program) (w : World) :
    (∀ f, (p.destructor w).1 ≠ .raised f) ∧
    ((w.respond w.log (reference_count_query p)).status ≠ CL_SUCCESS →
      (p.destructor w).1 = .terminated) ∧
    ((w.respond w.log (reference_count_query p)).status = CL_SUCCESS →
      (w.respond (w.log ++ [reference_count_query p])
          (.clReleaseProgram p.internal_id)).status ≠ CL_SUCCESS →
      (p.destructor w).1 = .terminated) := by
  refine ⟨?_, ?_, ?_⟩
  · intro f hf
    have hn := no_raise_noexcept p.release w
    unfold Program.destructor at hf
    rw [hf] at hn
    simp [Outcome.isRaised] at hn
  · intro h
    rw [program_destructor_apply]
    simp [h]
  · intro h h2
    rw [program_destructor_apply]
    simp [h, h2]

/-- C7: copy-constructing or copy-assigning a `Program` or a `CommandQueue` throws if and
only if the executor's retain call on the source identifier returns a failure status, and
the exception that reaches the caller is the typed failure carrying that status. -/
theorem copy_fails_iff_retain_fails (w : World) (p target : Program)
    (q qtarget : CommandQueue) :
    (((Program.copy_construct p w).1.isRaised = true ↔
        (w.respond w.log (.clRetainProgram p.internal_id)).status ≠ CL_SUCCESS) ∧
     ((w.respond w.log (.clRetainProgram p.internal_id)).status ≠ CL_SUCCESS →
        (Program.copy_construct p w).1 =
          .raised (.ExecutorError (w.respond w.log (.clRetainProgram p.internal_id)).status))) ∧
    (((Program.operator_assign target p w).1.1.isRaised = true ↔
        (w.respond w.log (.clRetainProgram p.internal_id)).status ≠ CL_SUCCESS) ∧
     ((w.respond w.log (.clRetainProgram p.internal_id)).status ≠ CL_SUCCESS →
        (Program.operator_assign target p w).1.1 =
          .raised (.ExecutorError (w.respond w.log (.clRetainProgram p.internal_id)).status))) ∧
    (((CommandQueue.copy_construct q w).1.isRaised = true ↔
        (w.respond w.log (.clRetainCommandQueue q.internal_id)).status ≠ CL_SUCCESS) ∧
     ((w.respond w.log (.clRetainCommandQueue q.internal_id)).status ≠ CL_SUCCESS →
        (CommandQueue.copy_construct q w).1 =
          .raised
            (.ExecutorError (w.respond w.log (.clRetainCommandQueue q.internal_id)).status))) ∧
    (((CommandQueue.operator_assign qtarget q w).1.1.isRaised = true ↔
        (w.respond w.log (.clRetainCommandQueue q.internal_id)).status ≠ CL_SUCCESS) ∧
     ((w.respond w.log (.clRetainCommandQueue q.internal_id)).status ≠ CL_SUCCESS →
        (CommandQueue.operator_assign qtarget q w).1.1 =
          .raised
            (.ExecutorError
              (w.respond w.log (.clRetainCommandQueue q.internal_id)).status))) := by
  refine ⟨?_, ?_, ?_, ?_⟩
  · by_cases hs : (w.respond w.log (.clRetainProgram p.internal_id)).status = CL_SUCCESS
    all_goals
      simp [Program.copy_construct, Program.copy_internal_data, bind_apply, pure_apply,
        program_retain_apply, hs, Outcome.isRaised]
  · by_cases hs : (w.respond w.log (.clRetainProgram p.internal_id)).status = CL_SUCCESS
    all_goals
      simp [Program.operator_assign, Program.copy_internal_data, program_retain_apply, hs,
        Outcome.isRaised]
  · by_cases hs : (w.respond w.log (.clRetainCommandQueue q.internal_id)).status = CL_SUCCESS
    all_goals
      simp [CommandQueue.copy_construct, bind_apply, pure_apply, queue_retain_apply, hs,
        Outcome.isRaised]
  · by_cases hs : (w.respond w.log (.clRetainCommandQueue q.internal_id)).status = CL_SUCCESS
    all_goals
      simp [CommandQueue.operator_assign, queue_retain_apply, hs, Outcome.isRaised]

/-- C8: for every operation of `CommandQueue` that takes a wait list (the read, write,
copy, fill, map, unmap and migrate submissions, raw or public), the one executor call it
issues receives count `0` and a null array when the list is empty, and otherwise the
length of the list and the array of the raw identifiers of its tokens, in the same order,
with nothing added, dropped or reordered. -/
theorem wait_list_marshalled_in_order (self : CommandQueue) (op : Operation)
    (wl : EventWaitList) (w : World) (hop : op.event_wait_list = some wl) :
    ∃ c : Call, (self.perform op w).2.log = w.log ++ [c] ∧
      c.wait_list_args =
        some (wl.length, if wl = [] then none else some (wl.map Event.raw_identifier)) ∧
      (wl = [] → c.wait_list_args = some (0, none)) := by
  obtain ⟨c, hc, hrun⟩ := perform_apply self op w
  refine ⟨c, ?_, ?_, ?_⟩
  · rw [hrun]
  · rw [hc wl hop]
    rfl
  · intro hwl
    rw [hc wl hop, hwl]
    rfl

/-- Witness for C8: a blocking read that waits on the events `11` and `12`. -/
theorem wait_list_marshalled_in_order_witness :
    ∃ c : Call,
      ((⟨1⟩ : CommandQueue).perform (.read_buffer ⟨3⟩ 0 100 16 [⟨11⟩, ⟨12⟩])
        (fresh succeeding)).2.log = [c] ∧
      c.wait_list_args = some (2, some [11, 12]) := by
  obtain ⟨c, h1, h2, _⟩ :=
    wait_list_marshalled_in_order ⟨1⟩ (.read_buffer ⟨3⟩ 0 100 16 [⟨11⟩, ⟨12⟩])
      [⟨11⟩, ⟨12⟩] (fresh succeeding) rfl
  exact ⟨c, h1, h2⟩

/-- C10, as stated, fails on an executor that reports success and leaves the null
identifier in the event output slot: the shapes that return the completion token make
their one call, read the status success, and throw `InvalidArgument` when they wrap the
event. -/
theorem observable_shape_throws_on_success :
    (handing_back_null [] (.clEnqueueReadBuffer 1 3 false 0 16 100 0 none true)).status
      = CL_SUCCESS ∧
    ((⟨1⟩ : CommandQueue).enqueued_read_buffer ⟨3⟩ 0 100 16 []
        (fresh handing_back_null)).1 = .raised .InvalidArgument ∧
    ((⟨1⟩ : CommandQueue).enqueued_read_buffer ⟨3⟩ 0 100 16 []
        (fresh handing_back_null)).2.log
      = [.clEnqueueReadBuffer 1 3 false 0 16 100 0 none true] ∧
    ((⟨1⟩ : CommandQueue).enqueued_map_buffer ⟨3⟩ 0 16 1 [] 0
        (fresh handing_back_null)).1.1 = .raised .InvalidArgument ∧
    ((⟨1⟩ : CommandQueue).enqueued_map_buffer ⟨3⟩ 0 16 1 [] 0
        (fresh handing_back_null)).2.log
      = [.clEnqueueMapBuffer 1 3 false 1 0 16 0 none true] ∧
    ((⟨1⟩ : CommandQueue).read_buffer ⟨3⟩ 0 100 16 [] (fresh handing_back_null)).1
      = .returned () := by
  decide

/-- C10, amended: every operation of `CommandQueue` that calls the executor (the
submissions in all their call shapes, raw or public, `flush`, `finish`, `raw_query` and
`raw_query_output_size`) issues one executor call, on every executor.  It throws
`ExecutorError` if and only if that call reports a status other than success (for a map,
the code written to the error-code output), and the exception carries the code.  On a
success status it returns normally, except that a shape that returns the completion
token throws `InvalidArgument` when the executor left the null identifier in the event
output slot; so an operation throws exactly when the status is not success or such a
shape was handed the null event. -/
theorem operation_throws_iff_executor_fails (self : CommandQueue) (op : Operation)
    (w : World) :
    ∃ c : Call, (self.perform op w).2.log = w.log ++ [c] ∧
      ((∃ code, (self.perform op w).1 = .raised (.ExecutorError code)) ↔
        (w.respond w.log c).status ≠ CL_SUCCESS) ∧
      ((w.respond w.log c).status ≠ CL_SUCCESS →
        (self.perform op w).1 = .raised (.ExecutorError (w.respond w.log c).status)) ∧
      ((w.respond w.log c).status = CL_SUCCESS →
        ¬ (op.observable = true ∧ (w.respond w.log c).event = NULL) →
        (self.perform op w).1 = .returned ()) ∧
      ((w.respond w.log c).status = CL_SUCCESS →
        op.observable = true ∧ (w.respond w.log c).event = NULL →
        (self.perform op w).1 = .raised .InvalidArgument) ∧
      ((self.perform op w).1.isRaised = true ↔
        ((w.respond w.log c).status ≠ CL_SUCCESS ∨
          (op.observable = true ∧ (w.respond w.log c).event = NULL))) := by
  obtain ⟨c, _, hrun⟩ := perform_apply self op w
  refine ⟨c, ?_, ?_, ?_, ?_, ?_, ?_⟩
  · rw [hrun]
  · rw [hrun]
    by_cases h : (w.respond w.log c).status = CL_SUCCESS
    · by_cases h2 : op.observable = true ∧ (w.respond w.log c).event = NULL
      · simp [h, h2]
      · simp [h, h2]
    · simp [h]
  · intro h
    rw [hrun]
    simp [h]
  · intro h h2
    rw [hrun]
    simp only [h, h2, if_true, if_false]
  · intro h h2
    rw [hrun]
    simp only [h, h2, and_self, if_true]
  · rw [hrun]
    by_cases h : (w.respond w.log c).status = CL_SUCCESS
    · by_cases h2 : op.observable = true ∧ (w.respond w.log c).event = NULL
      · simp [h, h2, Outcome.isRaised]
      · simp only [h, h2, if_true, if_false, Outcome.isRaised]
        simp
    · simp [h, Outcome.isRaised]

/-- C11: the three call shapes of read and of map are one implementation.  For all
arguments and wait lists, `read_buffer` / `map_buffer` leave the world exactly as
`raw_read_buffer` / `raw_map_buffer` do with blocking true and a null output slot,
`enqueue_read_buffer` / `enqueue_map_buffer` as with blocking false and a null output
slot, `enqueued_read_buffer` / `enqueued_map_buffer` as with blocking false and a non-null
output slot; the one executor call each issues carries the buffer, offset, size,
destination or map flags and wait list it was given. -/
theorem call_shapes_share_one_implementation (self : CommandQueue) (b : Buffer)
    (o : Nat) (d : Ident) (sz : Nat) (fl : Nat) (wl : EventWaitList) (fr : Ident)
    (w : World) :
    ((self.read_buffer b o d sz wl w).2 = (self.raw_read_buffer b o d sz true wl false w).2 ∧
     (self.enqueue_read_buffer b o d sz wl w).2
        = (self.raw_read_buffer b o d sz false wl false w).2 ∧
     (self.enqueued_read_buffer b o d sz wl w).2
        = (self.raw_read_buffer b o d sz false wl true w).2 ∧
     (self.map_buffer b o sz fl wl w).2 = (self.raw_map_buffer b o sz true fl wl false w).2 ∧
     (self.enqueue_map_buffer b o sz fl wl fr w).2
        = (self.raw_map_buffer b o sz false fl wl false w).2 ∧
     (self.enqueued_map_buffer b o sz fl wl fr w).2
        = (self.raw_map_buffer b o sz false fl wl true w).2) ∧
    ((self.read_buffer b o d sz wl w).2.log = w.log ++
        [.clEnqueueReadBuffer self.internal_id b.raw_identifier true o sz d wl.length
          (wait_array wl) false] ∧
     (self.enqueue_read_buffer b o d sz wl w).2.log = w.log ++
        [.clEnqueueReadBuffer self.internal_id b.raw_identifier false o sz d wl.length
          (wait_array wl) false] ∧
     (self.enqueued_read_buffer b o d sz wl w).2.log = w.log ++
        [.clEnqueueReadBuffer self.internal_id b.raw_identifier false o sz d wl.length
          (wait_array wl) true] ∧
     (self.map_buffer b o sz fl wl w).2.log = w.log ++
        [.clEnqueueMapBuffer self.internal_id b.raw_identifier true fl o sz wl.length
          (wait_array wl) false] ∧
     (self.enqueue_map_buffer b o sz fl wl fr w).2.log = w.log ++
        [.clEnqueueMapBuffer self.internal_id b.raw_identifier false fl o sz wl.length
          (wait_array wl) false] ∧
     (self.enqueued_map_buffer b o sz fl wl fr w).2.log = w.log ++
        [.clEnqueueMapBuffer self.internal_id b.raw_identifier false fl o sz wl.length
          (wait_array wl) true]) := by
  refine ⟨⟨?_, ?_, ?_, ?_, ?_, ?_⟩, ⟨?_, ?_, ?_, ?_, ?_, ?_⟩⟩
  all_goals
    simp only [CommandQueue.read_buffer, CommandQueue.enqueue_read_buffer,
      CommandQueue.enqueued_read_buffer, CommandQueue.map_buffer,
      CommandQueue.enqueue_map_buffer, CommandQueue.enqueued_map_buffer, bind_apply,
      raw_read_buffer_apply, raw_map_buffer_apply, event_construct_apply, pure_apply]
    split_ifs <;> rfl

/-- A call whose status is checked and whose reply is not used further. -/
theorem checked_exec_flush (c : Call) (w : World) :
    (do let r ← exec c; throw_if_failed r.status : M Unit) w =
      (if (w.respond w.log c).status = CL_SUCCESS then .returned ()
        else .raised (.ExecutorError (w.respond w.log c).status),
       { w with log := w.log ++ [c] }) := by
  by_cases h : (w.respond w.log c).status = CL_SUCCESS
  all_goals simp [bind_apply, exec_apply, throw_if_failed_apply, h]

/-- Every observable submission issues exactly one executor call, an enqueue call with the
marshalled wait list and a non-null output slot.  It throws the typed failure for the
call's status when that status is not success; on success it wraps the event the executor
wrote, and throws `InvalidArgument` when that event is null. -/
theorem observe_apply (self : CommandQueue) (s : Observable) (wl : EventWaitList)
    (w : World) :
    ∃ c : Call, c.wait_list_args = some (wl.length, wait_array wl) ∧
      c.event_slot = some true ∧
      self.observe s wl w =
        (if (w.respond w.log c).status = CL_SUCCESS then
            (if (w.respond w.log c).event = NULL then .raised .InvalidArgument
              else .returned { internal_id := (w.respond w.log c).event })
          else .raised (.ExecutorError (w.respond w.log c).status),
         { w with log := w.log ++ [c] }) := by
  cases s with
  | read_buffer b o d sz =>
    refine ⟨.clEnqueueReadBuffer self.internal_id b.raw_identifier false o sz d
      wl.length (wait_array wl) true, rfl, rfl, ?_⟩
    by_cases h : (w.respond w.log (.clEnqueueReadBuffer self.internal_id b.raw_identifier false o sz d
        wl.length (wait_array wl) true)).status = CL_SUCCESS
    · by_cases he : (w.respond w.log (.clEnqueueReadBuffer self.internal_id b.raw_identifier false o sz d
          wl.length (wait_array wl) true)).event = NULL
      · simp [CommandQueue.observe, bind_apply, event_construct_apply, written,
          CommandQueue.enqueued_read_buffer, raw_read_buffer_apply, h, he]
      · simp [CommandQueue.observe, bind_apply, event_construct_apply, written,
          Event.raw_identifier, CommandQueue.enqueued_read_buffer, raw_read_buffer_apply, h, he]
    · simp [CommandQueue.observe, bind_apply, event_construct_apply, written,
        CommandQueue.enqueued_read_buffer, raw_read_buffer_apply, h]
  | write_buffer src wfa b o sz =>
    refine ⟨.clEnqueueWriteBuffer self.internal_id b.raw_identifier wfa o sz src
      wl.length (wait_array wl) true, rfl, rfl, ?_⟩
    by_cases h : (w.respond w.log (.clEnqueueWriteBuffer self.internal_id b.raw_identifier wfa o sz src
        wl.length (wait_array wl) true)).status = CL_SUCCESS
    · by_cases he : (w.respond w.log (.clEnqueueWriteBuffer self.internal_id b.raw_identifier wfa o sz src
          wl.length (wait_array wl) true)).event = NULL
      · simp [CommandQueue.observe, bind_apply, event_construct_apply, written,
          CommandQueue.enqueued_write_buffer, raw_write_buffer_apply, h, he]
      · simp [CommandQueue.observe, bind_apply, event_construct_apply, written,
          Event.raw_identifier, CommandQueue.enqueued_write_buffer, raw_write_buffer_apply, h, he]
    · simp [CommandQueue.observe, bind_apply, event_construct_apply, written,
        CommandQueue.enqueued_write_buffer, raw_write_buffer_apply, h]
  | copy_buffer sb so db d sz =>
    refine ⟨.clEnqueueCopyBuffer self.internal_id sb.raw_identifier db.raw_identifier so d sz
      wl.length (wait_array wl) true, rfl, rfl, ?_⟩
    by_cases h : (w.respond w.log (.clEnqueueCopyBuffer self.internal_id sb.raw_identifier db.raw_identifier so d sz
        wl.length (wait_array wl) true)).status = CL_SUCCESS
    · by_cases he : (w.respond w.log (.clEnqueueCopyBuffer self.internal_id sb.raw_identifier db.raw_identifier so d sz
          wl.length (wait_array wl) true)).event = NULL
      · simp [CommandQueue.observe, bind_apply, event_construct_apply, written,
          CommandQueue.enqueued_copy_buffer, raw_copy_buffer_apply, h, he]
      · simp [CommandQueue.observe, bind_apply, event_construct_apply, written,
          Event.raw_identifier, CommandQueue.enqueued_copy_buffer, raw_copy_buffer_apply, h, he]
    · simp [CommandQueue.observe, bind_apply, event_construct_apply, written,
        CommandQueue.enqueued_copy_buffer, raw_copy_buffer_apply, h]
  | fill_buffer p ps b o sz =>
    refine ⟨.clEnqueueFillBuffer self.internal_id b.raw_identifier p ps o sz
      wl.length (wait_array wl) true, rfl, rfl, ?_⟩
    by_cases h : (w.respond w.log (.clEnqueueFillBuffer self.internal_id b.raw_identifier p ps o sz
        wl.length (wait_array wl) true)).status = CL_SUCCESS
    · by_cases he : (w.respond w.log (.clEnqueueFillBuffer self.internal_id b.raw_identifier p ps o sz
          wl.length (wait_array wl) true)).event = NULL
      · simp [CommandQueue.observe, bind_apply, event_construct_apply, written,
          CommandQueue.raw_enqueued_fill_buffer, raw_fill_buffer_apply, h, he]
      · simp [CommandQueue.observe, bind_apply, event_construct_apply, written,
          Event.raw_identifier, CommandQueue.raw_enqueued_fill_buffer, raw_fill_buffer_apply, h, he]
    · simp [CommandQueue.observe, bind_apply, event_construct_apply, written,
        CommandQueue.raw_enqueued_fill_buffer, raw_fill_buffer_apply, h]
  | map_buffer b o sz fl fr =>
    refine ⟨.clEnqueueMapBuffer self.internal_id b.raw_identifier false fl o sz
      wl.length (wait_array wl) true, rfl, rfl, ?_⟩
    by_cases h : (w.respond w.log (.clEnqueueMapBuffer self.internal_id b.raw_identifier false fl o sz
        wl.length (wait_array wl) true)).status = CL_SUCCESS
    · by_cases he : (w.respond w.log (.clEnqueueMapBuffer self.internal_id b.raw_identifier false fl o sz
          wl.length (wait_array wl) true)).event = NULL
      · simp [CommandQueue.observe, bind_apply, event_construct_apply, written,
          CommandQueue.enqueued_map_buffer, raw_map_buffer_apply, h, he]
      · simp [CommandQueue.observe, bind_apply, event_construct_apply, written,
          Event.raw_identifier, CommandQueue.enqueued_map_buffer, raw_map_buffer_apply, h, he]
    · simp [CommandQueue.observe, bind_apply, event_construct_apply, written,
        CommandQueue.enqueued_map_buffer, raw_map_buffer_apply, h]
  | unmap_mem_object mo p =>
    refine ⟨.clEnqueueUnmapMemObject self.internal_id mo.raw_identifier p
      wl.length (wait_array wl) true, rfl, rfl, ?_⟩
    by_cases h : (w.respond w.log (.clEnqueueUnmapMemObject self.internal_id mo.raw_identifier p
        wl.length (wait_array wl) true)).status = CL_SUCCESS
    · by_cases he : (w.respond w.log (.clEnqueueUnmapMemObject self.internal_id mo.raw_identifier p
          wl.length (wait_array wl) true)).event = NULL
      · simp [CommandQueue.observe, bind_apply, event_construct_apply, written,
          CommandQueue.enqueued_unmap_mem_object, raw_unmap_mem_object_apply, h, he]
      · simp [CommandQueue.observe, bind_apply, event_construct_apply, written,
          Event.raw_identifier, CommandQueue.enqueued_unmap_mem_object, raw_unmap_mem_object_apply, h, he]
    · simp [CommandQueue.observe, bind_apply, event_construct_apply, written,
        CommandQueue.enqueued_unmap_mem_object, raw_unmap_mem_object_apply, h]
  | migrate_mem_objects mos fl =>
    refine ⟨.clEnqueueMigrateMemObjects self.internal_id mos.length
        (fill_raw_object_ids mos mos.length (uninitialised mos.length)) fl
      wl.length (wait_array wl) true, rfl, rfl, ?_⟩
    by_cases h : (w.respond w.log (.clEnqueueMigrateMemObjects self.internal_id mos.length
        (fill_raw_object_ids mos mos.length (uninitialised mos.length)) fl
        wl.length (wait_array wl) true)).status = CL_SUCCESS
    · by_cases he : (w.respond w.log (.clEnqueueMigrateMemObjects self.internal_id mos.length
        (fill_raw_object_ids mos mos.length (uninitialised mos.length)) fl
          wl.length (wait_array wl) true)).event = NULL
      · simp [CommandQueue.observe, bind_apply, event_construct_apply, written,
          CommandQueue.enqueued_migrate_mem_objects, raw_migrate_mem_objects_apply, h, he]
      · simp [CommandQueue.observe, bind_apply, event_construct_apply, written,
          Event.raw_identifier, CommandQueue.enqueued_migrate_mem_objects, raw_migrate_mem_objects_apply, h, he]
    · simp [CommandQueue.observe, bind_apply, event_construct_apply, written,
        CommandQueue.enqueued_migrate_mem_objects, raw_migrate_mem_objects_apply, h]

/-- C12: every observable submission (`enqueued_read_buffer`, `enqueued_write_buffer`,
`enqueued_copy_buffer`, `raw_enqueued_fill_buffer`, `enqueued_map_buffer`,
`enqueued_unmap_mem_object`, `enqueued_migrate_mem_objects`) issues one executor call, an
enqueue call with a non-null output slot, and nothing else: no retain is issued for the
event.  When it succeeds, the `Event` it returns wraps exactly the identifier the executor
wrote into the output slot of that call; when the executor call fails, it throws and no
`Event` is produced. -/
theorem observable_submission_wraps_written_event (self : CommandQueue) (s : Observable)
    (wl : EventWaitList) (w : World) :
    ∃ c : Call, (self.observe s wl w).2.log = w.log ++ [c] ∧
      c.wait_list_args = some (wl.length, wait_array wl) ∧
      c.event_slot = some true ∧
      (∀ id, (self.observe s wl w).2.log.count (.clRetainEvent id)
        = w.log.count (.clRetainEvent id)) ∧
      (∀ e, (self.observe s wl w).1 = .returned e →
        (w.respond w.log c).status = CL_SUCCESS ∧
        e.raw_identifier = (w.respond w.log c).event) ∧
      ((w.respond w.log c).status = CL_SUCCESS → (w.respond w.log c).event ≠ NULL →
        (self.observe s wl w).1 = .returned { internal_id := (w.respond w.log c).event }) ∧
      ((w.respond w.log c).status ≠ CL_SUCCESS →
        (self.observe s wl w).1 = .raised (.ExecutorError (w.respond w.log c).status) ∧
        (self.observe s wl w).1.isReturned = false) := by
  obtain ⟨c, hc, hslot, hrun⟩ := observe_apply self s wl w
  refine ⟨c, ?_, hc, hslot, ?_, ?_, ?_, ?_⟩
  · rw [hrun]
  · intro id
    rw [hrun]
    have hne : ¬ c = .clRetainEvent id := by
      intro h
      rw [h] at hslot
      simp [Call.event_slot] at hslot
    have hne2 : ¬ Call.clRetainEvent id = c := fun h => hne h.symm
    simp [List.count_append, List.count_cons, hne, hne2]
  · intro e he
    rw [hrun] at he
    by_cases h : (w.respond w.log c).status = CL_SUCCESS
    · by_cases h2 : (w.respond w.log c).event = NULL
      · simp [h, h2] at he
      · simp [h, h2] at he
        exact ⟨h, by rw [← he]; rfl⟩
    · simp [h] at he
  · intro h h2
    rw [hrun]
    simp [h, h2]
  · intro h
    rw [hrun]
    simp [h, Outcome.isReturned]

/-- C13: no hidden retries.  For every operation of `CommandQueue` (the submissions in
all their call shapes, `flush`, `finish`, the queries) and for every executor, whatever
status it answers, the operation issues exactly one executor call before it returns or
throws: an enqueue call for a submission, `clFlush` for `flush`, `clFinish` for
`finish`. -/
theorem no_hidden_retries (self : CommandQueue) (op : Operation) (w : World) :
    ∃ c : Call, (self.perform op w).2.log = w.log ++ [c] ∧
      (op.event_wait_list.isSome = true → c.wait_list_args.isSome = true) ∧
      (op = .flush → c = .clFlush self.internal_id) ∧
      (op = .finish → c = .clFinish self.internal_id) := by
  obtain ⟨c, hc, hrun⟩ := perform_apply self op w
  have hlog : (self.perform op w).2.log = w.log ++ [c] := by rw [hrun]
  refine ⟨c, hlog, ?_, ?_, ?_⟩
  · intro h
    obtain ⟨wl, hwl⟩ := Option.isSome_iff_exists.mp h
    rw [hc wl hwl]
    rfl
  · intro hop
    subst hop
    have h2 : (self.perform .flush w).2.log = w.log ++ [.clFlush self.internal_id] := by
      simp only [CommandQueue.perform, CommandQueue.flush, checked_exec_flush]
    rw [h2] at hlog
    have := List.append_cancel_left hlog
    simpa using this.symm
  · intro hop
    subst hop
    have h2 : (self.perform .finish w).2.log = w.log ++ [.clFinish self.internal_id] := by
      simp only [CommandQueue.perform, CommandQueue.finish, checked_exec_flush]
    rw [h2] at hlog
    have := List.append_cancel_left hlog
    simpa using this.symm

/-! ## Computations that leave an observation of the world alone -/

theorem preserves_pure {α β : Type} (g : World → β) (a : α) : Preserves g (pure a : M α) :=
  fun _ => rfl

theorem preserves_raise {α β : Type} (g : World → β) (f : Failure) :
    Preserves g (raise f : M α) :=
  fun _ => rfl

theorem preserves_bind {α γ β : Type} (g : World → β) (m : M α) (f : α → M γ)
    (hm : Preserves g m) (hf : ∀ a, Preserves g (f a)) : Preserves g (m >>= f) := by
  intro w
  rw [bind_apply]
  have h1 := hm w
  rcases hmw : m w with ⟨o, w1⟩
  rw [hmw] at h1
  cases o with
  | returned a => exact (hf a w1).trans h1
  | raised e => exact h1
  | terminated => exact h1

theorem preserves_throw_if_failed {β : Type} (g : World → β) (code : Int) :
    Preserves g (throw_if_failed code) := by
  intro w
  rw [throw_if_failed_apply]

theorem preserves_noexcept {α β : Type} (g : World → β) (m : M α) (hm : Preserves g m) :
    Preserves g (noexcept m) := by
  intro w
  rw [noexcept_apply]
  exact hm w

theorem preserves_ite {α β : Type} (g : World → β) (c : Prop) [Decidable c] (m n : M α)
    (hm : Preserves g m) (hn : Preserves g n) : Preserves g (if c then m else n) := by
  split
  · exact hm
  · exact hn

/-- How a scope ends: the outcome of the body stands unless a destructor ends the
process, and the world is the one the destructors leave. -/
theorem scope_exit_apply {α : Type} (body : M α) (cleanup : M Unit) (w : World) :
    scope_exit body cleanup w =
      (if (body w).1.isTerminated = true then (.terminated, (body w).2)
        else
          (if (noexcept cleanup (body w).2).1.isReturned = true then (body w).1
            else .terminated,
           (noexcept cleanup (body w).2).2)) := by
  unfold scope_exit
  rcases hb : body w with ⟨o, w1⟩
  cases o with
  | terminated => simp [Outcome.isTerminated]
  | returned a =>
    rcases hc : noexcept cleanup w1 with ⟨o2, w2⟩
    cases o2 <;> simp [Outcome.isTerminated, Outcome.isReturned, hc]
  | raised f =>
    rcases hc : noexcept cleanup w1 with ⟨o2, w2⟩
    cases o2 <;> simp [Outcome.isTerminated, Outcome.isReturned, hc]

theorem preserves_scope_exit {α β : Type} (g : World → β) (body : M α) (cleanup : M Unit)
    (hb : Preserves g body) (hc : Preserves g cleanup) :
    Preserves g (scope_exit body cleanup) := by
  intro w
  rw [scope_exit_apply]
  split
  · exact hb w
  · exact ((preserves_noexcept g cleanup hc) (body w).2).trans (hb w)

/-- How unwinding ends: only a body that throws has its cleanup run. -/
theorem unwind_apply {α : Type} (body : M α) (cleanup : M Unit) (w : World) :
    unwind body cleanup w =
      (if (body w).1.isRaised = true then
          (if (noexcept cleanup (body w).2).1.isReturned = true then (body w).1
            else .terminated,
           (noexcept cleanup (body w).2).2)
        else body w) := by
  unfold unwind
  rcases hb : body w with ⟨o, w1⟩
  cases o with
  | terminated => simp [Outcome.isRaised]
  | returned a => simp [Outcome.isRaised]
  | raised f =>
    rcases hc : noexcept cleanup w1 with ⟨o2, w2⟩
    cases o2 <;> simp [Outcome.isRaised, Outcome.isReturned, hc]

theorem preserves_unwind {α β : Type} (g : World → β) (body : M α) (cleanup : M Unit)
    (hb : Preserves g body) (hc : Preserves g cleanup) :
    Preserves g (unwind body cleanup) := by
  intro w
  rw [unwind_apply]
  split
  · exact ((preserves_noexcept g cleanup hc) (body w).2).trans (hb w)
  · exact hb w

/-- An executor call leaves alone every observation that does not see the call. -/
theorem preserves_exec {β : Type} (g : World → β) (c : Call)
    (hg : ∀ w : World, g { w with log := w.log ++ [c] } = g w) : Preserves g (exec c) :=
  fun w => hg w

/-- A call whose status is checked leaves alone every observation that does not see the
call. -/
theorem preserves_checked_call {β : Type} (g : World → β) (c : Call)
    (hg : ∀ w : World, g { w with log := w.log ++ [c] } = g w) :
    Preserves g (do let r ← exec c; throw_if_failed r.status : M Unit) :=
  preserves_bind g _ _ (preserves_exec g c hg) (fun _ => preserves_throw_if_failed g _)

/-! ## The calls of the build bridge that set no event status -/

/-- A call that is not a status setting does not show in the status trace. -/
theorem status_trace_call (c : Call) (hc : c.is_set_status = false) (w : World) :
    status_trace { w with log := w.log ++ [c] } = status_trace w := by
  simp [status_trace, set_status_calls, List.filter_append, hc]

theorem quiet_checked_call (c : Call) (hc : c.is_set_status = false) :
    Preserves status_trace (do let r ← exec c; throw_if_failed r.status : M Unit) :=
  preserves_checked_call status_trace c (status_trace_call c hc)

theorem quiet_device_construct (id : Ident) (b : Bool) :
    Preserves status_trace (Device.construct id b) := by
  intro w
  by_cases hid : id = NULL
  · simp [Device.construct, hid, raise_apply]
  · cases b
    · simp [Device.construct, hid, bind_apply, pure_apply]
    · by_cases hs : (w.respond w.log (.clRetainDevice id)).status = CL_SUCCESS
      all_goals
        simp [Device.construct, hid, bind_apply, pure_apply, exec_apply,
          throw_if_failed_apply, hs, status_trace, set_status_calls, List.filter_append,
          Call.is_set_status]

theorem quiet_device_destructor (d : Device) : Preserves status_trace d.destructor :=
  preserves_noexcept _ _ (quiet_checked_call _ rfl)

theorem quiet_destroy_devices (ds : List Device) :
    Preserves status_trace (destroy_devices ds) := by
  induction ds with
  | nil => exact preserves_pure _ _
  | cons d rest ih =>
    exact preserves_bind _ _ _ (quiet_device_destructor d) (fun _ => ih)

theorem quiet_emplace_devices (ids : List Ident) (result : List Device) :
    Preserves status_trace (emplace_devices result ids) := by
  induction ids generalizing result with
  | nil => exact preserves_pure _ _
  | cons id rest ih =>
    exact preserves_bind _ _ _
      (preserves_unwind _ _ _ (quiet_device_construct id true) (quiet_destroy_devices result))
      (fun d => ih (result ++ [d]))

theorem quiet_program_raw_query (p : Program) (param size : Nat) (a : Bool) :
    Preserves status_trace (p.raw_query param size a) := by
  intro w
  by_cases hs : (w.respond w.log (.clGetProgramInfo p.internal_id param size true a)).status
      = CL_SUCCESS
  all_goals
    simp [Program.raw_query, bind_apply, pure_apply, exec_apply, throw_if_failed_apply, hs,
      status_trace, set_status_calls, List.filter_append, Call.is_set_status]

theorem quiet_program_raw_query_array (p : Program) (param amount size : Nat) :
    Preserves status_trace (p.raw_query_array param amount size) := by
  intro w
  by_cases hs : (w.respond w.log
      (.clGetProgramInfo p.internal_id param (amount * size) true false)).status = CL_SUCCESS
  all_goals
    simp [Program.raw_query_array, bind_apply, pure_apply, exec_apply, throw_if_failed_apply,
      hs, status_trace, set_status_calls, List.filter_append, Call.is_set_status]

theorem quiet_program_devices (p : Program) : Preserves status_trace p.devices :=
  preserves_bind _ _ _
    (preserves_bind _ _ _ (quiet_program_raw_query p _ _ _) (fun _ => preserves_pure _ _))
    (fun _ => preserves_bind _ _ _ (quiet_program_raw_query_array p _ _ _)
      (fun ids => quiet_emplace_devices ids []))

theorem quiet_program_build_status (p : Program) (d : Device) :
    Preserves status_trace (p.build_status d) := by
  intro w
  by_cases hs : (w.respond w.log (build_status_query p.internal_id d.raw_identifier)).status
      = CL_SUCCESS
  all_goals
    simp only [build_status_query] at hs
    simp [Program.build_status, Program.raw_build_info_query, bind_apply, pure_apply,
      exec_apply, throw_if_failed_apply, hs, status_trace, set_status_calls,
      List.filter_append, Call.is_set_status]

/-- `Event::set_status` issues one call, which sets the status asked for, and checks its
status. -/
theorem event_set_status_apply (e : Event) (st : Int) (w : World) :
    e.set_status st w =
      (if (w.respond w.log (.clSetUserEventStatus e.internal_id st)).status = CL_SUCCESS
        then .returned ()
        else .raised
          (.ExecutorError (w.respond w.log (.clSetUserEventStatus e.internal_id st)).status),
       { w with log := w.log ++ [.clSetUserEventStatus e.internal_id st] }) := by
  simp only [Event.set_status, checked_exec_flush]

/-- The loop of the callback, on any executor: either it sets no status, or it sets the
failure status once and then neither runs to its end nor meets an unsupported status. -/
theorem check_devices_trace (ev : Event) (p : Program) (ds : List Device) (w : World) :
    (status_trace (check_devices ev p ds w).2 = status_trace w ∧
      (check_devices ev p ds w).1 ≠ .returned false) ∨
    (status_trace (check_devices ev p ds w).2 = status_trace w ++
        [.clSetUserEventStatus ev.internal_id CL_BUILD_PROGRAM_FAILURE] ∧
      (check_devices ev p ds w).1 ≠ .returned true ∧
      (check_devices ev p ds w).1 ≠ .raised .UnsupportedBuildStatus) := by
  induction ds generalizing w with
  | nil =>
    left
    simp [check_devices, pure_apply]
  | cons d rest ih =>
    have hq := quiet_program_build_status p d w
    simp only [check_devices, bind_apply]
    rcases hb : p.build_status d w with ⟨o, w1⟩
    rw [hb] at hq
    simp only at hq
    cases o with
    | raised e =>
      left
      simp [hq]
    | terminated =>
      left
      simp [hq]
    | returned bs =>
      simp only
      by_cases h1 : bs = CL_BUILD_SUCCESS
      · simp only [h1, if_true]
        rw [← hq]
        exact ih w1
      · by_cases h2 : bs = CL_BUILD_ERROR
        · right
          subst h2
          simp only [h1, if_true, if_false, bind_apply, event_set_status_apply]
          by_cases hs : (w1.respond w1.log (.clSetUserEventStatus ev.internal_id
              CL_BUILD_PROGRAM_FAILURE)).status = CL_SUCCESS
          · simp [hs, pure_apply, status_trace, set_status_calls, List.filter_append,
              Call.is_set_status] at hq ⊢
            rw [hq]
          · simp [hs, status_trace, set_status_calls, List.filter_append,
              Call.is_set_status] at hq ⊢
            rw [hq]
        · left
          simp [h1, h2, raise_apply, hq]

/-- The body of the callback once the device list is known, on any executor: it sets the
status of the user event at most once, to `CL_COMPLETE` or to `CL_BUILD_PROGRAM_FAILURE`;
once when it returns, never when it meets an unsupported status. -/
theorem callback_body_trace (ev : Event) (p : Program) (ds : List Device) (w : World) :
    ∃ S : List Call,
      status_trace ((do
        let completed ← check_devices ev p ds
        if completed then ev.set_status CL_COMPLETE else pure () : M Unit) w).2
        = status_trace w ++ S ∧
      S.length ≤ 1 ∧
      (∀ c ∈ S, c = .clSetUserEventStatus ev.internal_id CL_COMPLETE ∨
        c = .clSetUserEventStatus ev.internal_id CL_BUILD_PROGRAM_FAILURE) ∧
      (((do
        let completed ← check_devices ev p ds
        if completed then ev.set_status CL_COMPLETE else pure () : M Unit) w).1
          = .returned () → S.length = 1) ∧
      (((do
        let completed ← check_devices ev p ds
        if completed then ev.set_status CL_COMPLETE else pure () : M Unit) w).1
          = .raised .UnsupportedBuildStatus → S = []) := by
  have hc := check_devices_trace ev p ds w
  simp only [bind_apply]
  rcases hk : check_devices ev p ds w with ⟨o, w1⟩
  rw [hk] at hc
  simp only at hc
  cases o with
  | terminated =>
    rcases hc with ⟨h, _⟩ | ⟨h, _, _⟩
    · exact ⟨[], by simp [h], by simp, by simp, by simp, by simp⟩
    · exact ⟨_, h, by simp, by simp, by simp, by simp⟩
  | raised e =>
    rcases hc with ⟨h, _⟩ | ⟨h, _, h3⟩
    · exact ⟨[], by simp [h], by simp, by simp, by simp, by simp⟩
    · refine ⟨_, h, by simp, by simp, by simp, ?_⟩
      intro he
      simp only [Outcome.raised.injEq, Prod.mk.injEq] at he
      exact absurd (by rw [he]) h3
  | returned completed =>
    cases completed with
    | false =>
      rcases hc with ⟨_, h2⟩ | ⟨h, _, _⟩
      · exact absurd rfl h2
      · exact ⟨_, h, by simp, by simp, by simp [pure_apply], by simp [pure_apply]⟩
    | true =>
      rcases hc with ⟨h, _⟩ | ⟨_, h2, _⟩
      · refine ⟨[.clSetUserEventStatus ev.internal_id CL_COMPLETE], ?_, by simp, by simp,
          by simp, ?_⟩
        · simp [event_set_status_apply, status_trace, set_status_calls, List.filter_append,
            Call.is_set_status] at h ⊢
          rw [h]
        · simp only [if_true, event_set_status_apply]
          split_ifs <;> simp
      · exact absurd rfl h2

/-- C17: no transition after a terminal state in the build bridge.  For every device
list and every executor, whatever it answers, one invocation of the build-event callback
sets the status of the user event at most once: exactly once when it returns normally,
not at all when it throws `UnsupportedBuildStatus`; and the status it sets is terminal,
`CL_COMPLETE` or the negative code `CL_BUILD_PROGRAM_FAILURE`. -/
theorem callback_sets_status_at_most_once (ev : Event) (p : Program) (unused : Ident)
    (w : World) :
    ∃ S : List Call,
      status_trace (build_event_callback ev p unused w).2 = status_trace w ++ S ∧
      S.length ≤ 1 ∧
      (∀ c ∈ S, c = .clSetUserEventStatus ev.internal_id CL_COMPLETE ∨
        c = .clSetUserEventStatus ev.internal_id CL_BUILD_PROGRAM_FAILURE) ∧
      CL_BUILD_PROGRAM_FAILURE < 0 ∧
      ((build_event_callback ev p unused w).1 = .returned () → S.length = 1) ∧
      ((build_event_callback ev p unused w).1 = .raised .UnsupportedBuildStatus →
        S = []) := by
  have hq := quiet_program_devices p w
  simp only [build_event_callback, bind_apply]
  rcases hd : p.devices w with ⟨o, w1⟩
  rw [hd] at hq
  simp only at hq
  cases o with
  | raised e => exact ⟨[], by simp [hq], by simp, by simp, by decide, by simp, by simp⟩
  | terminated => exact ⟨[], by simp [hq], by simp, by simp, by decide, by simp, by simp⟩
  | returned ds =>
    obtain ⟨S, h1, h2, h3, h4, h5⟩ := callback_body_trace ev p ds w1
    have hdes := preserves_noexcept status_trace _ (quiet_destroy_devices ds)
    refine ⟨S, ?_, h2, h3, by decide, ?_, ?_⟩
    · simp only [scope_exit_apply]
      split
      · rw [h1, hq]
      · simp only
        rw [hdes, h1, hq]
    · simp only [scope_exit_apply]
      intro hret
      split at hret
      · simp at hret
      · simp only at hret
        split at hret
        · exact h4 hret
        · simp at hret
    · simp only [scope_exit_apply]
      intro hret
      split at hret
      · simp at hret
      · simp only at hret
        split at hret
        · exact h5 hret
        · simp at hret

/-! ## The build bridge on an executor whose calls succeed -/

/-- A list either satisfies a predicate throughout or splits at its first element that
does not. -/
theorem first_failure_split {α : Type} (q : α → Prop) [DecidablePred q] (l : List α) :
    (∀ x ∈ l, q x) ∨
    ∃ pre x post, l = pre ++ x :: post ∧ (∀ y ∈ pre, q y) ∧ ¬ q x := by
  induction l with
  | nil => left; simp
  | cons a rest ih =>
    by_cases ha : q a
    · rcases ih with h | ⟨pre, x, post, h1, h2, h3⟩
      · left
        intro y hy
        rcases List.mem_cons.mp hy with rfl | hy
        · exact ha
        · exact h y hy
      · right
        refine ⟨a :: pre, x, post, by simp [h1], ?_, h3⟩
        intro y hy
        rcases List.mem_cons.mp hy with rfl | hy
        · exact ha
        · exact h2 y hy
    · right
      exact ⟨[], a, rest, rfl, by simp, ha⟩

/-- On an executor whose calls succeed, the vector of devices is built with one retain
per identifier. -/
theorem emplace_devices_apply (ids : List Ident) (result : List Device) (w : World)
    (hok : ∀ log c, (w.respond log c).status = CL_SUCCESS) (hids : ∀ id ∈ ids, id ≠ NULL) :
    emplace_devices result ids w =
      (.returned (result ++ ids.map (fun id => { internal_id := id })),
       { w with log := w.log ++ ids.map (fun id => .clRetainDevice id) }) := by
  induction ids generalizing result w with
  | nil => simp [emplace_devices, pure_apply]
  | cons id rest ih =>
    have hid : id ≠ NULL := hids id (List.mem_cons_self _ _)
    have hrest : ∀ x ∈ rest, x ≠ NULL := fun x hx => hids x (List.mem_cons_of_mem _ hx)
    have hc : Device.construct id true w =
        (.returned { internal_id := id }, { w with log := w.log ++ [.clRetainDevice id] }) := by
      simp [Device.construct, hid, bind_apply, pure_apply, exec_apply, throw_if_failed_apply,
        hok]
    simp only [emplace_devices, bind_apply, unwind_apply, hc, Outcome.isRaised,
      Bool.false_eq_true, if_false]
    rw [ih (result ++ [(⟨id⟩ : Device)])
      { w with log := w.log ++ [.clRetainDevice id] } hok hrest]
    simp

/-- On an executor whose calls succeed, the vector of devices is destroyed with one
release per device. -/
theorem destroy_devices_apply (ds : List Device) (w : World)
    (hok : ∀ log c, (w.respond log c).status = CL_SUCCESS) :
    destroy_devices ds w =
      (.returned (),
       { w with log := w.log ++ ds.map (fun d => .clReleaseDevice d.internal_id) }) := by
  induction ds generalizing w with
  | nil => simp [destroy_devices, pure_apply]
  | cons d rest ih =>
    have hc : d.destructor w =
        (.returned (), { w with log := w.log ++ [.clReleaseDevice d.internal_id] }) := by
      simp [Device.destructor, noexcept_apply, bind_apply, exec_apply, throw_if_failed_apply,
        hok, Outcome.isRaised]
    simp only [destroy_devices, bind_apply, hc]
    rw [ih { w with log := w.log ++ [.clReleaseDevice d.internal_id] } hok]
    simp

/-- On a mock executor for the devices `ids`, `Program::devices` asks for the device
count and the device list and builds one handle per device. -/
theorem program_devices_apply (p : Program) (ids : List Ident) (status_of : Ident → Int)
    (w : World) (h : reports w p ids status_of) :
    p.devices w =
      (.returned (ids.map (fun id => { internal_id := id })),
       { w with log := w.log ++ [num_devices_query p, devices_query p ids.length]
          ++ ids.map (fun id => .clRetainDevice id) }) := by
  obtain ⟨hok, hnum, hlist, hids, _⟩ := h
  have hn : p.num_devices w =
      (.returned ids.length, { w with log := w.log ++ [num_devices_query p] }) := by
    have := hnum w.log
    simp only [num_devices_query, Nat.reducePow] at this
    simp [Program.num_devices, Program.raw_uint_query, Program.raw_query, bind_apply,
      pure_apply, exec_apply, throw_if_failed_apply, hok, num_devices_query, this]
  have ha : ∀ w1 : World, w1.respond = w.respond →
      p.raw_query_array CL_PROGRAM_DEVICES ids.length sizeof_pointer w1 =
        (.returned ids, { w1 with log := w1.log ++ [devices_query p ids.length] }) := by
    intro w1 hw1
    have := hlist w1.log
    simp only [devices_query] at this
    simp [Program.raw_query_array, bind_apply, pure_apply, exec_apply, throw_if_failed_apply,
      hw1, hok, devices_query, this]
  simp only [Program.devices, bind_apply, hn]
  rw [ha { w with log := w.log ++ [num_devices_query p] } rfl]
  simp only
  rw [emplace_devices_apply ids []
    { w with log := w.log ++ [num_devices_query p] ++ [devices_query p ids.length] } hok hids]
  simp

/-- On an executor whose calls succeed, `build_status` asks once and yields the status
reported. -/
theorem program_build_status_apply (p : Program) (d : Device) (w : World)
    (hok : ∀ log c, (w.respond log c).status = CL_SUCCESS) :
    p.build_status d w =
      (.returned (as_cl_int
          (w.respond w.log (build_status_query p.internal_id d.internal_id)).int_value),
       { w with log := w.log ++ [build_status_query p.internal_id d.internal_id] }) := by
  simp [Program.build_status, Program.raw_build_info_query, bind_apply, pure_apply,
    exec_apply, throw_if_failed_apply, hok, build_status_query, Device.raw_identifier]

/-- While the devices report success, the loop of the callback asks each in turn and runs
to its end. -/
theorem check_devices_all_succeed (ev : Event) (p : Program) (status_of : Ident → Int)
    (ds : List Device) (w : World)
    (hok : ∀ log c, (w.respond log c).status = CL_SUCCESS)
    (hst : ∀ log d, as_cl_int (w.respond log (build_status_query p.internal_id d)).int_value
      = status_of d)
    (hall : ∀ d ∈ ds, status_of d.internal_id = CL_BUILD_SUCCESS) :
    check_devices ev p ds w =
      (.returned true,
       { w with log := w.log
          ++ ds.map (fun d => build_status_query p.internal_id d.internal_id) }) := by
  induction ds generalizing w with
  | nil => simp [check_devices, pure_apply]
  | cons d rest ih =>
    have hd : status_of d.internal_id = CL_BUILD_SUCCESS := hall d (List.mem_cons_self _ _)
    have hrest : ∀ x ∈ rest, status_of x.internal_id = CL_BUILD_SUCCESS :=
      fun x hx => hall x (List.mem_cons_of_mem _ hx)
    simp only [check_devices, bind_apply, program_build_status_apply p d w hok, hst, hd,
      if_true]
    rw [ih { w with log := w.log ++ [build_status_query p.internal_id d.internal_id] }
      hok hst hrest]
    simp

/-- At the first device that does not report success, the loop of the callback stops:
on a build error it sets the failure status and returns from the callback, on any other
status it throws `UnsupportedBuildStatus`; the devices after it are not asked. -/
theorem check_devices_first_failure (ev : Event) (p : Program) (status_of : Ident → Int)
    (pre : List Device) (dk : Device) (post : List Device) (w : World)
    (hok : ∀ log c, (w.respond log c).status = CL_SUCCESS)
    (hst : ∀ log d, as_cl_int (w.respond log (build_status_query p.internal_id d)).int_value
      = status_of d)
    (hpre : ∀ d ∈ pre, status_of d.internal_id = CL_BUILD_SUCCESS)
    (hk : status_of dk.internal_id ≠ CL_BUILD_SUCCESS) :
    check_devices ev p (pre ++ dk :: post) w =
      if status_of dk.internal_id = CL_BUILD_ERROR then
        (.returned false,
         { w with log := w.log
            ++ (pre ++ [dk]).map (fun d => build_status_query p.internal_id d.internal_id)
            ++ [.clSetUserEventStatus ev.internal_id CL_BUILD_PROGRAM_FAILURE] })
      else
        (.raised .UnsupportedBuildStatus,
         { w with log := w.log
            ++ (pre ++ [dk]).map (fun d => build_status_query p.internal_id d.internal_id)
          }) := by
  have hne : ¬ (CL_BUILD_ERROR = CL_BUILD_SUCCESS) := by decide
  induction pre generalizing w with
  | nil =>
    by_cases he : status_of dk.internal_id = CL_BUILD_ERROR
    · simp [check_devices, bind_apply, program_build_status_apply p dk w hok, hst, he, hne,
        event_set_status_apply, hok, pure_apply]
    · simp [check_devices, bind_apply, program_build_status_apply p dk w hok, hst, hk, he,
        raise_apply]
  | cons d rest ih =>
    have hd : status_of d.internal_id = CL_BUILD_SUCCESS := hpre d (List.mem_cons_self _ _)
    have hrest : ∀ x ∈ rest, status_of x.internal_id = CL_BUILD_SUCCESS :=
      fun x hx => hpre x (List.mem_cons_of_mem _ hx)
    simp only [List.cons_append, check_devices, bind_apply,
      program_build_status_apply p d w hok, hst, hd, if_true, List.append_eq]
    rw [ih { w with log := w.log ++ [build_status_query p.internal_id d.internal_id] }
      hok hst hrest]
    split <;> simp

theorem filter_map_none {α β : Type} (q : β → Bool) (f : α → β) (l : List α)
    (h : ∀ x, q (f x) = false) : (l.map f).filter q = [] := by
  induction l with
  | nil => rfl
  | cons a rest ih => simp [h a, ih]

theorem filter_map_all {α β : Type} (q : β → Bool) (f : α → β) (l : List α)
    (h : ∀ x, q (f x) = true) : (l.map f).filter q = l.map f := by
  induction l with
  | nil => rfl
  | cons a rest ih => simp [h a, ih]

/-- The calls made since a world are what its log was extended with. -/
theorem calls_since_append (w : World) (w1 : World) (new : List Call)
    (h : w1.log = w.log ++ new) : calls_since w.log.length w1 = new := by
  simp [calls_since, h]

/-- On a mock executor whose devices all report success, the callback asks every device
and sets the user event to `CL_COMPLETE`. -/
theorem callback_all_succeed (ev : Event) (p : Program) (unused : Ident) (w : World)
    (ids : List Ident) (status_of : Ident → Int) (h : reports w p ids status_of)
    (hall : ∀ id ∈ ids, status_of id = CL_BUILD_SUCCESS) :
    build_event_callback ev p unused w =
      (.returned (),
       { w with log := w.log ++ ([num_devices_query p, devices_query p ids.length]
          ++ ids.map (fun id => .clRetainDevice id)
          ++ ids.map (fun id => build_status_query p.internal_id id)
          ++ [.clSetUserEventStatus ev.internal_id CL_COMPLETE]
          ++ ids.map (fun id => .clReleaseDevice id)) }) := by
  have hdev := program_devices_apply p ids status_of w h
  obtain ⟨hok, _, _, _, hst⟩ := h
  have hall2 : ∀ d ∈ ids.map (fun id => ({ internal_id := id } : Device)),
      status_of d.internal_id = CL_BUILD_SUCCESS := by
    intro d hd
    obtain ⟨id, hid, rfl⟩ := List.mem_map.mp hd
    exact hall id hid
  have hcd := check_devices_all_succeed ev p status_of
    (ids.map (fun id => ({ internal_id := id } : Device)))
    { w with log := w.log ++ [num_devices_query p, devices_query p ids.length]
      ++ ids.map (fun id => .clRetainDevice id) } hok hst hall2
  have hdd : ∀ (ds : List Device) (w1 : World), w1.respond = w.respond →
      destroy_devices ds w1 = (.returned (),
        { w1 with log := w1.log ++ ds.map (fun d => .clReleaseDevice d.internal_id) }) :=
    fun ds w1 hw => destroy_devices_apply ds w1 (by rw [hw]; exact hok)
  simp only [build_event_callback, bind_apply, hdev, scope_exit_apply, noexcept_apply, hcd,
    if_true, event_set_status_apply, hok]
  simp [hdd, pure_apply, Outcome.isTerminated, Outcome.isReturned, Outcome.isRaised,
      Function.comp_def]

/-- On a mock executor, when the first device that does not report success is `idk`, the
callback asks the devices up to `idk` only; on a build error it sets the user event to
`CL_BUILD_PROGRAM_FAILURE` and returns, on any other status it throws
`UnsupportedBuildStatus` and sets nothing. -/
theorem callback_first_failure (ev : Event) (p : Program) (unused : Ident) (w : World)
    (ids : List Ident) (status_of : Ident → Int) (pre : List Ident) (idk : Ident)
    (post : List Ident) (h : reports w p ids status_of) (hsplit : ids = pre ++ idk :: post)
    (hpre : ∀ id ∈ pre, status_of id = CL_BUILD_SUCCESS)
    (hk : status_of idk ≠ CL_BUILD_SUCCESS) :
    build_event_callback ev p unused w =
      if status_of idk = CL_BUILD_ERROR then
        (.returned (),
         { w with log := w.log ++ ([num_devices_query p, devices_query p ids.length]
            ++ ids.map (fun id => .clRetainDevice id)
            ++ (pre ++ [idk]).map (fun id => build_status_query p.internal_id id)
            ++ [.clSetUserEventStatus ev.internal_id CL_BUILD_PROGRAM_FAILURE]
            ++ ids.map (fun id => .clReleaseDevice id)) })
      else
        (.raised .UnsupportedBuildStatus,
         { w with log := w.log ++ ([num_devices_query p, devices_query p ids.length]
            ++ ids.map (fun id => .clRetainDevice id)
            ++ (pre ++ [idk]).map (fun id => build_status_query p.internal_id id)
            ++ ids.map (fun id => .clReleaseDevice id)) }) := by
  have hdev := program_devices_apply p ids status_of w h
  obtain ⟨hok, _, _, _, hst⟩ := h
  have hpre2 : ∀ d ∈ pre.map (fun id => ({ internal_id := id } : Device)),
      status_of d.internal_id = CL_BUILD_SUCCESS := by
    intro d hd
    obtain ⟨id, hid, rfl⟩ := List.mem_map.mp hd
    exact hpre id hid
  have hmap : ids.map (fun id => ({ internal_id := id } : Device))
      = pre.map (fun id => ({ internal_id := id } : Device))
        ++ ({ internal_id := idk } : Device)
          :: post.map (fun id => ({ internal_id := id } : Device)) := by
    rw [hsplit]
    simp
  have hcd := check_devices_first_failure ev p status_of
    (pre.map (fun id => ({ internal_id := id } : Device))) ⟨idk⟩
    (post.map (fun id => ({ internal_id := id } : Device)))
    { w with log := w.log ++ [num_devices_query p, devices_query p ids.length]
      ++ ids.map (fun id => .clRetainDevice id) } hok hst hpre2 hk
  rw [← hmap] at hcd
  have hdd : ∀ (ds : List Device) (w1 : World), w1.respond = w.respond →
      destroy_devices ds w1 = (.returned (),
        { w1 with log := w1.log ++ ds.map (fun d => .clReleaseDevice d.internal_id) }) :=
    fun ds w1 hw => destroy_devices_apply ds w1 (by rw [hw]; exact hok)
  by_cases he : status_of idk = CL_BUILD_ERROR
  · simp only [he, if_true] at hcd ⊢
    simp only [build_event_callback, bind_apply, hdev, scope_exit_apply, noexcept_apply, hcd,
      pure_apply]
    simp [hdd, pure_apply, Outcome.isTerminated, Outcome.isReturned, Outcome.isRaised,
      Function.comp_def]
  · simp only [he, if_false] at hcd ⊢
    simp only [build_event_callback, bind_apply, hdev, scope_exit_apply, noexcept_apply, hcd]
    simp [hdd, pure_apply, Outcome.isTerminated, Outcome.isReturned, Outcome.isRaised,
      Function.comp_def]

/-- The mock executor `building` behaves as a mock for its list of statuses. -/
theorem building_reports (statuses : List Int) (count : Nat) (p : Program)
    (hlen : statuses.length < 2 ^ 32) :
    reports (fresh (building statuses count)) p ((List.range statuses.length).map (· + 1))
      (fun d => as_cl_int (statuses.getD (d - 1) CL_BUILD_NONE)) := by
  refine ⟨?_, ?_, ?_, ?_, ?_⟩
  · intro log c
    cases c <;> rfl
  · intro log
    simp only [fresh, building, num_devices_query, if_true, List.length_map,
      List.length_range]
    exact Nat.mod_eq_of_lt hlen
  · intro log
    simp [fresh, building, devices_query]
  · intro id hid
    obtain ⟨k, _, rfl⟩ := List.mem_map.mp hid
    simp [NULL]
  · intro log d
    rfl

/-- C14: on a mock executor that reports a build status for each device of the program,
the build-event callback sets the user event to success, that is its one status setting
is `CL_COMPLETE`, if and only if every device of the list reports `CL_BUILD_SUCCESS`;
this covers three devices that all report success and the empty device list. -/
theorem event_completes_iff_all_devices_succeed (ev : Event) (p : Program)
    (unused : Ident) (w : World) (ids : List Ident) (status_of : Ident → Int)
    (h : reports w p ids status_of) :
    set_status_calls (calls_since w.log.length (build_event_callback ev p unused w).2)
        = [.clSetUserEventStatus ev.internal_id CL_COMPLETE]
      ↔ ∀ id ∈ ids, status_of id = CL_BUILD_SUCCESS := by
  have hnc : ¬ (CL_BUILD_PROGRAM_FAILURE = CL_COMPLETE) := by decide
  rcases first_failure_split (fun id => status_of id = CL_BUILD_SUCCESS) ids with
    hall | ⟨pre, idk, post, hsplit, hpre, hk⟩
  · have hrun := callback_all_succeed ev p unused w ids status_of h hall
    rw [calls_since_append w _ _ (by rw [hrun])]
    refine ⟨fun _ => hall, fun _ => ?_⟩
    simp [set_status_calls, List.filter_append, filter_map_none, Call.is_set_status,
      num_devices_query, devices_query, build_status_query]
  · have hrun := callback_first_failure ev p unused w ids status_of pre idk post h hsplit
      hpre hk
    have hnot : ¬ ∀ id ∈ ids, status_of id = CL_BUILD_SUCCESS := by
      intro hall
      exact hk (hall idk (by rw [hsplit]; simp))
    by_cases he : status_of idk = CL_BUILD_ERROR
    · simp only [he, if_true] at hrun
      rw [calls_since_append w _ _ (by rw [hrun])]
      simp [set_status_calls, List.filter_append, filter_map_none, Call.is_set_status,
        num_devices_query, devices_query, build_status_query, hnot, hnc]
    · simp only [he, if_false] at hrun
      rw [calls_since_append w _ _ (by rw [hrun])]
      simp [set_status_calls, List.filter_append, filter_map_none, Call.is_set_status,
        num_devices_query, devices_query, build_status_query, hnot]

/-- Witness for C14: three devices that all report success. -/
theorem event_completes_iff_all_devices_succeed_witness :
    set_status_calls (calls_since 0
        (build_event_callback ⟨7⟩ ⟨1, NULL⟩ 1 (fresh (building [0, 0, 0] 2))).2)
      = [.clSetUserEventStatus 7 CL_COMPLETE] :=
  (event_completes_iff_all_devices_succeed ⟨7⟩ ⟨1, NULL⟩ 1 (fresh (building [0, 0, 0] 2))
    _ _ (building_reports [0, 0, 0] 2 ⟨1, NULL⟩ (by decide))).mpr (by decide)

/-- C15: on a mock executor, when device `k` is the first that does not report
`CL_BUILD_SUCCESS` and it reports `CL_BUILD_ERROR`, the build-event callback returns
after setting the user event to `CL_BUILD_PROGRAM_FAILURE`, its one status setting, and
the build-status queries it has made are those of the devices `0..k`, in order: no device
after `k` is asked. -/
theorem first_build_error_short_circuits (ev : Event) (p : Program) (unused : Ident)
    (w : World) (ids : List Ident) (status_of : Ident → Int) (pre : List Ident)
    (idk : Ident) (post : List Ident) (h : reports w p ids status_of)
    (hsplit : ids = pre ++ idk :: post)
    (hpre : ∀ id ∈ pre, status_of id = CL_BUILD_SUCCESS)
    (hk : status_of idk = CL_BUILD_ERROR) :
    (build_event_callback ev p unused w).1 = .returned () ∧
    set_status_calls (calls_since w.log.length (build_event_callback ev p unused w).2)
      = [.clSetUserEventStatus ev.internal_id CL_BUILD_PROGRAM_FAILURE] ∧
    build_status_queries (calls_since w.log.length (build_event_callback ev p unused w).2)
      = (pre ++ [idk]).map (fun id => build_status_query p.internal_id id) ∧
    (build_status_queries
      (calls_since w.log.length (build_event_callback ev p unused w).2)).length
      = pre.length + 1 := by
  have hne : status_of idk ≠ CL_BUILD_SUCCESS := by
    rw [hk]
    decide
  have hrun := callback_first_failure ev p unused w ids status_of pre idk post h hsplit
    hpre hne
  simp only [hk, if_true] at hrun
  rw [calls_since_append w _ _ (by rw [hrun])]
  refine ⟨by rw [hrun], ?_, ?_, ?_⟩
  · simp [set_status_calls, List.filter_append, filter_map_none, Call.is_set_status,
      num_devices_query, devices_query, build_status_query]
  · simp [build_status_queries, List.filter_append, filter_map_none, filter_map_all,
      Call.is_build_status_query, num_devices_query, devices_query, build_status_query]
  · simp [build_status_queries, List.filter_append, filter_map_none, filter_map_all,
      Call.is_build_status_query, num_devices_query, devices_query, build_status_query]

/-- Witness for C15: of three devices the second reports a build error; the third is
never asked. -/
theorem first_build_error_short_circuits_witness :
    set_status_calls (calls_since 0
        (build_event_callback ⟨7⟩ ⟨1, NULL⟩ 1
          (fresh (building [CL_BUILD_SUCCESS, CL_BUILD_ERROR, CL_BUILD_SUCCESS] 2))).2)
      = [.clSetUserEventStatus 7 CL_BUILD_PROGRAM_FAILURE] ∧
    build_status_queries (calls_since 0
        (build_event_callback ⟨7⟩ ⟨1, NULL⟩ 1
          (fresh (building [CL_BUILD_SUCCESS, CL_BUILD_ERROR, CL_BUILD_SUCCESS] 2))).2)
      = [build_status_query 1 1, build_status_query 1 2] :=
  ⟨(first_build_error_short_circuits ⟨7⟩ ⟨1, NULL⟩ 1
      (fresh (building [CL_BUILD_SUCCESS, CL_BUILD_ERROR, CL_BUILD_SUCCESS] 2)) _ _
      [1] 2 [3]
      (building_reports [CL_BUILD_SUCCESS, CL_BUILD_ERROR, CL_BUILD_SUCCESS] 2 ⟨1, NULL⟩
        (by decide))
      (by decide) (by decide) (by decide)).2.1,
   (first_build_error_short_circuits ⟨7⟩ ⟨1, NULL⟩ 1
      (fresh (building [CL_BUILD_SUCCESS, CL_BUILD_ERROR, CL_BUILD_SUCCESS] 2)) _ _
      [1] 2 [3]
      (building_reports [CL_BUILD_SUCCESS, CL_BUILD_ERROR, CL_BUILD_SUCCESS] 2 ⟨1, NULL⟩
        (by decide))
      (by decide) (by decide) (by decide)).2.2.1⟩

/-- C16, as stated, fails: of two devices the first reports a build error and the second
a status that is neither success nor error; the callback sets the user event to
`CL_BUILD_PROGRAM_FAILURE` and returns, it does not throw `UnsupportedBuildStatus`. -/
theorem unsupported_status_after_error_is_not_seen :
    (build_event_callback ⟨7⟩ ⟨1, NULL⟩ 1
        (fresh (building [CL_BUILD_ERROR, CL_BUILD_NONE] 2))).1 = .returned () ∧
    ¬ ((build_event_callback ⟨7⟩ ⟨1, NULL⟩ 1
        (fresh (building [CL_BUILD_ERROR, CL_BUILD_NONE] 2))).1
          = .raised .UnsupportedBuildStatus) ∧
    set_status_calls (build_event_callback ⟨7⟩ ⟨1, NULL⟩ 1
        (fresh (building [CL_BUILD_ERROR, CL_BUILD_NONE] 2))).2.log
      = [.clSetUserEventStatus 7 CL_BUILD_PROGRAM_FAILURE] := by
  decide

/-- C16, amended: on a mock executor, when the first device that does not report
`CL_BUILD_SUCCESS` reports a status other than `CL_BUILD_ERROR`, the build-event callback
ends by throwing `UnsupportedBuildStatus` and sets the user event to no status at all. -/
theorem first_unsupported_status_raises (ev : Event) (p : Program) (unused : Ident)
    (w : World) (ids : List Ident) (status_of : Ident → Int) (pre : List Ident)
    (idk : Ident) (post : List Ident) (h : reports w p ids status_of)
    (hsplit : ids = pre ++ idk :: post)
    (hpre : ∀ id ∈ pre, status_of id = CL_BUILD_SUCCESS)
    (hk1 : status_of idk ≠ CL_BUILD_SUCCESS) (hk2 : status_of idk ≠ CL_BUILD_ERROR) :
    (build_event_callback ev p unused w).1 = .raised .UnsupportedBuildStatus ∧
    set_status_calls (calls_since w.log.length (build_event_callback ev p unused w).2)
      = [] := by
  have hrun := callback_first_failure ev p unused w ids status_of pre idk post h hsplit
    hpre hk1
  simp only [hk2, if_false] at hrun
  rw [calls_since_append w _ _ (by rw [hrun])]
  refine ⟨by rw [hrun], ?_⟩
  simp [set_status_calls, List.filter_append, filter_map_none, Call.is_set_status,
    num_devices_query, devices_query, build_status_query]

/-- Witness for the amended C16: of two devices the first reports success and the second
is still being built. -/
theorem first_unsupported_status_raises_witness :
    (build_event_callback ⟨7⟩ ⟨1, NULL⟩ 1
        (fresh (building [CL_BUILD_SUCCESS, CL_BUILD_IN_PROGRESS] 2))).1
      = .raised .UnsupportedBuildStatus :=
  (first_unsupported_status_raises ⟨7⟩ ⟨1, NULL⟩ 1
    (fresh (building [CL_BUILD_SUCCESS, CL_BUILD_IN_PROGRESS] 2)) _ _ [1] 2 []
    (building_reports [CL_BUILD_SUCCESS, CL_BUILD_IN_PROGRESS] 2 ⟨1, NULL⟩ (by decide))
    (by decide) (by decide) (by decide) (by decide)).1

/-! ## The steps of `build_with_event` -/

theorem event_copy_construct_apply (e : Event) (w : World) :
    Event.copy_construct e w =
      (if (w.respond w.log (.clRetainEvent e.internal_id)).status = CL_SUCCESS
        then .returned { internal_id := e.internal_id }
        else .raised (.ExecutorError (w.respond w.log (.clRetainEvent e.internal_id)).status),
       { w with log := w.log ++ [.clRetainEvent e.internal_id] }) := by
  by_cases h : (w.respond w.log (.clRetainEvent e.internal_id)).status = CL_SUCCESS
  all_goals
    simp [Event.copy_construct, Event.retain, bind_apply, pure_apply, exec_apply,
      throw_if_failed_apply, h]

theorem event_destructor_apply (e : Event) (w : World) :
    e.destructor w =
      (if (w.respond w.log (.clReleaseEvent e.internal_id)).status = CL_SUCCESS
        then .returned () else .terminated,
       { w with log := w.log ++ [.clReleaseEvent e.internal_id] }) := by
  by_cases h : (w.respond w.log (.clReleaseEvent e.internal_id)).status = CL_SUCCESS
  all_goals
    simp [Event.destructor, Event.release, noexcept_apply, bind_apply, exec_apply,
      throw_if_failed_apply, h, Outcome.isRaised]

theorem context_construct_apply (id : Ident) (hid : id ≠ NULL) (w : World) :
    Context.construct id true w =
      (if (w.respond w.log (.clRetainContext id)).status = CL_SUCCESS
        then .returned { internal_id := id }
        else .raised (.ExecutorError (w.respond w.log (.clRetainContext id)).status),
       { w with log := w.log ++ [.clRetainContext id] }) := by
  by_cases h : (w.respond w.log (.clRetainContext id)).status = CL_SUCCESS
  all_goals
    simp [Context.construct, hid, bind_apply, pure_apply, exec_apply, throw_if_failed_apply, h]

theorem context_destructor_apply (c : Context) (w : World) :
    c.destructor w =
      (if (w.respond w.log (.clReleaseContext c.internal_id)).status = CL_SUCCESS
        then .returned () else .terminated,
       { w with log := w.log ++ [.clReleaseContext c.internal_id] }) := by
  by_cases h : (w.respond w.log (.clReleaseContext c.internal_id)).status = CL_SUCCESS
  all_goals
    simp [Context.destructor, noexcept_apply, bind_apply, exec_apply, throw_if_failed_apply,
      h, Outcome.isRaised]

theorem create_user_event_apply (c : Context) (w : World) :
    c.create_user_event w =
      (if (w.respond w.log (.clCreateUserEvent c.internal_id)).status = CL_SUCCESS then
          (if (w.respond w.log (.clCreateUserEvent c.internal_id)).event = NULL
            then .raised .InvalidArgument
            else .returned
              { internal_id := (w.respond w.log (.clCreateUserEvent c.internal_id)).event })
        else .raised
          (.ExecutorError (w.respond w.log (.clCreateUserEvent c.internal_id)).status),
       { w with log := w.log ++ [.clCreateUserEvent c.internal_id] }) := by
  by_cases h : (w.respond w.log (.clCreateUserEvent c.internal_id)).status = CL_SUCCESS
  all_goals
    simp [Context.create_user_event, bind_apply, exec_apply, throw_if_failed_apply,
      event_construct_apply, h]

theorem program_copy_construct_apply (p : Program) (w : World) :
    Program.copy_construct p w =
      (if (w.respond w.log (.clRetainProgram p.internal_id)).status = CL_SUCCESS
        then .returned p
        else .raised
          (.ExecutorError (w.respond w.log (.clRetainProgram p.internal_id)).status),
       { w with log := w.log ++ [.clRetainProgram p.internal_id] }) := by
  by_cases h : (w.respond w.log (.clRetainProgram p.internal_id)).status = CL_SUCCESS
  all_goals
    simp [Program.copy_construct, Program.copy_internal_data, bind_apply, pure_apply,
      program_retain_apply, h]

theorem program_raw_context_id_apply (p : Program) (w : World) :
    p.raw_context_id w =
      (if (w.respond w.log (context_query p)).status = CL_SUCCESS
        then .returned (w.respond w.log (context_query p)).value
        else .raised (.ExecutorError (w.respond w.log (context_query p)).status),
       { w with log := w.log ++ [context_query p] }) := by
  by_cases h : (w.respond w.log (context_query p)).status = CL_SUCCESS
  all_goals
    simp only [context_query] at h
    simp [Program.raw_context_id, Program.raw_query, bind_apply, pure_apply, exec_apply,
      throw_if_failed_apply, context_query, h]

/-- The loop that fills the view of a device list yields the raw identifiers of its
devices, in order. -/
theorem fill_raw_device_ids_eq_map (l : List Device) :
    fill_raw_device_ids l l.length (uninitialised l.length) = l.map Device.raw_identifier := by
  unfold fill_raw_device_ids
  rw [foldl_set_range (fun i => (l.getD i { internal_id := NULL }).raw_identifier)
    (uninitialised l.length) l.length (by simp [uninitialised])]
  simp only [uninitialised, List.drop_replicate, Nat.sub_self, List.replicate_zero,
    List.append_nil]
  apply List.ext_getElem
  · simp
  · intro i h1 h2
    simp at h1
    simp [List.getD_eq_getElem?_getD, h1]



/-! ## Runs that return -/

theorem steps_pure {α : Type} (R : List Call → Call → Reply) (a : α) (base : List Call)
    (heap : List BuildCallback) (Ls : List Call) (Hs : List BuildCallback) :
    Steps R (pure a : M α) base heap Ls Hs a Ls Hs := by
  intro w hR hl hh
  exact ⟨w, rfl, hR, hl, hh⟩

theorem steps_bind {α β : Type} {R : List Call → Call → Reply} {m : M α} {f : α → M β}
    {base : List Call} {heap : List BuildCallback} {Ls : List Call}
    {Hs : List BuildCallback} {a : α} {b : β} {L1 L2 : List Call}
    {H1 H2 : List BuildCallback} (h1 : Steps R m base heap Ls Hs a L1 H1)
    (h2 : Steps R (f a) base heap L1 H1 b L2 H2) :
    Steps R (m >>= f) base heap Ls Hs b L2 H2 := by
  intro w hR hl hh
  obtain ⟨w1, e1, r1, l1, p1⟩ := h1 w hR hl hh
  obtain ⟨w2, e2, r2, l2, p2⟩ := h2 w1 r1 l1 p1
  refine ⟨w2, ?_, r2, l2, p2⟩
  rw [bind_apply, e1]
  exact e2

theorem steps_scope_exit {α : Type} {R : List Call → Call → Reply} {body : M α}
    {cleanup : M Unit} {base : List Call} {heap : List BuildCallback} {Ls : List Call}
    {Hs : List BuildCallback} {a : α} {L1 L2 : List Call} {H1 H2 : List BuildCallback}
    (h1 : Steps R body base heap Ls Hs a L1 H1)
    (h2 : Steps R cleanup base heap L1 H1 () L2 H2) :
    Steps R (scope_exit body cleanup) base heap Ls Hs a L2 H2 := by
  intro w hR hl hh
  obtain ⟨w1, e1, r1, l1, p1⟩ := h1 w hR hl hh
  obtain ⟨w2, e2, r2, l2, p2⟩ := h2 w1 r1 l1 p1
  refine ⟨w2, ?_, r2, l2, p2⟩
  rw [scope_exit_apply, e1, noexcept_apply, e2]
  simp [Outcome.isTerminated, Outcome.isReturned, Outcome.isRaised]

theorem steps_unwind {α : Type} {R : List Call → Call → Reply} {body : M α}
    {cleanup : M Unit} {base : List Call} {heap : List BuildCallback} {Ls : List Call}
    {Hs : List BuildCallback} {a : α} {L : List Call} {H : List BuildCallback}
    (h : Steps R body base heap Ls Hs a L H) :
    Steps R (unwind body cleanup) base heap Ls Hs a L H := by
  intro w hR hl hh
  obtain ⟨w1, e1, r1, l1, p1⟩ := h w hR hl hh
  refine ⟨w1, ?_, r1, l1, p1⟩
  rw [unwind_apply, e1]
  simp [Outcome.isRaised]

theorem steps_event_copy {R : List Call → Call → Reply} {e : Event} {base : List Call}
    {heap : List BuildCallback} {Ls : List Call} {Hs : List BuildCallback}
    (hc : (R (base ++ Ls) (.clRetainEvent e.internal_id)).status = CL_SUCCESS) :
    Steps R (Event.copy_construct e) base heap Ls Hs e
      (Ls ++ [.clRetainEvent e.internal_id]) Hs := by
  intro w hR hl hh
  refine ⟨{ w with log := w.log ++ [.clRetainEvent e.internal_id] }, ?_, hR, by simp [hl],
    hh⟩
  rw [event_copy_construct_apply, hR, hl, hc]
  simp

theorem steps_event_destructor {R : List Call → Call → Reply} {e : Event}
    {base : List Call} {heap : List BuildCallback} {Ls : List Call}
    {Hs : List BuildCallback}
    (hc : (R (base ++ Ls) (.clReleaseEvent e.internal_id)).status = CL_SUCCESS) :
    Steps R e.destructor base heap Ls Hs () (Ls ++ [.clReleaseEvent e.internal_id]) Hs := by
  intro w hR hl hh
  refine ⟨{ w with log := w.log ++ [.clReleaseEvent e.internal_id] }, ?_, hR, by simp [hl],
    hh⟩
  rw [event_destructor_apply, hR, hl, hc]
  simp

theorem steps_context_construct {R : List Call → Call → Reply} {id : Ident}
    {base : List Call} {heap : List BuildCallback} {Ls : List Call}
    {Hs : List BuildCallback} (hid : id ≠ NULL)
    (hc : (R (base ++ Ls) (.clRetainContext id)).status = CL_SUCCESS) :
    Steps R (Context.construct id true) base heap Ls Hs { internal_id := id }
      (Ls ++ [.clRetainContext id]) Hs := by
  intro w hR hl hh
  refine ⟨{ w with log := w.log ++ [.clRetainContext id] }, ?_, hR, by simp [hl], hh⟩
  rw [context_construct_apply id hid, hR, hl, hc]
  simp

theorem steps_context_destructor {R : List Call → Call → Reply} {c : Context}
    {base : List Call} {heap : List BuildCallback} {Ls : List Call}
    {Hs : List BuildCallback}
    (hc : (R (base ++ Ls) (.clReleaseContext c.internal_id)).status = CL_SUCCESS) :
    Steps R c.destructor base heap Ls Hs () (Ls ++ [.clReleaseContext c.internal_id])
      Hs := by
  intro w hR hl hh
  refine ⟨{ w with log := w.log ++ [.clReleaseContext c.internal_id] }, ?_, hR,
    by simp [hl], hh⟩
  rw [context_destructor_apply, hR, hl, hc]
  simp

theorem steps_create_user_event {R : List Call → Call → Reply} {c : Context}
    {base : List Call} {heap : List BuildCallback} {Ls : List Call}
    {Hs : List BuildCallback}
    (hc : (R (base ++ Ls) (.clCreateUserEvent c.internal_id)).status = CL_SUCCESS)
    (he : (R (base ++ Ls) (.clCreateUserEvent c.internal_id)).event ≠ NULL) :
    Steps R c.create_user_event base heap Ls Hs
      { internal_id := (R (base ++ Ls) (.clCreateUserEvent c.internal_id)).event }
      (Ls ++ [.clCreateUserEvent c.internal_id]) Hs := by
  intro w hR hl hh
  refine ⟨{ w with log := w.log ++ [.clCreateUserEvent c.internal_id] }, ?_, hR,
    by simp [hl], hh⟩
  rw [create_user_event_apply, hR, hl, hc]
  simp [he]

theorem steps_program_copy {R : List Call → Call → Reply} {p : Program} {base : List Call}
    {heap : List BuildCallback} {Ls : List Call} {Hs : List BuildCallback}
    (hc : (R (base ++ Ls) (.clRetainProgram p.internal_id)).status = CL_SUCCESS) :
    Steps R (Program.copy_construct p) base heap Ls Hs p
      (Ls ++ [.clRetainProgram p.internal_id]) Hs := by
  intro w hR hl hh
  refine ⟨{ w with log := w.log ++ [.clRetainProgram p.internal_id] }, ?_, hR, by simp [hl],
    hh⟩
  rw [program_copy_construct_apply, hR, hl, hc]
  simp

theorem steps_raw_context_id {R : List Call → Call → Reply} {p : Program}
    {base : List Call} {heap : List BuildCallback} {Ls : List Call}
    {Hs : List BuildCallback}
    (hc : (R (base ++ Ls) (context_query p)).status = CL_SUCCESS) :
    Steps R p.raw_context_id base heap Ls Hs (R (base ++ Ls) (context_query p)).value
      (Ls ++ [context_query p]) Hs := by
  intro w hR hl hh
  refine ⟨{ w with log := w.log ++ [context_query p] }, ?_, hR, by simp [hl], hh⟩
  rw [program_raw_context_id_apply, hR, hl, hc]
  simp

theorem steps_allocate {R : List Call → Call → Reply} {c : BuildCallback}
    {base : List Call} {heap : List BuildCallback} {Ls : List Call}
    {Hs : List BuildCallback} :
    Steps R (allocate c) base heap Ls Hs ((heap ++ Hs).length + 1) Ls (Hs ++ [c]) := by
  intro w hR hl hh
  exact ⟨{ w with heap := w.heap ++ [c] }, by simp [allocate, hh], hR, hl, by simp [hh]⟩

theorem steps_capture {R : List Call → Call → Reply} {e : Event} {p : Program}
    {base : List Call} {heap : List BuildCallback} {Ls : List Call}
    {Hs : List BuildCallback}
    (hok : ∀ log c, c.is_build = false → (R log c).status = CL_SUCCESS) :
    Steps R (capture_build_event e p) base heap Ls Hs (.build_event e p)
      (Ls ++ [.clRetainEvent e.internal_id, .clRetainProgram p.internal_id]) Hs := by
  unfold capture_build_event
  refine steps_bind (steps_event_copy (hok _ _ rfl)) ?_
  refine steps_bind (steps_unwind (steps_program_copy (hok _ _ rfl))) ?_
  rw [show Ls ++ [Call.clRetainEvent e.internal_id, .clRetainProgram p.internal_id] =
    Ls ++ [.clRetainEvent e.internal_id] ++ [.clRetainProgram p.internal_id] by simp]
  exact steps_pure R _ _ _ _ _

/-! ## Runs that return and only add calls and frees -/

theorem calm_pure {α : Type} (good : Call → Bool) (R : List Call → Call → Reply) (a : α) :
    Calm good R (pure a : M α) a :=
  fun w _ => ⟨[], [], by rw [world_frame_nil]; rfl, by simp⟩

theorem calm_bind {α β : Type} {good : Call → Bool} {R : List Call → Call → Reply}
    {m : M α} {f : α → M β} {a : α} {b : β} (hm : Calm good R m a)
    (hf : Calm good R (f a) b) : Calm good R (m >>= f) b := by
  intro w hR
  obtain ⟨L1, F1, h1, g1⟩ := hm w hR
  obtain ⟨L2, F2, h2, g2⟩ := hf { w with log := w.log ++ L1, freed := w.freed ++ F1 } hR
  refine ⟨L1 ++ L2, F1 ++ F2, ?_, ?_⟩
  · rw [bind_apply, h1]
    simp only
    rw [h2]
    simp
  · intro c hc
    rcases List.mem_append.mp hc with h | h
    · exact g1 c h
    · exact g2 c h

theorem calm_scope_exit {α : Type} {good : Call → Bool} {R : List Call → Call → Reply}
    {body : M α} {cleanup : M Unit} {a : α} (hb : Calm good R body a)
    (hc : Calm good R cleanup ()) : Calm good R (scope_exit body cleanup) a := by
  intro w hR
  obtain ⟨L1, F1, h1, g1⟩ := hb w hR
  obtain ⟨L2, F2, h2, g2⟩ := hc { w with log := w.log ++ L1, freed := w.freed ++ F1 } hR
  refine ⟨L1 ++ L2, F1 ++ F2, ?_, ?_⟩
  · rw [scope_exit_apply, h1, noexcept_apply, h2]
    simp [Outcome.isTerminated, Outcome.isReturned, Outcome.isRaised]
  · intro c hc
    rcases List.mem_append.mp hc with h | h
    · exact g1 c h
    · exact g2 c h

theorem calm_unwind {α : Type} {good : Call → Bool} {R : List Call → Call → Reply}
    {body : M α} {cleanup : M Unit} {a : α} (hb : Calm good R body a) :
    Calm good R (unwind body cleanup) a := by
  intro w hR
  obtain ⟨L1, F1, h1, g1⟩ := hb w hR
  refine ⟨L1, F1, ?_, g1⟩
  rw [unwind_apply, h1]
  simp [Outcome.isRaised]

theorem calm_noexcept {α : Type} {good : Call → Bool} {R : List Call → Call → Reply}
    {m : M α} {a : α} (hm : Calm good R m a) : Calm good R (noexcept m) a := by
  intro w hR
  obtain ⟨L1, F1, h1, g1⟩ := hm w hR
  refine ⟨L1, F1, ?_, g1⟩
  rw [noexcept_apply, h1]
  simp [Outcome.isRaised]

theorem calm_mono {α : Type} {good better : Call → Bool} {R : List Call → Call → Reply}
    {m : M α} {a : α} (h : ∀ c, good c = true → better c = true) (hm : Calm good R m a) :
    Calm better R m a := by
  intro w hR
  obtain ⟨L, F, h1, g1⟩ := hm w hR
  exact ⟨L, F, h1, fun c hc => h c (g1 c hc)⟩

theorem calm_delete (good : Call → Bool) (R : List Call → Call → Reply) (ptr : Ident) :
    Calm good R (delete ptr) () :=
  fun w _ => ⟨[], [ptr], by simp [delete], by simp⟩

/-- A call that succeeds and whose status is checked. -/
theorem calm_checked_call {good : Call → Bool} {R : List Call → Call → Reply} (c : Call)
    (hg : good c = true) (hs : ∀ log, (R log c).status = CL_SUCCESS) :
    Calm good R (do let r ← exec c; throw_if_failed r.status : M Unit) () := by
  intro w hR
  refine ⟨[c], [], ?_, by simp [hg]⟩
  rw [checked_exec_flush, hR, hs]
  simp

theorem calm_event_copy {good : Call → Bool} {R : List Call → Call → Reply} (e : Event)
    (hg : good (.clRetainEvent e.internal_id) = true)
    (hs : ∀ log, (R log (.clRetainEvent e.internal_id)).status = CL_SUCCESS) :
    Calm good R (Event.copy_construct e) e :=
  calm_bind (calm_checked_call _ hg hs) (calm_pure good R _)

theorem calm_event_destructor {R : List Call → Call → Reply} (e : Event)
    (hs : ∀ log, (R log (.clReleaseEvent e.internal_id)).status = CL_SUCCESS) :
    Calm Call.is_teardown R e.destructor () :=
  calm_noexcept (calm_checked_call _ rfl hs)

theorem calm_context_destructor {good : Call → Bool} {R : List Call → Call → Reply}
    (c : Context) (hg : good (.clReleaseContext c.internal_id) = true)
    (hs : ∀ log, (R log (.clReleaseContext c.internal_id)).status = CL_SUCCESS) :
    Calm good R c.destructor () :=
  calm_noexcept (calm_checked_call _ hg hs)

theorem calm_program_copy {good : Call → Bool} {R : List Call → Call → Reply} (p : Program)
    (hg : good (.clRetainProgram p.internal_id) = true)
    (hs : ∀ log, (R log (.clRetainProgram p.internal_id)).status = CL_SUCCESS) :
    Calm good R (Program.copy_construct p) p :=
  calm_bind (calm_checked_call _ hg hs) (calm_pure good R _)

/-- The body of `Program::release` on an executor whose calls other than the build
succeed, when the deletion of the closure returns. -/
theorem calm_release_with {R : List Call → Call → Reply}
    (hok : ∀ log c, c.is_build = false → (R log c).status = CL_SUCCESS)
    (d : Ident → M Unit) (hd : ∀ ptr, Calm Call.is_teardown R (d ptr) ()) (p : Program) :
    Calm Call.is_teardown R (p.release_with d) () := by
  intro w hR
  rw [program_release_with_apply, hR, hok w.log (reference_count_query p) rfl,
    hok (w.log ++ [reference_count_query p]) (.clReleaseProgram p.internal_id) rfl]
  simp only [if_true]
  split
  · obtain ⟨L, F, h1, g1⟩ := hd p.internal_callback_ptr { w with
      log := w.log ++ [reference_count_query p, .clReleaseProgram p.internal_id] } hR
    refine ⟨[reference_count_query p, .clReleaseProgram p.internal_id] ++ L, F, ?_, ?_⟩
    · rw [← hR, h1]
      simp
    · intro c hc
      rcases List.mem_append.mp hc with h | h
      · simp at h
        rcases h with h | h <;> subst h <;> rfl
      · exact g1 c h
  · refine ⟨[reference_count_query p, .clReleaseProgram p.internal_id], [], ?_, ?_⟩
    · simp [hR]
    · intro c hc
      simp at hc
      rcases hc with h | h <;> subst h <;> rfl

theorem calm_destructor_with {R : List Call → Call → Reply}
    (hok : ∀ log c, c.is_build = false → (R log c).status = CL_SUCCESS)
    (d : Program → M Unit) (hd : ∀ p, Calm Call.is_teardown R (d p) ())
    (c : BuildCallback) : Calm Call.is_teardown R (c.destructor_with d) () := by
  cases c with
  | empty => exact calm_pure _ _ _
  | user tag => exact calm_pure _ _ _
  | build_event e p =>
    exact calm_bind (hd p) (calm_event_destructor e (fun log => hok log _ rfl))

/-- On an executor whose calls other than the build succeed, deleting a closure
returns. -/
theorem calm_delete_closure_within {R : List Call → Call → Reply}
    (hok : ∀ log c, c.is_build = false → (R log c).status = CL_SUCCESS) (depth : Nat) :
    ∀ ptr, Calm Call.is_teardown R (delete_closure_within depth ptr) () := by
  induction depth with
  | zero =>
    intro ptr w _
    by_cases h : ptr = NULL
    · exact ⟨[], [], by simp [delete_closure_within, h], by simp⟩
    · exact ⟨[], [ptr], by simp [delete_closure_within, h, delete], by simp⟩
  | succ n ih =>
    intro ptr w hR
    by_cases h : ptr = NULL
    · exact ⟨[], [], by simp [delete_closure_within, h], by simp⟩
    · by_cases hf : ptr ∈ w.freed
      · exact ⟨[], [ptr], by simp [delete_closure_within, h, hf, delete], by simp⟩
      · rcases hc : w.heap[ptr - 1]? with _ | c
        · exact ⟨[], [ptr], by simp [delete_closure_within, h, hf, hc, delete], by simp⟩
        · have hbody : Calm Call.is_teardown R (do
              c.destructor_with (fun p => noexcept (p.release_with (fun older =>
                if older < ptr then delete_closure_within n older else delete older)))
              delete ptr : M Unit) () :=
            calm_bind
              (calm_destructor_with hok _ (fun p => calm_noexcept
                (calm_release_with hok _ (fun older => by
                  by_cases ho : older < ptr
                  · simpa only [ho, if_true] using ih older
                  · simpa only [ho, if_false] using calm_delete _ R older) p)) c)
              (calm_delete _ R ptr)
          obtain ⟨L, F, h1, g1⟩ := hbody w hR
          refine ⟨L, F, ?_, g1⟩
          rw [← h1]
          simp [delete_closure_within, h, hf, hc]

theorem calm_delete_closure {R : List Call → Call → Reply}
    (hok : ∀ log c, c.is_build = false → (R log c).status = CL_SUCCESS) (ptr : Ident) :
    Calm Call.is_teardown R (delete_closure ptr) () :=
  fun w hR => calm_delete_closure_within hok w.heap.length ptr w hR

/-- On an executor whose calls other than the build succeed, the destructor of a
`Program` handle returns, whatever count it reads. -/
theorem calm_program_destructor {R : List Call → Call → Reply}
    (hok : ∀ log c, c.is_build = false → (R log c).status = CL_SUCCESS) (p : Program) :
    Calm Call.is_teardown R p.destructor () :=
  calm_noexcept (calm_release_with hok _ (calm_delete_closure hok) p)

theorem calm_closure_destructor {R : List Call → Call → Reply}
    (hok : ∀ log c, c.is_build = false → (R log c).status = CL_SUCCESS)
    (c : BuildCallback) : Calm Call.is_teardown R c.destructor () :=
  calm_destructor_with hok _ (calm_program_destructor hok) c

theorem teardown_is_bookkeeping (c : Call) (h : c.is_teardown = true) :
    c.is_bookkeeping = true := by
  cases c <;> simp_all [Call.is_teardown, Call.is_bookkeeping, Call.is_build,
    Call.is_create_user_event]

theorem calm_capture {R : List Call → Call → Reply}
    (hok : ∀ log c, c.is_build = false → (R log c).status = CL_SUCCESS) (e : Event)
    (p : Program) : Calm Call.is_bookkeeping R (capture_build_event e p) (.build_event e p) :=
  calm_bind (calm_event_copy e rfl (fun log => hok log _ rfl))
    (calm_bind (calm_unwind (calm_program_copy p rfl (fun log => hok log _ rfl)))
      (calm_pure _ R _))

theorem bind_returned {α β : Type} {m : M α} {f : α → M β} {w w1 : World} {a : α}
    (h : m w = (.returned a, w1)) : (m >>= f) w = f a w1 := by
  rw [bind_apply, h]

theorem scope_exit_returned {α : Type} {body : M α} {cleanup : M Unit} {w w1 w2 : World}
    {a : α} (hb : body w = (.returned a, w1)) (hc : cleanup w1 = (.returned (), w2)) :
    scope_exit body cleanup w = (.returned a, w2) := by
  rw [scope_exit_apply, hb, noexcept_apply, hc]
  simp [Outcome.isTerminated, Outcome.isReturned, Outcome.isRaised]

/-- The part of `make_build_event_callback` that follows the creation of the user event,
on an executor whose calls other than the build succeed: it returns the event and the
closure, and every call it makes is a retain, a query or a release. -/
theorem calm_prepare_callback {R : List Call → Call → Reply}
    (hok : ∀ log c, c.is_build = false → (R log c).status = CL_SUCCESS) (self : Program)
    (user_event : Event) :
    Calm Call.is_bookkeeping R
      (scope_exit (do
          let active_program_reference ← Program.copy_construct self
          scope_exit (do
              let callback ← capture_build_event user_event active_program_reference
              scope_exit (do
                  let first ← Event.copy_construct user_event
                  let second ← unwind callback.copy_construct first.destructor
                  pure (first, second))
                callback.destructor)
            active_program_reference.destructor)
        user_event.destructor)
      (user_event, .build_event user_event self) := by
  apply calm_scope_exit
  · apply calm_bind (calm_program_copy self rfl (fun log => hok log _ rfl))
    apply calm_scope_exit
    · apply calm_bind (calm_capture hok user_event self)
      apply calm_scope_exit
      · apply calm_bind (calm_event_copy user_event rfl (fun log => hok log _ rfl))
        apply calm_bind (calm_unwind (calm_capture hok user_event self))
        exact calm_pure _ _ _
      · exact calm_mono teardown_is_bookkeeping (calm_closure_destructor hok _)
    · exact calm_mono teardown_is_bookkeeping (calm_program_destructor hok self)
  · exact calm_mono teardown_is_bookkeeping
      (calm_event_destructor user_event (fun log => hok log _ rfl))

/-- On an executor whose calls other than the build succeed, `make_build_event_callback`
asks for the context, retains it, creates one user event on it, and returns that event
with a closure that captured a copy of it and a copy of the program; every call it makes
after that is a retain, a query or a release. -/
theorem make_build_event_callback_runs (self : Program) (w : World) (ctx e : Ident)
    (hok : ∀ log c, c.is_build = false → (w.respond log c).status = CL_SUCCESS)
    (hctx : ctx = (w.respond w.log (context_query self)).value) (hnn : ctx ≠ NULL)
    (he : e = (w.respond (w.log ++ [context_query self, .clRetainContext ctx])
      (.clCreateUserEvent ctx)).event) (hev : e ≠ NULL) :
    ∃ (L : List Call) (F : List Ident),
      self.make_build_event_callback w
        = (.returned (({ internal_id := e } : Event), .build_event { internal_id := e } self),
          { w with
            log := w.log ++ ([context_query self, .clRetainContext ctx,
              .clCreateUserEvent ctx] ++ L)
            freed := w.freed ++ F }) ∧
      ∀ c ∈ L, c.is_bookkeeping = true := by
  have ha : self.raw_context_id w
      = (.returned ctx, { w with log := w.log ++ [context_query self] }) := by
    rw [program_raw_context_id_apply, hok w.log (context_query self) rfl, ← hctx]
    simp
  have hb : Context.construct ctx true { w with log := w.log ++ [context_query self] }
      = (.returned { internal_id := ctx },
        { w with log := w.log ++ [context_query self, .clRetainContext ctx] }) := by
    rw [context_construct_apply ctx hnn]
    have hs := hok (w.log ++ [context_query self]) (.clRetainContext ctx) rfl
    simp [hs]
  have hc : ({ internal_id := ctx } : Context).create_user_event
        { w with log := w.log ++ [context_query self, .clRetainContext ctx] }
      = (.returned { internal_id := e },
        { w with log := w.log ++ [context_query self, .clRetainContext ctx,
          .clCreateUserEvent ctx] }) := by
    rw [create_user_event_apply]
    have hs := hok (w.log ++ [context_query self, .clRetainContext ctx])
      (.clCreateUserEvent ctx) rfl
    simp [hs, ← he, hev]
  obtain ⟨L1, F1, h1, g1⟩ := calm_prepare_callback hok self { internal_id := e }
    { w with log := w.log ++ [context_query self, .clRetainContext ctx,
      .clCreateUserEvent ctx] } rfl
  obtain ⟨L2, F2, h2, g2⟩ := @calm_context_destructor Call.is_bookkeeping _
    { internal_id := ctx } rfl (fun log => hok log _ rfl)
    { w with
      log := w.log ++ [context_query self, .clRetainContext ctx, .clCreateUserEvent ctx]
        ++ L1
      freed := w.freed ++ F1 } rfl
  refine ⟨L1 ++ L2, F1 ++ F2, ?_, ?_⟩
  · unfold Program.make_build_event_callback
    rw [bind_returned ha, bind_returned hb]
    refine (@scope_exit_returned _ _ _ _ _ _
      (({ internal_id := e } : Event), BuildCallback.build_event { internal_id := e } self)
      ?_ h2).trans ?_
    · rw [bind_returned hc]
      exact h1
    · simp
  · intro c hc
    rcases List.mem_append.mp hc with h | h
    · exact g1 c h
    · exact g2 c h

theorem bookkeeping_no_build (L : List Call) (h : ∀ c ∈ L, c.is_bookkeeping = true) :
    L.filter Call.is_build = [] := by
  rw [List.filter_eq_nil_iff]
  intro c hc
  have := h c hc
  simp [Call.is_bookkeeping] at this
  simp [this.1]

theorem bookkeeping_no_create (L : List Call) (h : ∀ c ∈ L, c.is_bookkeeping = true) :
    L.filter Call.is_create_user_event = [] := by
  rw [List.filter_eq_nil_iff]
  intro c hc
  have := h c hc
  simp [Call.is_bookkeeping] at this
  simp [this.2]

theorem steps_new_closure {R : List Call → Call → Reply} {e : Event} {p : Program}
    {base : List Call} {heap : List BuildCallback} {Ls : List Call}
    {Hs : List BuildCallback}
    (hok : ∀ log c, c.is_build = false → (R log c).status = CL_SUCCESS) :
    Steps R (new_closure (.build_event e p)) base heap Ls Hs ((heap ++ Hs).length + 1)
      (Ls ++ [.clRetainEvent e.internal_id, .clRetainProgram p.internal_id])
      (Hs ++ [.build_event e p]) := by
  unfold new_closure
  apply steps_bind (steps_capture hok)
  exact steps_allocate

/-- The call to `clBuildProgram` that `raw_build_program` makes: one call, with the view
of the device list, the bridge function and the saved pointer when there is a callback,
and no function and a null pointer otherwise; a status other than success is thrown. -/
theorem call_build_program_apply (self : Program) (device_list : Option (List Device))
    (options : String) (callback : BuildCallback) (w : World) :
    self.call_build_program device_list options callback w =
      (if (w.respond w.log (.clBuildProgram self.internal_id (device_view device_list).1
            (device_view device_list).2 options callback.has_target
            (if callback.has_target then self.internal_callback_ptr else NULL))).status
          = CL_SUCCESS then .returned ()
        else .raised (.ExecutorError (w.respond w.log (.clBuildProgram self.internal_id
            (device_view device_list).1 (device_view device_list).2 options
            callback.has_target
            (if callback.has_target then self.internal_callback_ptr else NULL))).status),
        { w with log := w.log ++ [.clBuildProgram self.internal_id
            (device_view device_list).1 (device_view device_list).2 options
            callback.has_target
            (if callback.has_target then self.internal_callback_ptr else NULL)] }) := by
  cases device_list with
  | none =>
    cases hc : callback.has_target <;>
      simp only [Program.call_build_program, hc, device_view, if_true, Bool.false_eq_true,
        if_false, checked_exec_flush]
  | some l =>
    cases hc : callback.has_target <;>
      simp only [Program.call_build_program, hc, device_view, if_true, Bool.false_eq_true,
        if_false, checked_exec_flush, fill_raw_device_ids_eq_map]

/-- Whatever the executor answers, the status settings of one run of the build-event
callback are all on the event the callback captured. -/
theorem callback_status_on_its_event (ev : Event) (p : Program) (unused : Ident)
    (w : World) :
    ∃ S : List Call,
      status_trace (build_event_callback ev p unused w).2 = status_trace w ++ S ∧
      ∀ c ∈ S, ∃ st, c = .clSetUserEventStatus ev.internal_id st := by
  have hq := quiet_program_devices p w
  simp only [build_event_callback, bind_apply]
  rcases hd : p.devices w with ⟨o, w1⟩
  rw [hd] at hq
  simp only at hq
  cases o with
  | raised e => exact ⟨[], by simp [hq], by simp⟩
  | terminated => exact ⟨[], by simp [hq], by simp⟩
  | returned ds =>
    obtain ⟨S, h1, _, h3, _⟩ := callback_body_trace ev p ds w1
    have hdes := preserves_noexcept status_trace _ (quiet_destroy_devices ds)
    refine ⟨S, ?_, ?_⟩
    · simp only [scope_exit_apply]
      split
      · rw [h1, hq]
      · simp only
        rw [hdes, h1, hq]
    · intro c hc
      rcases h3 c hc with h | h
      · exact ⟨_, h⟩
      · exact ⟨_, h⟩

/-! ## C19: build with an event -/

/-- C19: `build_with_event`, with or without a device list, on an executor whose calls
other than the build succeed and whose created event `e` is not null: it creates one user
event, on the context `ctx` the program reports; it makes one build call, with the bridge
function and the pointer to a closure newly put on the heap, which holds `e` and a copy
of the program, and it saves that pointer in the object; when the build call succeeds it
returns the event `e`, the one whose status every run of the registered closure sets, and
when the build call fails it throws the typed failure for its status and returns no
event. -/
theorem build_with_event_returns_registered_event (self : Program)
    (device_list : Option (List Device)) (options : String) (w : World) (code : Int)
    (ctx e : Ident)
    (hok : ∀ log c, c.is_build = false → (w.respond log c).status = CL_SUCCESS)
    (hbuild : ∀ log c, c.is_build = true → (w.respond log c).status = code)
    (hctx : ctx = (w.respond w.log (context_query self)).value) (hnn : ctx ≠ NULL)
    (he : e = (w.respond (w.log ++ [context_query self, .clRetainContext ctx])
      (.clCreateUserEvent ctx)).event) (hev : e ≠ NULL) :
    (self.build_with_event device_list options w).1.1
      = (if code = CL_SUCCESS then .returned { internal_id := e }
        else .raised (.ExecutorError code)) ∧
    (self.build_with_event device_list options w).1.2
      = { self with internal_callback_ptr := w.heap.length + 1 } ∧
    (self.build_with_event device_list options w).2.heap
      = w.heap ++ [.build_event { internal_id := e } self] ∧
    create_user_event_calls
        (calls_since w.log.length (self.build_with_event device_list options w).2)
      = [.clCreateUserEvent ctx] ∧
    build_calls (calls_since w.log.length (self.build_with_event device_list options w).2)
      = [.clBuildProgram self.internal_id (device_view device_list).1
          (device_view device_list).2 options true (w.heap.length + 1)] ∧
    (∀ (program : Ident) (w2 : World), ∃ S : List Call,
      status_trace ((BuildCallback.build_event { internal_id := e } self).invoke program
        w2).2 = status_trace w2 ++ S ∧
      ∀ c ∈ S, ∃ st, c = .clSetUserEventStatus e st) := by
  obtain ⟨L1, F1, e1, g1⟩ := make_build_event_callback_runs self w ctx e hok hctx hnn he
    hev
  obtain ⟨w2, e2, r2, l2, p2⟩ := @steps_new_closure w.respond { internal_id := e } self
    (w.log ++ ([context_query self, .clRetainContext ctx, .clCreateUserEvent ctx] ++ L1))
    w.heap [] [] hok
    { w with
      log := w.log ++ ([context_query self, .clRetainContext ctx, .clCreateUserEvent ctx]
        ++ L1)
      freed := w.freed ++ F1 } rfl (by simp) (by simp)
  simp only [List.nil_append, List.append_nil] at e2 l2 p2
  have hcl : Calm Call.is_bookkeeping w.respond (do
        (BuildCallback.build_event { internal_id := e } self).destructor
        ({ internal_id := e } : Event).destructor : M Unit) () :=
    calm_bind (calm_mono teardown_is_bookkeeping (calm_closure_destructor hok _))
      (calm_mono teardown_is_bookkeeping
        (calm_event_destructor _ (fun log => hok log _ rfl)))
  have hb : (w2.respond w2.log (.clBuildProgram self.internal_id
      (device_view device_list).1 (device_view device_list).2 options true
      (w.heap.length + 1))).status = code := by
    rw [r2]
    exact hbuild _ _ rfl
  have hrun : ∃ w4 : World, self.build_with_event device_list options w =
      (((if code = CL_SUCCESS then .returned { internal_id := e }
        else .raised (.ExecutorError code)),
        { self with internal_callback_ptr := w.heap.length + 1 }), w4) ∧
      w4.heap = w.heap ++ [.build_event { internal_id := e } self] ∧
      ∃ mid1 mid2 : List Call, (∀ c ∈ mid1, c.is_bookkeeping = true) ∧
      (∀ c ∈ mid2, c.is_bookkeeping = true) ∧
      w4.log = w.log ++ ([context_query self, .clRetainContext ctx, .clCreateUserEvent ctx]
        ++ mid1 ++ [.clBuildProgram self.internal_id (device_view device_list).1
          (device_view device_list).2 options true (w.heap.length + 1)] ++ mid2) := by
    have hmid1 : ∀ c ∈ L1 ++ [Call.clRetainEvent e, .clRetainProgram self.internal_id],
        c.is_bookkeeping = true := by
      intro c hc
      rcases List.mem_append.mp hc with h | h
      · exact g1 c h
      · simp at h
        rcases h with h | h <;> subst h <;> rfl
    simp only [Program.build_with_event, e1, Program.raw_build_program,
      BuildCallback.has_target, if_true, e2, call_build_program_apply, hb]
    by_cases hcode : code = CL_SUCCESS
    · simp only [hcode, if_true]
      obtain ⟨L4, F4, e4, g4⟩ := calm_scope_exit
        (calm_event_copy { internal_id := e } rfl (fun log => hok log _ rfl)) hcl
        { w2 with log := w2.log ++ [.clBuildProgram self.internal_id
          (device_view device_list).1 (device_view device_list).2 options true
          (w.heap.length + 1)] } r2
      rw [e4]
      refine ⟨_, rfl, by simp [p2], _, L4, hmid1, g4, ?_⟩
      simp [l2]
    · simp only [hcode, if_false]
      obtain ⟨L4, F4, e4, g4⟩ := hcl { w2 with log := w2.log ++
        [.clBuildProgram self.internal_id (device_view device_list).1
          (device_view device_list).2 options true (w.heap.length + 1)] } r2
      rw [scope_exit_apply, raise_apply]
      simp only [noexcept_apply, e4, Outcome.isTerminated, Outcome.isReturned,
        Outcome.isRaised, Bool.false_eq_true, if_false, if_true]
      refine ⟨_, rfl, by simp [p2], _, L4, hmid1, g4, ?_⟩
      simp [l2]
  obtain ⟨w4, h4, hheap, mid1, mid2, hmid1, hmid2, hlog⟩ := hrun
  have hsince := calls_since_append w w4 _ hlog
  rw [h4]
  simp only [hsince]
  refine ⟨trivial, trivial, hheap, ?_, ?_, ?_⟩
  · simp [create_user_event_calls, List.filter_append, bookkeeping_no_create mid1 hmid1,
      bookkeeping_no_create mid2 hmid2, Call.is_create_user_event, context_query]
  · simp [build_calls, List.filter_append, bookkeeping_no_build mid1 hmid1,
      bookkeeping_no_build mid2 hmid2, Call.is_build, context_query]
  · intro program w2
    exact callback_status_on_its_event { internal_id := e } self program w2

/-- Witness for C19: on a mock executor whose build call succeeds the event `7` that was
created is returned and the closure put on the heap holds it; on one whose build call
fails with `-11` the failure for `-11` is thrown. -/
theorem build_with_event_returns_registered_event_witness :
    (Program.build_with_event ⟨1, NULL⟩ none "-O" (fresh (building [0] 2))).1.1
      = .returned { internal_id := 7 } ∧
    (Program.build_with_event ⟨1, NULL⟩ none "-O" (fresh (building [0] 2))).2.heap
      = [.build_event { internal_id := 7 } ⟨1, NULL⟩] ∧
    (Program.build_with_event ⟨1, NULL⟩ (some [⟨3⟩, ⟨4⟩]) "-O"
        (fresh (refusing_build (-11)))).1.1 = .raised (.ExecutorError (-11)) :=
  ⟨by
    simpa using (build_with_event_returns_registered_event ⟨1, NULL⟩ none "-O"
      (fresh (building [0] 2)) 0 5 7 (by intro log c _; cases c <;> rfl)
      (by intro log c _; cases c <;> rfl) (by decide) (by decide) (by decide)
      (by decide)).1,
   by
    simpa using (build_with_event_returns_registered_event ⟨1, NULL⟩ none "-O"
      (fresh (building [0] 2)) 0 5 7 (by intro log c _; cases c <;> rfl)
      (by intro log c _; cases c <;> rfl) (by decide) (by decide) (by decide)
      (by decide)).2.2.1,
   by
    simpa using (build_with_event_returns_registered_event ⟨1, NULL⟩ (some [⟨3⟩, ⟨4⟩]) "-O"
      (fresh (refusing_build (-11))) (-11) 5 7
      (by intro log c h; cases c <;> first | rfl | simp [Call.is_build] at h)
      (by intro log c h; cases c <;> first | rfl | simp [Call.is_build] at h)
      (by decide) (by decide) (by decide) (by decide)).1⟩

/-! ## C18: the lifetime of the closure on the heap -/

/-- C18 fails in the code.  A program is held by one handle, so that the executor reports
the reference count `1`.  `build` is given a user callback: the closure is put on the
heap and its pointer is saved in the handle.  The executor then calls `raw_callback`,
which invokes the closure once and frees it; when the handle is destroyed afterwards,
`release` frees the same closure a second time.  In the other order, the destruction
frees the closure first and `raw_callback` then reads the freed closure and frees it
again. -/
theorem closure_freed_twice_or_used_after_free :
    ((Program.build ⟨3, NULL⟩ none "" (.user 42) (fresh (building [0] 1))).1
      = (.returned (), ⟨3, 1⟩)) ∧
    (Program.build ⟨3, NULL⟩ none "" (.user 42) (fresh (building [0] 1))).2.heap
      = [.user 42] ∧
    (Program.build ⟨3, NULL⟩ none "" (.user 42) (fresh (building [0] 1))).2.freed = [] ∧
    (Program.raw_callback 3 1
      (Program.build ⟨3, NULL⟩ none "" (.user 42) (fresh (building [0] 1))).2).1
      = .returned () ∧
    (Program.raw_callback 3 1
      (Program.build ⟨3, NULL⟩ none "" (.user 42) (fresh (building [0] 1))).2).2.invoked
      = [(42, 3)] ∧
    (Program.raw_callback 3 1
      (Program.build ⟨3, NULL⟩ none "" (.user 42) (fresh (building [0] 1))).2).2.freed
      = [1] ∧
    ((⟨3, 1⟩ : Program).destructor (Program.raw_callback 3 1
      (Program.build ⟨3, NULL⟩ none "" (.user 42) (fresh (building [0] 1))).2).2).1
      = .returned () ∧
    ((⟨3, 1⟩ : Program).destructor (Program.raw_callback 3 1
      (Program.build ⟨3, NULL⟩ none "" (.user 42) (fresh (building [0] 1))).2).2).2.freed
      = [1, 1] ∧
    (Program.raw_callback 3 1 ((⟨3, 1⟩ : Program).destructor
      (Program.build ⟨3, NULL⟩ none "" (.user 42) (fresh (building [0] 1))).2).2).2.stale_uses
      = [1] ∧
    (Program.raw_callback 3 1 ((⟨3, 1⟩ : Program).destructor
      (Program.build ⟨3, NULL⟩ none "" (.user 42) (fresh (building [0] 1))).2).2).2.freed
      = [1, 1] := by
  refine ⟨?_, ?_, ?_, ?_, ?_, ?_, ?_, ?_, ?_, ?_⟩ <;> decide

/-! ## C20: what frees the closure -/

theorem freed_checked_call (c : Call) :
    Preserves World.freed (do let r ← exec c; throw_if_failed r.status : M Unit) :=
  preserves_checked_call World.freed c (fun _ => rfl)

theorem freed_program_retain (p : Program) : Preserves World.freed p.retain :=
  freed_checked_call _

theorem freed_program_copy_construct (p : Program) :
    Preserves World.freed (Program.copy_construct p) :=
  preserves_bind World.freed _ _ (freed_program_retain _)
    (fun _ => preserves_pure World.freed _)

theorem freed_event_copy_construct (e : Event) :
    Preserves World.freed (Event.copy_construct e) :=
  preserves_bind World.freed _ _ (freed_checked_call _)
    (fun _ => preserves_pure World.freed _)

theorem freed_event_destructor (e : Event) : Preserves World.freed e.destructor :=
  preserves_noexcept World.freed _ (freed_checked_call _)

theorem freed_capture_build_event (e : Event) (p : Program) :
    Preserves World.freed (capture_build_event e p) :=
  preserves_bind World.freed _ _ (freed_event_copy_construct e)
    (fun e1 => preserves_bind World.freed _ _
      (preserves_unwind World.freed _ _ (freed_program_copy_construct p)
        (freed_event_destructor e1))
      (fun _ => preserves_pure World.freed _))

theorem freed_new_closure (callback : BuildCallback) :
    Preserves World.freed (new_closure callback) := by
  refine preserves_bind World.freed _ _ ?_ (fun _ _ => rfl)
  cases callback with
  | empty => exact preserves_pure World.freed _
  | user tag => exact preserves_pure World.freed _
  | build_event e p => exact freed_capture_build_event e p

/-- `Program::raw_build_program` frees nothing, however it ends. -/
theorem freed_raw_build_program (p : Program) (device_list : Option (List Device))
    (options : String) (callback : BuildCallback) (w : World) :
    (p.raw_build_program device_list options callback w).2.freed = w.freed := by
  have h1 : Preserves World.freed (if callback.has_target then new_closure callback
      else pure p.internal_callback_ptr : M Ident) :=
    preserves_ite World.freed _ _ _ (freed_new_closure callback)
      (preserves_pure World.freed _)
  have h1w := h1 w
  simp only [Program.raw_build_program]
  split
  · rename_i ptr w1 heq
    rw [heq] at h1w
    simp only [call_build_program_apply]
    exact h1w
  · rename_i f w1 heq
    rw [heq] at h1w
    exact h1w
  · rename_i w1 heq
    rw [heq] at h1w
    exact h1w

/-! ## What the build-event callback leaves alone -/

theorem untouched_device_construct {β : Type} (g : World → β)
    (hg : ∀ (w : World) (c : Call), g { w with log := w.log ++ [c] } = g w) (id : Ident)
    (b : Bool) : Preserves g (Device.construct id b) := by
  intro w
  by_cases hid : id = NULL
  · simp [Device.construct, hid, raise_apply]
  · cases b
    · simp [Device.construct, hid, bind_apply, pure_apply]
    · by_cases hs : (w.respond w.log (.clRetainDevice id)).status = CL_SUCCESS
      all_goals
        simp only [Device.construct, hid, if_false, if_true, bind_apply, pure_apply,
          exec_apply, throw_if_failed_apply, hs]
        exact hg w _

theorem untouched_device_destructor {β : Type} (g : World → β)
    (hg : ∀ (w : World) (c : Call), g { w with log := w.log ++ [c] } = g w) (d : Device) :
    Preserves g d.destructor :=
  preserves_noexcept _ _ (preserves_checked_call g _ (fun w => hg w _))

theorem untouched_destroy_devices {β : Type} (g : World → β)
    (hg : ∀ (w : World) (c : Call), g { w with log := w.log ++ [c] } = g w)
    (ds : List Device) : Preserves g (destroy_devices ds) := by
  induction ds with
  | nil => exact preserves_pure _ _
  | cons d rest ih =>
    exact preserves_bind _ _ _ (untouched_device_destructor g hg d) (fun _ => ih)

theorem untouched_emplace_devices {β : Type} (g : World → β)
    (hg : ∀ (w : World) (c : Call), g { w with log := w.log ++ [c] } = g w)
    (ids : List Ident) (result : List Device) :
    Preserves g (emplace_devices result ids) := by
  induction ids generalizing result with
  | nil => exact preserves_pure _ _
  | cons id rest ih =>
    exact preserves_bind _ _ _
      (preserves_unwind _ _ _ (untouched_device_construct g hg id true)
        (untouched_destroy_devices g hg result))
      (fun d => ih (result ++ [d]))

theorem untouched_program_raw_query {β : Type} (g : World → β)
    (hg : ∀ (w : World) (c : Call), g { w with log := w.log ++ [c] } = g w) (p : Program)
    (param size : Nat) (a : Bool) : Preserves g (p.raw_query param size a) := by
  intro w
  by_cases hs : (w.respond w.log (.clGetProgramInfo p.internal_id param size true a)).status
      = CL_SUCCESS
  all_goals
    simp only [Program.raw_query, bind_apply, pure_apply, exec_apply, throw_if_failed_apply,
      hs, if_true, if_false]
    exact hg w _

theorem untouched_program_raw_query_array {β : Type} (g : World → β)
    (hg : ∀ (w : World) (c : Call), g { w with log := w.log ++ [c] } = g w) (p : Program)
    (param amount size : Nat) : Preserves g (p.raw_query_array param amount size) := by
  intro w
  by_cases hs : (w.respond w.log
      (.clGetProgramInfo p.internal_id param (amount * size) true false)).status = CL_SUCCESS
  all_goals
    simp only [Program.raw_query_array, bind_apply, pure_apply, exec_apply,
      throw_if_failed_apply, hs, if_true, if_false]
    exact hg w _

theorem untouched_program_devices {β : Type} (g : World → β)
    (hg : ∀ (w : World) (c : Call), g { w with log := w.log ++ [c] } = g w) (p : Program) :
    Preserves g p.devices :=
  preserves_bind _ _ _
    (preserves_bind _ _ _ (untouched_program_raw_query g hg p _ _ _)
      (fun _ => preserves_pure _ _))
    (fun _ => preserves_bind _ _ _ (untouched_program_raw_query_array g hg p _ _ _)
      (fun ids => untouched_emplace_devices g hg ids []))

theorem untouched_program_build_status {β : Type} (g : World → β)
    (hg : ∀ (w : World) (c : Call), g { w with log := w.log ++ [c] } = g w) (p : Program)
    (d : Device) : Preserves g (p.build_status d) := by
  intro w
  by_cases hs : (w.respond w.log (build_status_query p.internal_id d.raw_identifier)).status
      = CL_SUCCESS
  all_goals
    simp only [build_status_query] at hs
    simp only [Program.build_status, Program.raw_build_info_query, bind_apply, pure_apply,
      exec_apply, throw_if_failed_apply, hs, if_true, if_false]
    exact hg w _

theorem untouched_set_status {β : Type} (g : World → β)
    (hg : ∀ (w : World) (c : Call), g { w with log := w.log ++ [c] } = g w) (e : Event)
    (st : Int) : Preserves g (e.set_status st) :=
  preserves_checked_call g _ (fun w => hg w _)

theorem untouched_check_devices {β : Type} (g : World → β)
    (hg : ∀ (w : World) (c : Call), g { w with log := w.log ++ [c] } = g w) (ev : Event)
    (p : Program) (ds : List Device) : Preserves g (check_devices ev p ds) := by
  induction ds with
  | nil => exact preserves_pure _ _
  | cons d rest ih =>
    exact preserves_bind _ _ _ (untouched_program_build_status g hg p d)
      (fun _ => preserves_ite _ _ _ _ ih
        (preserves_ite _ _ _ _
          (preserves_bind _ _ _ (untouched_set_status g hg ev _) (fun _ => preserves_pure _ _))
          (preserves_raise _ _)))

/-- Whatever the executor answers, a run of the build-event callback changes nothing of
the world but the log. -/
theorem untouched_build_event_callback {β : Type} (g : World → β)
    (hg : ∀ (w : World) (c : Call), g { w with log := w.log ++ [c] } = g w) (ev : Event)
    (p : Program) (unused : Ident) : Preserves g (build_event_callback ev p unused) :=
  preserves_bind _ _ _ (untouched_program_devices g hg p)
    (fun ds => preserves_scope_exit _ _ _
      (preserves_bind _ _ _ (untouched_check_devices g hg ev p ds)
        (fun _ => preserves_ite _ _ _ _ (untouched_set_status g hg ev _)
          (preserves_pure _ _)))
      (untouched_destroy_devices g hg ds))

/-- Calling a closure frees nothing and leaves the heap as it is. -/
theorem untouched_invoke (c : BuildCallback) (program : Ident) :
    Preserves (fun w : World => (w.freed, w.heap)) (c.invoke program) := by
  cases c with
  | empty => exact preserves_raise _ _
  | user tag => exact fun _ => rfl
  | build_event e p =>
    exact untouched_build_event_callback (fun w : World => (w.freed, w.heap))
      (fun _ _ => rfl) e p program

/-- Copying a closure frees nothing and leaves the heap as it is. -/
theorem untouched_closure_copy (c : BuildCallback) :
    Preserves (fun w : World => (w.freed, w.heap)) c.copy_construct := by
  cases c with
  | empty => exact preserves_pure _ _
  | user tag => exact preserves_pure _ _
  | build_event e p =>
    exact preserves_bind _ _ _
      (preserves_bind _ _ _ (preserves_checked_call _ _ (fun _ => rfl))
        (fun _ => preserves_pure _ _))
      (fun e1 => preserves_bind _ _ _
        (preserves_unwind _ _ _
          (preserves_bind _ _ _ (preserves_checked_call _ _ (fun _ => rfl))
            (fun _ => preserves_pure _ _))
          (preserves_noexcept _ _ (preserves_checked_call _ _ (fun _ => rfl))))
        (fun _ => preserves_pure _ _))

theorem unwind_returned {α : Type} (body : M α) (cleanup : M Unit) (w : World) (a : α)
    (h : (unwind body cleanup w).1 = .returned a) : (body w).1 = .returned a := by
  rw [unwind_apply] at h
  split at h
  · split at h
    · exact h
    · simp at h
  · exact h

theorem event_copy_value (e e1 : Event) (w : World)
    (h : (Event.copy_construct e w).1 = .returned e1) : e1 = e := by
  rw [event_copy_construct_apply] at h
  split at h <;> simp at h
  exact h.symm

theorem program_copy_value (p p1 : Program) (w : World)
    (h : (Program.copy_construct p w).1 = .returned p1) : p1 = p := by
  rw [program_copy_construct_apply] at h
  split at h <;> simp at h
  exact h.symm

/-- A copy of a closure holds what the closure holds. -/
theorem closure_copy_value (c a : BuildCallback) (w : World)
    (h : (c.copy_construct w).1 = .returned a) : a = c := by
  cases c with
  | empty =>
    simp [BuildCallback.copy_construct, pure_apply] at h
    exact h.symm
  | user tag =>
    simp [BuildCallback.copy_construct, pure_apply] at h
    exact h.symm
  | build_event e p =>
    simp only [BuildCallback.copy_construct, capture_build_event, bind_apply] at h
    rcases h1 : Event.copy_construct e w with ⟨o1, w1⟩
    rw [h1] at h
    cases o1 with
    | raised f => simp at h
    | terminated => simp at h
    | returned e1 =>
      have he1 := event_copy_value e e1 w (by rw [h1])
      simp only at h
      rcases h2 : unwind (Program.copy_construct p) e1.destructor w1 with ⟨o2, w2⟩
      rw [h2] at h
      cases o2 with
      | raised f => simp at h
      | terminated => simp at h
      | returned p1 =>
        have hp1 := program_copy_value p p1 w1
          (unwind_returned _ _ w1 p1 (by rw [h2]))
        simp [pure_apply] at h
        rw [← h, he1, hp1]

/-- A `delete` of a closure that returns has given back the storage behind the
pointer. -/
theorem delete_closure_frees (ptr : Ident) (w : World) (hptr : ptr ≠ NULL)
    (h : (delete_closure ptr w).1 = .returned ()) : ptr ∈ (delete_closure ptr w).2.freed := by
  unfold delete_closure at h ⊢
  cases hn : w.heap.length with
  | zero =>
    simp [delete_closure_within, hptr, delete]
  | succ n =>
    rw [hn] at h
    show ptr ∈ (delete_closure_within (n + 1) ptr w).2.freed
    by_cases hf : ptr ∈ w.freed
    · simp [delete_closure_within, hptr, hf, delete]
    · rcases hc : w.heap[ptr - 1]? with _ | c
      · simp [delete_closure_within, hptr, hf, hc, delete]
      · simp only [delete_closure_within, hptr, hf, hc, if_false, bind_apply] at h ⊢
        split
        · simp [delete]
        · rename_i heq
          rw [heq] at h
          simp at h
        · rename_i heq
          rw [heq] at h
          simp at h

/-- What `raw_callback` does on a pointer to a closure that is alive. -/
theorem raw_callback_apply (program ptr : Ident) (c : BuildCallback) (w : World)
    (hptr : ptr ≠ NULL) (hlive : w.heap[ptr - 1]? = some c) (hfresh : ptr ∉ w.freed) :
    Program.raw_callback program ptr w
      = (c.copy_construct >>= fun a =>
          scope_exit (a.invoke program >>= fun _ => delete_closure ptr) a.destructor) w := by
  simp [Program.raw_callback, bind_apply, dereference, hptr, hlive, hfresh]

/-- A scope returns only when its body returned. -/
theorem scope_exit_returns {α : Type} (body : M α) (cleanup : M Unit) (w : World) (a : α)
    (h : (scope_exit body cleanup w).1 = .returned a) : (body w).1 = .returned a := by
  rw [scope_exit_apply] at h
  split at h
  · simp at h
  · split at h
    · exact h
    · simp at h

/-- The world a scope leaves is the one its body left, seen through the destructors. -/
theorem scope_exit_world {α : Type} (body : M α) (cleanup : M Unit) (w : World) :
    (scope_exit body cleanup w).2 = (body w).2 ∨
    (scope_exit body cleanup w).2 = (cleanup (body w).2).2 := by
  rw [scope_exit_apply]
  split
  · exact Or.inl rfl
  · right
    simp [noexcept_apply]

/-- What was freed stays freed under a computation that only appends. -/
theorem frame_keeps_freed {α : Type} (good : Call → Bool) (m : M α) (hm : Frame good m)
    (w : World) (x : Ident) (hx : x ∈ w.freed) : x ∈ (m w).2.freed := by
  obtain ⟨L, F, h, _⟩ := hm w
  rw [h]
  exact List.mem_append_left _ hx

/-- The destructor of a closure whose captured program registered no closure frees
nothing. -/
theorem closure_destructor_frees_nothing (c : BuildCallback)
    (hc : ∀ e q, c = .build_event e q → q.internal_callback_ptr = NULL) :
    Preserves World.freed c.destructor := by
  cases c with
  | empty => exact fun _ => rfl
  | user tag => exact fun _ => rfl
  | build_event e q =>
    have hq := hc e q rfl
    intro w
    show ((do q.destructor; e.destructor : M Unit) w).2.freed = w.freed
    refine preserves_bind World.freed _ _ ?_ (fun _ => freed_event_destructor e) w
    intro w1
    rw [program_destructor_apply]
    simp only [hq, bne_self_eq_false, Bool.and_false, Bool.false_eq_true, if_false]
    split
    · split <;> rfl
    · rfl

/-- A `raw_callback` that returns has freed the closure. -/
theorem raw_callback_returns_frees (program ptr : Ident) (c : BuildCallback) (w : World)
    (hptr : ptr ≠ NULL) (hlive : w.heap[ptr - 1]? = some c) (hfresh : ptr ∉ w.freed)
    (h : (Program.raw_callback program ptr w).1 = .returned ()) :
    ptr ∈ (Program.raw_callback program ptr w).2.freed := by
  rw [raw_callback_apply program ptr c w hptr hlive hfresh] at h ⊢
  rw [bind_apply] at h ⊢
  rcases hcopy : c.copy_construct w with ⟨o, w1⟩
  rw [hcopy] at h
  cases o with
  | raised f => simp at h
  | terminated => simp at h
  | returned a =>
    simp only at h ⊢
    have hb := scope_exit_returns _ _ w1 () h
    have hmem : ptr ∈ ((a.invoke program >>= fun _ => delete_closure ptr) w1).2.freed := by
      rw [bind_apply] at hb ⊢
      rcases hinv : a.invoke program w1 with ⟨o2, w2⟩
      rw [hinv] at hb
      cases o2 with
      | raised f => simp at hb
      | terminated => simp at hb
      | returned u => exact delete_closure_frees ptr w2 hptr hb
    rcases scope_exit_world (a.invoke program >>= fun _ => delete_closure ptr)
      a.destructor w1 with hw | hw
    · rw [hw]
      exact hmem
    · rw [hw]
      exact frame_keeps_freed _ _ (frame_closure_destructor a) _ ptr hmem

/-- When the copy of the closure throws, `raw_callback` does not reach its `delete`. -/
theorem raw_callback_copy_fails (program ptr : Ident) (c : BuildCallback) (w : World)
    (hptr : ptr ≠ NULL) (hlive : w.heap[ptr - 1]? = some c) (hfresh : ptr ∉ w.freed)
    (h : (c.copy_construct w).1 ≠ .returned c) :
    (Program.raw_callback program ptr w).1 ≠ .returned () ∧
    (Program.raw_callback program ptr w).2.freed = w.freed := by
  rw [raw_callback_apply program ptr c w hptr hlive hfresh, bind_apply]
  have hv := closure_copy_value c
  have hp := untouched_closure_copy c w
  rcases hcopy : c.copy_construct w with ⟨o, w1⟩
  rw [hcopy] at h hp
  cases o with
  | raised f => exact ⟨by simp, congrArg Prod.fst hp⟩
  | terminated => exact ⟨by simp, congrArg Prod.fst hp⟩
  | returned a =>
    exact absurd (congrArg Outcome.returned (hv a w (by rw [hcopy]))) h

/-- When the invocation of the copy does not return, `raw_callback` does not reach its
`delete`: the copy is destroyed and the exception goes on. -/
theorem raw_callback_invoke_fails (program ptr : Ident) (c : BuildCallback) (w : World)
    (hptr : ptr ≠ NULL) (hlive : w.heap[ptr - 1]? = some c) (hfresh : ptr ∉ w.freed)
    (hcopy : (c.copy_construct w).1 = .returned c)
    (h : (c.invoke program (c.copy_construct w).2).1 ≠ .returned ()) :
    (Program.raw_callback program ptr w).1 ≠ .returned () ∧
    Program.raw_callback program ptr w
      = scope_exit (c.invoke program) c.destructor (c.copy_construct w).2 ∧
    ((∀ e q, c = .build_event e q → q.internal_callback_ptr = NULL) →
      (Program.raw_callback program ptr w).2.freed = w.freed) := by
  have heq : Program.raw_callback program ptr w
      = scope_exit (c.invoke program) c.destructor (c.copy_construct w).2 := by
    rw [raw_callback_apply program ptr c w hptr hlive hfresh, bind_apply]
    rcases hc : c.copy_construct w with ⟨o, w1⟩
    rw [hc] at hcopy h
    simp only at hcopy h
    subst hcopy
    simp only
    rw [scope_exit_apply, scope_exit_apply, bind_apply]
    rcases hinv : c.invoke program w1 with ⟨o2, w2⟩
    rw [hinv] at h
    cases o2 with
    | returned u => exact absurd rfl h
    | raised f => rfl
    | terminated => rfl
  refine ⟨?_, heq, ?_⟩
  · rw [heq]
    intro hr
    exact h (scope_exit_returns _ _ _ () hr)
  · intro hnull
    rw [heq]
    have h1 := preserves_scope_exit World.freed (c.invoke program) c.destructor
      (fun w1 => congrArg Prod.fst (untouched_invoke c program w1))
      (closure_destructor_frees_nothing c hnull) (c.copy_construct w).2
    exact h1.trans (congrArg Prod.fst (untouched_closure_copy c w))

/-- When the invocation of the copy returns, `raw_callback` deletes the closure and then
destroys the copy. -/
theorem raw_callback_invoke_returns (program ptr : Ident) (c : BuildCallback) (w : World)
    (hptr : ptr ≠ NULL) (hlive : w.heap[ptr - 1]? = some c) (hfresh : ptr ∉ w.freed)
    (hcopy : (c.copy_construct w).1 = .returned c)
    (h : (c.invoke program (c.copy_construct w).2).1 = .returned ()) :
    Program.raw_callback program ptr w
      = scope_exit (delete_closure ptr) c.destructor
          (c.invoke program (c.copy_construct w).2).2 ∧
    (c.invoke program (c.copy_construct w).2).2.freed = w.freed ∧
    (c.invoke program (c.copy_construct w).2).2.heap = w.heap := by
  refine ⟨?_, ?_, ?_⟩
  · rw [raw_callback_apply program ptr c w hptr hlive hfresh, bind_apply]
    rcases hc : c.copy_construct w with ⟨o, w1⟩
    rw [hc] at hcopy h
    simp only at hcopy h
    subst hcopy
    simp only
    rw [scope_exit_apply, scope_exit_apply, bind_apply]
    rcases hinv : c.invoke program w1 with ⟨o2, w2⟩
    rw [hinv] at h
    simp only at h
    subst h
    rfl
  · exact (congrArg Prod.fst (untouched_invoke c program _)).trans
      (congrArg Prod.fst (untouched_closure_copy c w))
  · exact (congrArg Prod.snd (untouched_invoke c program _)).trans
      (congrArg Prod.snd (untouched_closure_copy c w))

/-- What `Program::release` frees: nothing unless it was the last reference of a handle
with a closure; then it runs the `delete` of the closure. -/
theorem release_frees (p : Program) (w : World) :
    (¬ ((w.respond w.log (reference_count_query p)).status = CL_SUCCESS ∧
        (w.respond (w.log ++ [reference_count_query p])
          (.clReleaseProgram p.internal_id)).status = CL_SUCCESS ∧
        (w.respond w.log (reference_count_query p)).value % 2 ^ 32 = 1 ∧
        p.internal_callback_ptr ≠ NULL) →
      (p.release w).2.freed = w.freed) ∧
    (((w.respond w.log (reference_count_query p)).status = CL_SUCCESS ∧
        (w.respond (w.log ++ [reference_count_query p])
          (.clReleaseProgram p.internal_id)).status = CL_SUCCESS ∧
        (w.respond w.log (reference_count_query p)).value % 2 ^ 32 = 1 ∧
        p.internal_callback_ptr ≠ NULL) →
      p.release w = delete_closure p.internal_callback_ptr { w with
          log := w.log ++ [reference_count_query p, .clReleaseProgram p.internal_id] } ∧
      ((p.release w).1 = .returned () →
        p.internal_callback_ptr ∈ (p.release w).2.freed)) := by
  constructor
  · intro hn
    rw [program_release_apply]
    simp only [Nat.reducePow] at hn ⊢
    by_cases h : (w.respond w.log (reference_count_query p)).status = CL_SUCCESS
    · by_cases h2 : (w.respond (w.log ++ [reference_count_query p])
          (.clReleaseProgram p.internal_id)).status = CL_SUCCESS
      · by_cases h3 : (w.respond w.log (reference_count_query p)).value % 4294967296 = 1
        · by_cases h4 : p.internal_callback_ptr = NULL
          · simp [h, h2, h3, h4]
          · exact absurd ⟨h, h2, h3, h4⟩ hn
        · simp [h, h2, h3]
      · simp [h, h2]
    · simp [h]
  · rintro ⟨h, h2, h3, h4⟩
    have heq : p.release w = delete_closure p.internal_callback_ptr { w with
        log := w.log ++ [reference_count_query p, .clReleaseProgram p.internal_id] } := by
      rw [program_release_apply]
      simp only [Nat.reducePow] at h3 ⊢
      simp [h, h2, h3, h4]
    refine ⟨heq, ?_⟩
    rw [heq]
    exact delete_closure_frees _ _ h4

/-- C20, as stated, fails: `raw_callback` frees the closure.  On an executor that reports
the reference count `2` a build with a user callback is submitted and the executor calls
`raw_callback`: the closure is freed although no `release` has run, the only call in the
log being the build call. -/
theorem raw_callback_frees_the_closure :
    (Program.build ⟨3, NULL⟩ none "" (.user 42) (fresh (building [0] 2))).2.freed = [] ∧
    (Program.raw_callback 3 1
      (Program.build ⟨3, NULL⟩ none "" (.user 42) (fresh (building [0] 2))).2).1
      = .returned () ∧
    (Program.raw_callback 3 1
      (Program.build ⟨3, NULL⟩ none "" (.user 42) (fresh (building [0] 2))).2).2.freed
      = [1] ∧
    (Program.raw_callback 3 1
      (Program.build ⟨3, NULL⟩ none "" (.user 42) (fresh (building [0] 2))).2).2.log
      = [.clBuildProgram 3 0 none "" true 1] := by
  refine ⟨?_, ?_, ?_, ?_⟩ <;> decide

/-- C20, amended: two operations free the closure of a program, each by the `delete`
of the closure, which runs the destructor of the closure and then gives back its
storage.  `raw_callback`, given the pointer to a live closure of any kind, copies the
closure and invokes the copy on the program, whatever the reference count is.  When
the copy throws, nothing is freed.  When the invocation does not return, the `delete` is
not reached: `raw_callback` ends as the scope that invokes and destroys the copy ends,
it does not return, and nothing is freed when the program captured by the closure
registered no closure.  When the invocation returns, `raw_callback` runs the `delete` of
the closure and destroys the copy; if it returns, the closure has been freed.
`Program::release` frees nothing unless its reference-count query and its release call
succeeded, the count read was `1` and the pointer is not null; then it continues as the
`delete` of the closure the handle points to, and if it returns that closure has been
freed.  `retain`, the copy constructor and `raw_build_program` free nothing. -/
theorem closure_freed_by_callback_or_last_release (p : Program) (program ptr : Ident)
    (c : BuildCallback) (w : World) (hptr : ptr ≠ NULL)
    (hlive : w.heap[ptr - 1]? = some c) (hfresh : ptr ∉ w.freed) :
    ((Program.raw_callback program ptr w).1 = .returned () →
      ptr ∈ (Program.raw_callback program ptr w).2.freed) ∧
    ((c.copy_construct w).1 ≠ .returned c →
      (Program.raw_callback program ptr w).1 ≠ .returned () ∧
      (Program.raw_callback program ptr w).2.freed = w.freed) ∧
    ((c.copy_construct w).1 = .returned c →
      (c.invoke program (c.copy_construct w).2).1 ≠ .returned () →
      (Program.raw_callback program ptr w).1 ≠ .returned () ∧
      Program.raw_callback program ptr w
        = scope_exit (c.invoke program) c.destructor (c.copy_construct w).2 ∧
      ((∀ e q, c = .build_event e q → q.internal_callback_ptr = NULL) →
        (Program.raw_callback program ptr w).2.freed = w.freed)) ∧
    ((c.copy_construct w).1 = .returned c →
      (c.invoke program (c.copy_construct w).2).1 = .returned () →
      Program.raw_callback program ptr w
        = scope_exit (delete_closure ptr) c.destructor
            (c.invoke program (c.copy_construct w).2).2 ∧
      (c.invoke program (c.copy_construct w).2).2.freed = w.freed ∧
      (c.invoke program (c.copy_construct w).2).2.heap = w.heap) ∧
    (¬ ((w.respond w.log (reference_count_query p)).status = CL_SUCCESS ∧
        (w.respond (w.log ++ [reference_count_query p])
          (.clReleaseProgram p.internal_id)).status = CL_SUCCESS ∧
        (w.respond w.log (reference_count_query p)).value % 2 ^ 32 = 1 ∧
        p.internal_callback_ptr ≠ NULL) →
      (p.release w).2.freed = w.freed) ∧
    (((w.respond w.log (reference_count_query p)).status = CL_SUCCESS ∧
        (w.respond (w.log ++ [reference_count_query p])
          (.clReleaseProgram p.internal_id)).status = CL_SUCCESS ∧
        (w.respond w.log (reference_count_query p)).value % 2 ^ 32 = 1 ∧
        p.internal_callback_ptr ≠ NULL) →
      p.release w = delete_closure p.internal_callback_ptr { w with
          log := w.log ++ [reference_count_query p, .clReleaseProgram p.internal_id] } ∧
      ((p.release w).1 = .returned () →
        p.internal_callback_ptr ∈ (p.release w).2.freed)) ∧
    (p.retain w).2.freed = w.freed ∧
    (Program.copy_construct p w).2.freed = w.freed ∧
    (∀ (device_list : Option (List Device)) (options : String) (callback : BuildCallback),
      (p.raw_build_program device_list options callback w).2.freed = w.freed) :=
  ⟨raw_callback_returns_frees program ptr c w hptr hlive hfresh,
    raw_callback_copy_fails program ptr c w hptr hlive hfresh,
    raw_callback_invoke_fails program ptr c w hptr hlive hfresh,
    raw_callback_invoke_returns program ptr c w hptr hlive hfresh,
    (release_frees p w).1, (release_frees p w).2,
    freed_program_retain p w, freed_program_copy_construct p w,
    fun dl o cb => freed_raw_build_program p dl o cb w⟩

/-- Witness for C20, on the closure that `build_with_event` registers for program `1`
(pointer `1`, a closure of the build bridge holding event `7` and a handle on the
program).  When every device reports success the callback returns and the closure is
freed, after the calls of the callback, of the destructor of the closure and of the
destructor of the copy.  When the device reports `CL_BUILD_NONE` the callback throws
`UnsupportedBuildStatus` and nothing is freed. -/
theorem closure_freed_by_callback_or_last_release_witness :
    (1 : Ident) ∈ (Program.raw_callback 1 1
      (Program.build_with_event ⟨1, NULL⟩ none "" (fresh (building [0] 2))).2).2.freed ∧
    (Program.raw_callback 1 1
      (Program.build_with_event ⟨1, NULL⟩ none "" (fresh (building [0] 2))).2).2.freed
      = [1] ∧
    (Program.raw_callback 1 1
      (Program.build_with_event ⟨1, NULL⟩ none ""
        (fresh (building [CL_BUILD_NONE] 2))).2).1
      = .raised .UnsupportedBuildStatus ∧
    (Program.raw_callback 1 1
      (Program.build_with_event ⟨1, NULL⟩ none ""
        (fresh (building [CL_BUILD_NONE] 2))).2).2.freed
      = [] :=
  ⟨(closure_freed_by_callback_or_last_release ⟨1, NULL⟩ 1 1 (.build_event ⟨7⟩ ⟨1, NULL⟩)
      (Program.build_with_event ⟨1, NULL⟩ none "" (fresh (building [0] 2))).2
      (by decide) (by decide) (by decide)).1 (by decide!),
    by decide!, by decide!, by decide!⟩

/-! ## C21: copy assignment when the retain fails -/

/-- C21 fails in the code.  `operator=` of `Program` and of `CommandQueue` overwrites the
members of the handle before it calls `retain`: whatever the executor answers, the
handle holds the identifier (and the callback pointer) of the source afterwards, also
when the retain fails and the assignment throws.  At the failing input, with handles on
`1` and `2` and an executor that refuses retains, the assigned-to handle holds `2`
without owning a reference to it; its destruction releases `2`, never `1`, and when the
count read is `1` it also frees the closure `6` of the source. -/
theorem failed_assignment_overwrites_handle (self source : Program)
    (queue queue_source : CommandQueue) (w : World) :
    (Program.operator_assign self source w).1.2
      = { internal_id := source.internal_id,
          internal_callback_ptr := source.internal_callback_ptr } ∧
    ((w.respond w.log (.clRetainProgram source.internal_id)).status ≠ CL_SUCCESS →
      (Program.operator_assign self source w).1.1 = .raised (.ExecutorError
        (w.respond w.log (.clRetainProgram source.internal_id)).status)) ∧
    (CommandQueue.operator_assign queue queue_source w).1.2
      = { internal_id := queue_source.internal_id } ∧
    ((w.respond w.log (.clRetainCommandQueue queue_source.internal_id)).status
        ≠ CL_SUCCESS →
      (CommandQueue.operator_assign queue queue_source w).1.1 = .raised (.ExecutorError
        (w.respond w.log (.clRetainCommandQueue queue_source.internal_id)).status)) ∧
    (Program.operator_assign ⟨1, 4⟩ ⟨2, 6⟩ (fresh (refusing_retain (-5) 2))).1
      = (.raised (.ExecutorError (-5)), ⟨2, 6⟩) ∧
    ((⟨2, 6⟩ : Program).destructor
        (Program.operator_assign ⟨1, 4⟩ ⟨2, 6⟩ (fresh (refusing_retain (-5) 2))).2).2.log
      = [.clRetainProgram 2, reference_count_query ⟨2, 6⟩, .clReleaseProgram 2] ∧
    ((⟨2, 6⟩ : Program).destructor
        (Program.operator_assign ⟨1, 4⟩ ⟨2, 6⟩ (fresh (refusing_retain (-5) 1))).2).2.freed
      = [6] ∧
    (CommandQueue.operator_assign ⟨1⟩ ⟨2⟩ (fresh (refusing_retain (-5) 2))).1
      = (.raised (.ExecutorError (-5)), ⟨2⟩) ∧
    ((⟨2⟩ : CommandQueue).destructor
        (CommandQueue.operator_assign ⟨1⟩ ⟨2⟩ (fresh (refusing_retain (-5) 2))).2).2.log
      = [.clRetainCommandQueue 2, .clReleaseCommandQueue 2] := by
  refine ⟨rfl, ?_, rfl, ?_, by decide, by decide, by decide, by decide, by decide⟩
  · intro h
    simp [Program.operator_assign, Program.copy_internal_data, program_retain_apply, h]
  · intro h
    simp [CommandQueue.operator_assign, queue_retain_apply, h]

/-! ## C23: the reference argument of the map operations -/

/-- C23: `enqueue_map_buffer` and `enqueued_map_buffer` write `future_result` only when
the map call of the executor succeeds.  When the call reports a failure code the
operation throws the typed failure for that code and `future_result` keeps the value it
had before the call; when the call succeeds `future_result` is the pointer the executor
returned. -/
theorem future_result_written_only_on_success (self : CommandQueue) (buffer : Buffer)
    (offset size map_flags : Nat) (event_wait_list : EventWaitList) (future_result : Ident)
    (w : World) :
    ((w.respond w.log (.clEnqueueMapBuffer self.internal_id buffer.raw_identifier false
        map_flags offset size event_wait_list.length (wait_array event_wait_list)
        false)).status ≠ CL_SUCCESS →
      (self.enqueue_map_buffer buffer offset size map_flags event_wait_list future_result
        w).1 = (.raised (.ExecutorError (w.respond w.log (.clEnqueueMapBuffer
          self.internal_id buffer.raw_identifier false map_flags offset size
          event_wait_list.length (wait_array event_wait_list) false)).status),
        future_result)) ∧
    ((w.respond w.log (.clEnqueueMapBuffer self.internal_id buffer.raw_identifier false
        map_flags offset size event_wait_list.length (wait_array event_wait_list)
        false)).status = CL_SUCCESS →
      (self.enqueue_map_buffer buffer offset size map_flags event_wait_list future_result
        w).1 = (.returned (), (w.respond w.log (.clEnqueueMapBuffer
          self.internal_id buffer.raw_identifier false map_flags offset size
          event_wait_list.length (wait_array event_wait_list) false)).result)) ∧
    ((w.respond w.log (.clEnqueueMapBuffer self.internal_id buffer.raw_identifier false
        map_flags offset size event_wait_list.length (wait_array event_wait_list)
        true)).status ≠ CL_SUCCESS →
      (self.enqueued_map_buffer buffer offset size map_flags event_wait_list future_result
        w).1 = (.raised (.ExecutorError (w.respond w.log (.clEnqueueMapBuffer
          self.internal_id buffer.raw_identifier false map_flags offset size
          event_wait_list.length (wait_array event_wait_list) true)).status),
        future_result)) ∧
    ((w.respond w.log (.clEnqueueMapBuffer self.internal_id buffer.raw_identifier false
        map_flags offset size event_wait_list.length (wait_array event_wait_list)
        true)).status = CL_SUCCESS →
      (self.enqueued_map_buffer buffer offset size map_flags event_wait_list future_result
        w).1.2 = (w.respond w.log (.clEnqueueMapBuffer
          self.internal_id buffer.raw_identifier false map_flags offset size
          event_wait_list.length (wait_array event_wait_list) true)).result) := by
  refine ⟨?_, ?_, ?_, ?_⟩
  · intro h
    simp only [CommandQueue.enqueue_map_buffer, raw_map_buffer_apply, h, if_false]
  · intro h
    simp only [CommandQueue.enqueue_map_buffer, raw_map_buffer_apply, h, if_true]
  · intro h
    simp only [CommandQueue.enqueued_map_buffer, raw_map_buffer_apply, h, if_false]
  · intro h
    simp only [CommandQueue.enqueued_map_buffer, raw_map_buffer_apply, h, if_true]

/-! ## C24: the report of the command-queue example -/

/-- C24 fails in the code.  For every value of the queue properties the example prints
the ordering mode the wrong way round: its report of the ordering differs from the one
the specification words, "in-order" being printed exactly when
`CL_QUEUE_OUT_OF_ORDER_EXEC_MODE_ENABLE` is set; the report of profiling is as
specified.  For the queue the example creates, with out-of-order execution enabled, it
prints "in-order". -/
theorem ordering_mode_reported_inverted (queue_properties : Nat) :
    report_ordering queue_properties ≠ specified_report_ordering queue_properties ∧
    (report_ordering queue_properties
        = [.text "Command execution will be performed ", .text "in-order", .endl]
      ↔ queue_properties &&& CL_QUEUE_OUT_OF_ORDER_EXEC_MODE_ENABLE ≠ 0) ∧
    report_profiling queue_properties = specified_report_profiling queue_properties ∧
    report_queue_properties CL_QUEUE_OUT_OF_ORDER_EXEC_MODE_ENABLE
      = [.text "Command execution will be performed ", .text "in-order", .endl,
          .text "Command profiling is ", .text "disabled", .endl] ∧
    report_queue_properties 0
      = [.text "Command execution will be performed ", .text "out-of-order", .endl,
          .text "Command profiling is ", .text "disabled", .endl] := by
  refine ⟨?_, ?_, ?_, by decide, by decide⟩
  · by_cases h : queue_properties &&& CL_QUEUE_OUT_OF_ORDER_EXEC_MODE_ENABLE = 0
    · simp only [report_ordering, specified_report_ordering, h, ne_eq, not_true,
        if_false]
      decide
    · simp only [report_ordering, specified_report_ordering, h, ne_eq, not_false_eq_true,
        if_true]
      decide
  · by_cases h : queue_properties &&& CL_QUEUE_OUT_OF_ORDER_EXEC_MODE_ENABLE = 0
    · simp only [report_ordering, h, ne_eq, not_true, if_false, iff_false]
      decide
    · simp only [report_ordering, h, ne_eq, not_false_eq_true, if_true, iff_true]
      decide
  · by_cases h : queue_properties &&& CL_QUEUE_PROFILING_ENABLE = 0
    · simp only [report_profiling, specified_report_profiling, h, ne_eq, not_true,
        if_false]
      decide
    · simp only [report_profiling, specified_report_profiling, h, ne_eq,
        not_false_eq_true, if_true]
      decide

/-! ## Runs that return and free nothing -/

theorem quiet_of_steps {α : Type} {R : List Call → Call → Reply} {m : M α}
    {base : List Call} {heap : List BuildCallback} {Ls : List Call}
    {Hs : List BuildCallback} {v : α} {Lf : List Call} {Hf : List BuildCallback}
    (h : Steps R m base heap Ls Hs v Lf Hf) (hp : Preserves World.freed m) :
    QuietSteps R m base heap Ls Hs v Lf Hf := by
  intro w hR hl hh
  obtain ⟨w1, e1, r1, l1, p1⟩ := h w hR hl hh
  have hf := hp w
  rw [e1] at hf
  exact ⟨w1, e1, r1, l1, p1, hf⟩

theorem quiet_steps_bind {α β : Type} {R : List Call → Call → Reply} {m : M α}
    {f : α → M β} {base : List Call} {heap : List BuildCallback} {Ls : List Call}
    {Hs : List BuildCallback} {a : α} {b : β} {L1 L2 : List Call}
    {H1 H2 : List BuildCallback} (h1 : QuietSteps R m base heap Ls Hs a L1 H1)
    (h2 : QuietSteps R (f a) base heap L1 H1 b L2 H2) :
    QuietSteps R (m >>= f) base heap Ls Hs b L2 H2 := by
  intro w hR hl hh
  obtain ⟨w1, e1, r1, l1, p1, f1⟩ := h1 w hR hl hh
  obtain ⟨w2, e2, r2, l2, p2, f2⟩ := h2 w1 r1 l1 p1
  refine ⟨w2, ?_, r2, l2, p2, f2.trans f1⟩
  rw [bind_apply, e1]
  exact e2

theorem quiet_steps_scope_exit {α : Type} {R : List Call → Call → Reply} {body : M α}
    {cleanup : M Unit} {base : List Call} {heap : List BuildCallback} {Ls : List Call}
    {Hs : List BuildCallback} {a : α} {L1 L2 : List Call} {H1 H2 : List BuildCallback}
    (h1 : QuietSteps R body base heap Ls Hs a L1 H1)
    (h2 : QuietSteps R cleanup base heap L1 H1 () L2 H2) :
    QuietSteps R (scope_exit body cleanup) base heap Ls Hs a L2 H2 := by
  intro w hR hl hh
  obtain ⟨w1, e1, r1, l1, p1, f1⟩ := h1 w hR hl hh
  obtain ⟨w2, e2, r2, l2, p2, f2⟩ := h2 w1 r1 l1 p1
  refine ⟨w2, ?_, r2, l2, p2, f2.trans f1⟩
  rw [scope_exit_apply, e1, noexcept_apply, e2]
  simp [Outcome.isTerminated, Outcome.isReturned, Outcome.isRaised]

theorem quiet_steps_unwind {α : Type} {R : List Call → Call → Reply} {body : M α}
    {cleanup : M Unit} {base : List Call} {heap : List BuildCallback} {Ls : List Call}
    {Hs : List BuildCallback} {a : α} {L : List Call} {H : List BuildCallback}
    (h : QuietSteps R body base heap Ls Hs a L H) :
    QuietSteps R (unwind body cleanup) base heap Ls Hs a L H := by
  intro w hR hl hh
  obtain ⟨w1, e1, r1, l1, p1, f1⟩ := h w hR hl hh
  refine ⟨w1, ?_, r1, l1, p1, f1⟩
  rw [unwind_apply, e1]
  simp [Outcome.isRaised]

/-- The destructor of a `Program` handle on an executor whose calls succeed, when the
count read is not `1`: one query and one release, and nothing is freed. -/
theorem quiet_steps_program_destructor {R : List Call → Call → Reply} {p : Program}
    {base : List Call} {heap : List BuildCallback} {Ls : List Call}
    {Hs : List BuildCallback}
    (hq : (R (base ++ Ls) (reference_count_query p)).status = CL_SUCCESS)
    (hc : (R (base ++ Ls ++ [reference_count_query p])
      (.clReleaseProgram p.internal_id)).status = CL_SUCCESS)
    (hne : (R (base ++ Ls) (reference_count_query p)).value % 2 ^ 32 ≠ 1) :
    QuietSteps R p.destructor base heap Ls Hs ()
      (Ls ++ [reference_count_query p, .clReleaseProgram p.internal_id]) Hs := by
  intro w hR hl hh
  have hcond : ((R (base ++ Ls) (reference_count_query p)).value % 2 ^ 32 == 1
      && p.internal_callback_ptr != NULL) = false := by
    simp only [Nat.reducePow] at hne ⊢
    simp [hne]
  rw [program_destructor_apply, hR, hl, hq, hc, hcond]
  simp only [if_true, Bool.false_eq_true, if_false]
  exact ⟨_, rfl, rfl, by simp, hh, rfl⟩

theorem freed_context_construct (id : Ident) (hid : id ≠ NULL) :
    Preserves World.freed (Context.construct id true) := by
  intro w
  rw [context_construct_apply id hid]

theorem freed_create_user_event (c : Context) :
    Preserves World.freed c.create_user_event := by
  intro w
  rw [create_user_event_apply]

theorem freed_raw_context_id (p : Program) : Preserves World.freed p.raw_context_id := by
  intro w
  rw [program_raw_context_id_apply]

theorem freed_context_destructor (c : Context) : Preserves World.freed c.destructor :=
  preserves_noexcept World.freed _ (freed_checked_call _)

theorem quiet_steps_closure_destructor {R : List Call → Call → Reply} {e : Event}
    {p : Program} {base : List Call} {heap : List BuildCallback} {Ls : List Call}
    {Hs : List BuildCallback}
    (hok : ∀ log c, c.is_build = false → (R log c).status = CL_SUCCESS)
    (hne : (R (base ++ Ls) (reference_count_query p)).value % 2 ^ 32 ≠ 1) :
    QuietSteps R (BuildCallback.build_event e p).destructor base heap Ls Hs ()
      (Ls ++ [reference_count_query p, .clReleaseProgram p.internal_id,
        .clReleaseEvent e.internal_id]) Hs := by
  unfold BuildCallback.destructor
  refine quiet_steps_bind
    (quiet_steps_program_destructor (hok _ _ rfl) (hok _ _ rfl) hne) ?_
  rw [show Ls ++ [reference_count_query p, Call.clReleaseProgram p.internal_id,
    .clReleaseEvent e.internal_id] = Ls ++ [reference_count_query p,
    .clReleaseProgram p.internal_id] ++ [.clReleaseEvent e.internal_id] by simp]
  exact quiet_of_steps (steps_event_destructor (hok _ _ rfl)) (freed_event_destructor e)

/-- On an executor whose calls succeed and that answers the two reference-count queries
with a count other than `1`, `make_build_event_callback` asks for the context, creates
one user event on it, and returns that event with a closure that captured a copy of it and
a copy of the program; every other copy it made is destroyed again, and nothing is
freed. -/
theorem quiet_steps_make_build_event_callback (R : List Call → Call → Reply)
    (self : Program) (base : List Call) (heap : List BuildCallback) (ctx e : Ident)
    (hok : ∀ log c, c.is_build = false → (R log c).status = CL_SUCCESS)
    (hctx : ctx = (R (base ++ []) (context_query self)).value) (hnn : ctx ≠ NULL)
    (he : e = (R (base ++ [context_query self, .clRetainContext ctx])
      (.clCreateUserEvent ctx)).event) (hev : e ≠ NULL)
    (h1 : (R (base ++ [context_query self, .clRetainContext ctx, .clCreateUserEvent ctx,
        .clRetainProgram self.internal_id, .clRetainEvent e,
        .clRetainProgram self.internal_id, .clRetainEvent e, .clRetainEvent e,
        .clRetainProgram self.internal_id]) (reference_count_query self)).value % 2 ^ 32
      ≠ 1)
    (h2 : (R (base ++ [context_query self, .clRetainContext ctx, .clCreateUserEvent ctx,
        .clRetainProgram self.internal_id, .clRetainEvent e,
        .clRetainProgram self.internal_id, .clRetainEvent e, .clRetainEvent e,
        .clRetainProgram self.internal_id,
        reference_count_query self, .clReleaseProgram self.internal_id, .clReleaseEvent e])
      (reference_count_query self)).value % 2 ^ 32 ≠ 1) :
    QuietSteps R self.make_build_event_callback base heap [] []
      (({ internal_id := e } : Event), .build_event { internal_id := e } self)
      [context_query self, .clRetainContext ctx, .clCreateUserEvent ctx,
        .clRetainProgram self.internal_id, .clRetainEvent e,
        .clRetainProgram self.internal_id, .clRetainEvent e, .clRetainEvent e,
        .clRetainProgram self.internal_id,
        reference_count_query self, .clReleaseProgram self.internal_id, .clReleaseEvent e,
        reference_count_query self, .clReleaseProgram self.internal_id, .clReleaseEvent e,
        .clReleaseContext ctx] [] := by
  subst hctx he
  unfold Program.make_build_event_callback
  apply quiet_steps_bind (quiet_of_steps (steps_raw_context_id (hok _ _ rfl))
    (freed_raw_context_id self))
  apply quiet_steps_bind (quiet_of_steps (steps_context_construct hnn (hok _ _ rfl))
    (freed_context_construct _ hnn))
  apply quiet_steps_scope_exit
  apply quiet_steps_bind (quiet_of_steps (steps_create_user_event (hok _ _ rfl) hev)
    (freed_create_user_event _))
  apply quiet_steps_scope_exit
  apply quiet_steps_bind (quiet_of_steps (steps_program_copy (hok _ _ rfl))
    (freed_program_copy_construct self))
  apply quiet_steps_scope_exit
  apply quiet_steps_bind (quiet_of_steps (steps_capture hok)
    (freed_capture_build_event _ _))
  apply quiet_steps_scope_exit
  apply quiet_steps_bind (quiet_of_steps (steps_event_copy (hok _ _ rfl))
    (freed_event_copy_construct _))
  apply quiet_steps_bind (quiet_steps_unwind (quiet_of_steps (steps_capture hok)
    (freed_capture_build_event _ _)))
  exact quiet_of_steps (steps_pure R _ _ _ _ _) (preserves_pure World.freed _)
  · exact quiet_steps_closure_destructor hok h1
  · exact quiet_steps_program_destructor (hok _ _ rfl) (hok _ _ rfl) h2
  · exact quiet_of_steps (steps_event_destructor (hok _ _ rfl)) (freed_event_destructor _)
  · exact quiet_of_steps (steps_context_destructor (hok _ _ rfl))
      (freed_context_destructor _)

/-- A successful `build_with_event` in full, on an executor whose calls succeed and that
answers the three reference-count queries made on the way with a count other than `1`:
the calls it makes, in order, the closure it leaves on the heap, and that it frees
nothing. -/
theorem build_with_event_counted (self : Program) (device_list : Option (List Device))
    (options : String) (w : World) (ctx e : Ident)
    (hok : ∀ log c, (w.respond log c).status = CL_SUCCESS)
    (hctx : ctx = (w.respond w.log (context_query self)).value) (hnn : ctx ≠ NULL)
    (he : e = (w.respond (w.log ++ [context_query self, .clRetainContext ctx])
      (.clCreateUserEvent ctx)).event) (hev : e ≠ NULL)
    (h1 : (w.respond (w.log ++ [context_query self, .clRetainContext ctx,
        .clCreateUserEvent ctx,
        .clRetainProgram self.internal_id, .clRetainEvent e,
        .clRetainProgram self.internal_id, .clRetainEvent e, .clRetainEvent e,
        .clRetainProgram self.internal_id]) (reference_count_query self)).value % 2 ^ 32
      ≠ 1)
    (h2 : (w.respond (w.log ++ [context_query self, .clRetainContext ctx,
        .clCreateUserEvent ctx,
        .clRetainProgram self.internal_id, .clRetainEvent e,
        .clRetainProgram self.internal_id, .clRetainEvent e, .clRetainEvent e,
        .clRetainProgram self.internal_id,
        reference_count_query self, .clReleaseProgram self.internal_id, .clReleaseEvent e])
      (reference_count_query self)).value % 2 ^ 32 ≠ 1)
    (h3 : (w.respond (w.log ++ [context_query self, .clRetainContext ctx,
        .clCreateUserEvent ctx,
        .clRetainProgram self.internal_id, .clRetainEvent e,
        .clRetainProgram self.internal_id, .clRetainEvent e, .clRetainEvent e,
        .clRetainProgram self.internal_id,
        reference_count_query self, .clReleaseProgram self.internal_id, .clReleaseEvent e,
        reference_count_query self, .clReleaseProgram self.internal_id, .clReleaseEvent e,
        .clReleaseContext ctx, .clRetainEvent e, .clRetainProgram self.internal_id,
        .clBuildProgram self.internal_id (device_view device_list).1
          (device_view device_list).2 options true (w.heap.length + 1), .clRetainEvent e])
      (reference_count_query self)).value % 2 ^ 32 ≠ 1) :
    ∃ w4 : World, self.build_with_event device_list options w =
        ((.returned { internal_id := e },
          { self with internal_callback_ptr := w.heap.length + 1 }), w4) ∧
      w4.respond = w.respond ∧
      w4.heap = w.heap ++ [.build_event { internal_id := e } self] ∧
      w4.freed = w.freed ∧
      w4.log = w.log ++ [context_query self, .clRetainContext ctx, .clCreateUserEvent ctx,
        .clRetainProgram self.internal_id, .clRetainEvent e,
        .clRetainProgram self.internal_id, .clRetainEvent e, .clRetainEvent e,
        .clRetainProgram self.internal_id,
        reference_count_query self, .clReleaseProgram self.internal_id, .clReleaseEvent e,
        reference_count_query self, .clReleaseProgram self.internal_id, .clReleaseEvent e,
        .clReleaseContext ctx, .clRetainEvent e, .clRetainProgram self.internal_id,
        .clBuildProgram self.internal_id (device_view device_list).1
          (device_view device_list).2 options true (w.heap.length + 1), .clRetainEvent e,
        reference_count_query self, .clReleaseProgram self.internal_id, .clReleaseEvent e,
        .clReleaseEvent e] := by
  have hok1 : ∀ log c, c.is_build = false → (w.respond log c).status = CL_SUCCESS :=
    fun log c _ => hok log c
  obtain ⟨w1, e1, r1, l1, p1, f1⟩ := quiet_steps_make_build_event_callback w.respond self
    w.log w.heap ctx e hok1 (by simpa using hctx) hnn he hev h1 h2 w rfl (by simp)
    (by simp)
  obtain ⟨w2, e2, r2, l2, p2, f2⟩ := quiet_of_steps
    (@steps_new_closure w.respond { internal_id := e } self _ _ _ _ hok1)
    (freed_new_closure _) w1 r1 l1 p1
  have hb : (w2.respond w2.log (.clBuildProgram self.internal_id
      (device_view device_list).1 (device_view device_list).2 options true
      (w.heap.length + 1))).status = CL_SUCCESS := by
    rw [r2]
    exact hok _ _
  have hl3 : w2.log ++ [Call.clBuildProgram self.internal_id (device_view device_list).1
      (device_view device_list).2 options true (w.heap.length + 1)] = w.log ++
      ([context_query self, .clRetainContext ctx, .clCreateUserEvent ctx,
        .clRetainProgram self.internal_id, .clRetainEvent e,
        .clRetainProgram self.internal_id, .clRetainEvent e, .clRetainEvent e,
        .clRetainProgram self.internal_id,
        reference_count_query self, .clReleaseProgram self.internal_id, .clReleaseEvent e,
        reference_count_query self, .clReleaseProgram self.internal_id, .clReleaseEvent e,
        .clReleaseContext ctx, .clRetainEvent e, .clRetainProgram self.internal_id,
        .clBuildProgram self.internal_id (device_view device_list).1
          (device_view device_list).2 options true (w.heap.length + 1)]) := by
    rw [l2]
    simp
  have hcl : ∀ Hs : List BuildCallback, QuietSteps w.respond (do
        (BuildCallback.build_event { internal_id := e } self).destructor
        ({ internal_id := e } : Event).destructor : M Unit) w.log w.heap _ Hs () _ Hs :=
    fun Hs => quiet_steps_bind (quiet_steps_closure_destructor hok1 h3)
      (quiet_of_steps (steps_event_destructor (hok _ _)) (freed_event_destructor _))
  simp only [Program.build_with_event, e1, Program.raw_build_program,
    BuildCallback.has_target, if_true, e2, call_build_program_apply, p1,
    List.append_nil, hb]
  obtain ⟨w4, e4, r4, l4, p4, f4⟩ := quiet_steps_scope_exit
    (quiet_of_steps (steps_event_copy (hok _ _)) (freed_event_copy_construct _))
    (hcl _) { w2 with log := w2.log ++ [.clBuildProgram self.internal_id
      (device_view device_list).1 (device_view device_list).2 options true
      (w.heap.length + 1)] } r2 hl3 p2
  rw [e4]
  refine ⟨w4, rfl, r4, by simp [p4], ?_, by simp [l4]⟩
  rw [f4]
  exact f2.trans f1

/-! ## The caller destroys its handles while a callback is pending -/

/-- The count of a program after one more query and release. -/
theorem program_count_after_release (initial : Ident → Int) (log : List Call)
    (h : Program) :
    program_count initial
        (log ++ [reference_count_query h, .clReleaseProgram h.internal_id]) h.internal_id
      = program_count initial log h.internal_id - 1 := by
  simp [program_count, List.count_append, List.count_cons, reference_count_query]
  omega

/-- Destroying handles of program `id` on an executor that counts references, while the
count stays above the number of handles: every destructor reads a count of at least `2`,
so each makes its query and its release and frees nothing. -/
theorem destroy_programs_counted (initial : Ident → Int) (id : Ident)
    (R : List Call → Call → Reply) (hok : ∀ log c, (R log c).status = CL_SUCCESS)
    (hcount : ∀ log, 0 ≤ program_count initial log id →
      (((R log (.clGetProgramInfo id CL_PROGRAM_REFERENCE_COUNT sizeof_cl_uint true
        false)).value : Nat) : Int) = program_count initial log id)
    (handles : List Program) :
    ∀ w : World, w.respond = R → (∀ h ∈ handles, h.internal_id = id) →
      (handles.length : Int) + 1 ≤ program_count initial w.log id →
      program_count initial w.log id < 2 ^ 32 →
      ∃ w2 : World, destroy_programs handles w = (.returned (), w2) ∧ w2.respond = R ∧
        w2.heap = w.heap ∧ w2.freed = w.freed ∧
        w2.log = w.log ++ destruction_calls handles ∧
        program_count initial w2.log id
          = program_count initial w.log id - handles.length := by
  induction handles with
  | nil =>
    intro w hR _ _ _
    exact ⟨w, rfl, hR, rfl, rfl, by simp [destruction_calls], by simp⟩
  | cons h rest ih =>
    intro w hR hids hlow hfit
    have hid : h.internal_id = id := hids h (by simp)
    subst hid
    have hlen : ((h :: rest).length : Int) = (rest.length : Int) + 1 := by simp
    rw [hlen] at hlow
    have hv := hcount w.log (by omega)
    have hne : (R (w.log ++ []) (reference_count_query h)).value % 2 ^ 32 ≠ 1 := by
      rw [List.append_nil]
      simp only [reference_count_query]
      omega
    have hstep := program_count_after_release initial w.log h
    obtain ⟨w1, e1, r1, l1, p1, f1⟩ := @quiet_steps_program_destructor R h w.log w.heap []
      [] (hok _ _) (hok _ _) hne w hR (by simp) (by simp)
    simp only [List.nil_append, List.append_nil] at l1 p1
    obtain ⟨w2, e2, r2, p2, f2, l2, c2⟩ := ih w1 r1
      (fun h1 hm => hids h1 (by simp [hm])) (by rw [l1, hstep]; omega)
      (by rw [l1, hstep]; omega)
    refine ⟨w2, ?_, r2, p2.trans p1, f2.trans f1, ?_, ?_⟩
    · simp only [destroy_programs, bind_apply, e1]
      exact e2
    · rw [l2, l1]
      simp [destruction_calls]
    · rw [c2, l1, hstep, hlen]
      omega

/-! ## The callback issues no retain and no release of a program -/

theorem reference_calls_call (c : Call) (hc : c.is_program_reference = false) (w : World) :
    program_reference_calls { w with log := w.log ++ [c] } = program_reference_calls w := by
  simp [program_reference_calls, List.filter_append, hc]

theorem silent_checked_call (c : Call) (hc : c.is_program_reference = false) :
    Preserves program_reference_calls
      (do let r ← exec c; throw_if_failed r.status : M Unit) :=
  preserves_checked_call program_reference_calls c (reference_calls_call c hc)

theorem silent_device_construct (id : Ident) (b : Bool) :
    Preserves program_reference_calls (Device.construct id b) := by
  intro w
  by_cases hid : id = NULL
  · simp [Device.construct, hid, raise_apply]
  · cases b
    · simp [Device.construct, hid, bind_apply, pure_apply]
    · by_cases hs : (w.respond w.log (.clRetainDevice id)).status = CL_SUCCESS
      all_goals
        simp [Device.construct, hid, bind_apply, pure_apply, exec_apply,
          throw_if_failed_apply, hs, program_reference_calls, List.filter_append,
          Call.is_program_reference]

theorem silent_device_destructor (d : Device) :
    Preserves program_reference_calls d.destructor :=
  preserves_noexcept _ _ (silent_checked_call _ rfl)

theorem silent_destroy_devices (ds : List Device) :
    Preserves program_reference_calls (destroy_devices ds) := by
  induction ds with
  | nil => exact preserves_pure _ _
  | cons d rest ih =>
    exact preserves_bind _ _ _ (silent_device_destructor d) (fun _ => ih)

theorem silent_emplace_devices (ids : List Ident) (result : List Device) :
    Preserves program_reference_calls (emplace_devices result ids) := by
  induction ids generalizing result with
  | nil => exact preserves_pure _ _
  | cons id rest ih =>
    exact preserves_bind _ _ _
      (preserves_unwind _ _ _ (silent_device_construct id true)
        (silent_destroy_devices result))
      (fun d => ih (result ++ [d]))

theorem silent_program_raw_query (p : Program) (param size : Nat) (a : Bool) :
    Preserves program_reference_calls (p.raw_query param size a) := by
  intro w
  by_cases hs : (w.respond w.log (.clGetProgramInfo p.internal_id param size true a)).status
      = CL_SUCCESS
  all_goals
    simp [Program.raw_query, bind_apply, pure_apply, exec_apply, throw_if_failed_apply, hs,
      program_reference_calls, List.filter_append, Call.is_program_reference]

theorem silent_program_raw_query_array (p : Program) (param amount size : Nat) :
    Preserves program_reference_calls (p.raw_query_array param amount size) := by
  intro w
  by_cases hs : (w.respond w.log
      (.clGetProgramInfo p.internal_id param (amount * size) true false)).status = CL_SUCCESS
  all_goals
    simp [Program.raw_query_array, bind_apply, pure_apply, exec_apply, throw_if_failed_apply,
      hs, program_reference_calls, List.filter_append, Call.is_program_reference]

theorem silent_program_devices (p : Program) :
    Preserves program_reference_calls p.devices :=
  preserves_bind _ _ _
    (preserves_bind _ _ _ (silent_program_raw_query p _ _ _) (fun _ => preserves_pure _ _))
    (fun _ => preserves_bind _ _ _ (silent_program_raw_query_array p _ _ _)
      (fun ids => silent_emplace_devices ids []))

theorem silent_program_build_status (p : Program) (d : Device) :
    Preserves program_reference_calls (p.build_status d) := by
  intro w
  by_cases hs : (w.respond w.log (build_status_query p.internal_id d.raw_identifier)).status
      = CL_SUCCESS
  all_goals
    simp only [build_status_query] at hs
    simp [Program.build_status, Program.raw_build_info_query, bind_apply, pure_apply,
      exec_apply, throw_if_failed_apply, hs, program_reference_calls,
      List.filter_append, Call.is_program_reference]

theorem silent_set_status (e : Event) (st : Int) :
    Preserves program_reference_calls (e.set_status st) :=
  silent_checked_call _ rfl

theorem silent_check_devices (ev : Event) (p : Program) (ds : List Device) :
    Preserves program_reference_calls (check_devices ev p ds) := by
  induction ds with
  | nil => exact preserves_pure _ _
  | cons d rest ih =>
    exact preserves_bind _ _ _ (silent_program_build_status p d)
      (fun _ => preserves_ite _ _ _ _ ih
        (preserves_ite _ _ _ _
          (preserves_bind _ _ _ (silent_set_status ev _) (fun _ => preserves_pure _ _))
          (preserves_raise _ _)))

/-- Whatever the executor answers, a run of the build-event callback issues no retain
and no release of a program. -/
theorem silent_build_event_callback (ev : Event) (p : Program) (unused : Ident) :
    Preserves program_reference_calls (build_event_callback ev p unused) :=
  preserves_bind _ _ _ (silent_program_devices p)
    (fun ds => preserves_scope_exit _ _ _
      (preserves_bind _ _ _ (silent_check_devices ev p ds)
        (fun _ => preserves_ite _ _ _ _ (silent_set_status ev _)
          (preserves_pure _ _)))
      (silent_destroy_devices ds))

/-- The reference count of a program is a function of the retain and release calls of
the log. -/
theorem program_count_of_reference_calls (initial : Ident → Int) (id : Ident) (w w1 : World)
    (h : program_reference_calls w1 = program_reference_calls w) :
    program_count initial w1.log id = program_count initial w.log id := by
  have h1 : ∀ (c : Call) (l : List Call), c.is_program_reference = true →
      l.count c = (l.filter Call.is_program_reference).count c := by
    intro c l hc
    rw [List.count_filter hc]
  simp only [program_count]
  rw [h1 (.clRetainProgram id) w1.log rfl, h1 (.clReleaseProgram id) w1.log rfl,
    h1 (.clRetainProgram id) w.log rfl, h1 (.clReleaseProgram id) w.log rfl]
  simp only [program_reference_calls] at h
  rw [h]

/-! ## C22: a pending callback keeps the program referenced -/

/-- C22: on an executor whose calls succeed and that counts references, a program with
the count `c` before `build_with_event` has the count `c + 1` after it: the closure left
on the heap holds a retained copy of the program.  When the caller then destroys handles
of the program, at most the `c` it can own, each destructor reads a count of at least
`2`: all return, nothing is freed, so the last-reference branch of `release` has not run,
the closure stays on the heap, and the count stays at least `1`.  A run of the registered
closure issues no retain and no release of a program, so the count is not changed while
the callback runs. -/
theorem pending_callback_keeps_program_referenced (self : Program)
    (device_list : Option (List Device)) (options : String) (w : World)
    (initial : Ident → Int) (handles : List Program) (ctx e : Ident)
    (hok : ∀ log c, (w.respond log c).status = CL_SUCCESS)
    (hcount : ∀ log, 0 ≤ program_count initial log self.internal_id →
      (((w.respond log (reference_count_query self)).value : Nat) : Int)
        = program_count initial log self.internal_id)
    (hctx : ctx = (w.respond w.log (context_query self)).value) (hnn : ctx ≠ NULL)
    (he : e = (w.respond (w.log ++ [context_query self, .clRetainContext ctx])
      (.clCreateUserEvent ctx)).event) (hev : e ≠ NULL)
    (hids : ∀ h ∈ handles, h.internal_id = self.internal_id)
    (hown : (handles.length : Int) ≤ program_count initial w.log self.internal_id)
    (hfit : program_count initial w.log self.internal_id + 4 < 2 ^ 32) :
    (self.build_with_event device_list options w).1.1 = .returned { internal_id := e } ∧
    (self.build_with_event device_list options w).2.heap
      = w.heap ++ [.build_event { internal_id := e } self] ∧
    (self.build_with_event device_list options w).2.freed = w.freed ∧
    program_count initial (self.build_with_event device_list options w).2.log
        self.internal_id
      = program_count initial w.log self.internal_id + 1 ∧
    (destroy_programs handles (self.build_with_event device_list options w).2).1
      = .returned () ∧
    (destroy_programs handles (self.build_with_event device_list options w).2).2.freed
      = w.freed ∧
    (destroy_programs handles (self.build_with_event device_list options w).2).2.heap
      = w.heap ++ [.build_event { internal_id := e } self] ∧
    (destroy_programs handles (self.build_with_event device_list options w).2).2.log
      = (self.build_with_event device_list options w).2.log ++ destruction_calls handles ∧
    program_count initial
        (destroy_programs handles (self.build_with_event device_list options w).2).2.log
        self.internal_id
      = program_count initial w.log self.internal_id + 1 - handles.length ∧
    1 ≤ program_count initial
        (destroy_programs handles (self.build_with_event device_list options w).2).2.log
        self.internal_id ∧
    (∀ (program : Ident) (w2 : World),
      program_count initial
          ((BuildCallback.build_event { internal_id := e } self).invoke program w2).2.log
          self.internal_id
        = program_count initial w2.log self.internal_id) := by
  have hlen : (0 : Int) ≤ (handles.length : Int) := Int.ofNat_nonneg _
  have hc1 : program_count initial (w.log ++ [context_query self, .clRetainContext ctx,
      .clCreateUserEvent ctx,
      .clRetainProgram self.internal_id, .clRetainEvent e,
      .clRetainProgram self.internal_id, .clRetainEvent e, .clRetainEvent e,
      .clRetainProgram self.internal_id]) self.internal_id
      = program_count initial w.log self.internal_id + 3 := by
    simp [program_count, List.count_append, List.count_cons, context_query]
    omega
  have hc2 : program_count initial (w.log ++ [context_query self, .clRetainContext ctx,
      .clCreateUserEvent ctx,
      .clRetainProgram self.internal_id, .clRetainEvent e,
      .clRetainProgram self.internal_id, .clRetainEvent e, .clRetainEvent e,
      .clRetainProgram self.internal_id,
      reference_count_query self, .clReleaseProgram self.internal_id, .clReleaseEvent e])
      self.internal_id = program_count initial w.log self.internal_id + 2 := by
    simp [program_count, List.count_append, List.count_cons, context_query,
      reference_count_query]
    omega
  have hc3 : program_count initial (w.log ++ [context_query self, .clRetainContext ctx,
      .clCreateUserEvent ctx,
      .clRetainProgram self.internal_id, .clRetainEvent e,
      .clRetainProgram self.internal_id, .clRetainEvent e, .clRetainEvent e,
      .clRetainProgram self.internal_id,
      reference_count_query self, .clReleaseProgram self.internal_id, .clReleaseEvent e,
      reference_count_query self, .clReleaseProgram self.internal_id, .clReleaseEvent e,
      .clReleaseContext ctx, .clRetainEvent e, .clRetainProgram self.internal_id,
      .clBuildProgram self.internal_id (device_view device_list).1
        (device_view device_list).2 options true (w.heap.length + 1), .clRetainEvent e])
      self.internal_id = program_count initial w.log self.internal_id + 2 := by
    simp [program_count, List.count_append, List.count_cons, context_query,
      reference_count_query]
    omega
  have hv1 := hcount _ (by rw [hc1]; omega)
  have hv2 := hcount _ (by rw [hc2]; omega)
  have hv3 := hcount _ (by rw [hc3]; omega)
  rw [hc1] at hv1
  rw [hc2] at hv2
  rw [hc3] at hv3
  obtain ⟨w4, e4, r4, p4, f4, l4⟩ := build_with_event_counted self device_list options w
    ctx e hok hctx hnn he hev (by omega) (by omega) (by omega)
  have hc4 : program_count initial w4.log self.internal_id
      = program_count initial w.log self.internal_id + 1 := by
    rw [l4]
    simp [program_count, List.count_append, List.count_cons, context_query,
      reference_count_query]
    omega
  obtain ⟨w5, e5, r5, p5, f5, l5, c5⟩ := destroy_programs_counted initial
    self.internal_id w.respond hok (by simpa [reference_count_query] using hcount) handles
    w4 r4 hids (by rw [hc4]; omega) (by rw [hc4]; omega)
  rw [e4]
  simp only [e5]
  refine ⟨trivial, p4, f4, hc4, trivial, f5.trans f4, p5.trans p4, l5, ?_, ?_, ?_⟩
  · rw [c5, hc4]
  · rw [c5, hc4]
    omega
  · intro program w2
    exact program_count_of_reference_calls initial self.internal_id w2 _
      (silent_build_event_callback { internal_id := e } self program w2)

/-- Witness for C22: a program held by one handle, count `1`, on the counting mock; the
handle is destroyed after `build_with_event`, nothing is freed and the count is still at
least `1`. -/
theorem pending_callback_keeps_program_referenced_witness :
    (destroy_programs [⟨3, NULL⟩]
      (Program.build_with_event ⟨3, NULL⟩ none "-O"
        (fresh (counting (fun _ => 1)))).2).2.freed = [] ∧
    1 ≤ program_count (fun _ => 1)
      (destroy_programs [⟨3, NULL⟩]
        (Program.build_with_event ⟨3, NULL⟩ none "-O"
          (fresh (counting (fun _ => 1)))).2).2.log 3 :=
  ⟨(pending_callback_keeps_program_referenced ⟨3, NULL⟩ none "-O"
      (fresh (counting (fun _ => 1))) (fun _ => 1) [⟨3, NULL⟩] 5 7
      (by intro log c; cases c <;> rfl)
      (by intro log h; simp [fresh, counting, reference_count_query, Int.toNat_of_nonneg h])
      (by decide) (by decide) (by decide) (by decide) (by simp)
      (by simp [program_count, fresh]) (by simp [program_count, fresh])).2.2.2.2.2.1,
   (pending_callback_keeps_program_referenced ⟨3, NULL⟩ none "-O"
      (fresh (counting (fun _ => 1))) (fun _ => 1) [⟨3, NULL⟩] 5 7
      (by intro log c; cases c <;> rfl)
      (by intro log h; simp [fresh, counting, reference_count_query, Int.toNat_of_nonneg h])
      (by decide) (by decide) (by decide) (by decide) (by simp)
      (by simp [program_count, fresh]) (by simp [program_count, fresh])).2.2.2.2.2.2.2.2.2.1⟩

end CLplusplus
